import Mathlib

/-!
# Yomi accuracy challenge: the procedure simulation core

A shallow embedding of the parts of the repository that the specification calls the
core:

* `YomiSimulation`: the module function of `js/simulation.js` that builds
  `window.YomiSimulation` (method table, session start, motion transform, deviation
  tracker, frame loop, Strategy A scoring, `setView`);
* `SimulationManager`: the drilling state machine, `calculateResults`, the camera easing
  of `setCamera` in `src/js/simulation.js`;
* `YomiArcadeApp`: `selectMethod` and `processResults` of `src/js/app.js` (Strategy B
  scoring);
* `CameraController`: `transitionTo` of `src/js/cameraController.js`;
* `EnhancedSimulation`: the particle loop of `update` in `src/js/enhancedSimulation.js`.

Conventions.

* Numbers are the elements of an ordered field `K` with a floor function (exact
  arithmetic, instantiated at the rationals or the reals), wrapped in `JSNum` where the
  non-numeric value NaN can arise.
* Where the outcome turns on the rounding of doubles (the descent of the drill, the end
  of a camera transition) the functions take the rounding `fl` of each arithmetic result
  as a parameter: `roundDouble`, the nearest binary64 number with ties to even, for the
  arithmetic of JavaScript, and the identity for exact arithmetic.
* `String.prototype.toUpperCase` is the ASCII mapping `toUpperCase` where only ids of
  ASCII characters are at stake, and a parameter of `selectMethodWith`.
* `Math.sqrt` and `THREE.MathUtils.degToRad` come from outside the repository and are
  taken as parameters (`MathEnv`); `Math.random()` samples and `Date.now()` readings are
  explicit arguments.
* The variables that the modelled functions read or write form a state record.
* A thrown exception is an `Except.error`.
-/

set_option linter.unusedSectionVars false
set_option linter.unusedVariables false

namespace YomiSimulation

/-- A JavaScript number: a value of the number type, or NaN. -/
inductive JSNum (α : Type) where
  | num (v : α)
  | nan
deriving DecidableEq, Repr

/-- The exceptions the module can raise. -/
inductive JSError where
  | referenceError
  | typeError
deriving DecidableEq, Repr

/-- The state of a binding declared by `let`: it exists from the moment its scope is
entered, and can be read or written only once the declaration statement has run. -/
inductive LetBinding (α : Type) where
  | uninitialized
  | initialized (v : α)
deriving DecidableEq, Repr

/-- Reading a `let` binding: a ReferenceError while it is uninitialised. -/
def LetBinding.read {α : Type} : LetBinding α → Except JSError α
  | .uninitialized => .error .referenceError
  | .initialized v => .ok v

/-- One entry of `methodParams` (lines 24-41). -/
structure MethodProfile (K : Type) where
  stabilityFactor : K
  precisionFactor : K
  maxAngleDeviation : K
  maxDepthDeviation : K
deriving DecidableEq, Repr

/-- What the property read `methodParams[key]` yields: an entry of the table, a member
inherited from `Object.prototype` (a function or object, hence truthy, none of whose
profile fields is defined), or `undefined`. -/
inductive PropertyValue (K : Type) where
  | own (p : MethodProfile K)
  | inherited
  | undefined
deriving DecidableEq, Repr

/-- The functions of the host environment that the module calls on numbers. -/
structure MathEnv (K : Type) where
  /-- `Math.sqrt`, called on sums of squares only. -/
  sqrt : K → K
  /-- `THREE.MathUtils.degToRad`. -/
  degToRad : K → K

/-- The module variables of lines 11-17 that the modelled functions use, together with
the two Euler angles of `implantModel.rotation` they assign. The scene objects
(`camera`, `controls`, `implantModel`, `targetRotation`) are those `initScene` creates. -/
structure State (K : Type) where
  currentMethod : Option String
  currentView : String
  isDragging : Bool
  implantAngle : JSNum K
  implantDepth : JSNum K
  rotationX : JSNum K
  rotationZ : JSNum K
  targetRotationX : K
  targetRotationZ : K
  cameraPosition : K × K × K
  controlsEnabled : Bool
deriving DecidableEq, Repr

/-- The object `completeSimulation` returns (lines 139-144). -/
structure Result (K : Type) where
  method : Option String
  angle : JSNum K
  depth : JSNum K
  score : JSNum ℤ
deriving DecidableEq, Repr

section Definitions

variable {K : Type} [LinearOrderedField K] [FloorRing K]

/-- The table `methodParams` (lines 23-42): its own entries. -/
def methodParams (key : String) : Option (MethodProfile K) :=
  if key = "freehand" then
    some { stabilityFactor := 0.2, precisionFactor := 0.3,
           maxAngleDeviation := 10, maxDepthDeviation := 2 }
  else if key = "static" then
    some { stabilityFactor := 0.6, precisionFactor := 0.6,
           maxAngleDeviation := 5, maxDepthDeviation := 1.5 }
  else if key = "yomi" then
    some { stabilityFactor := 0.9, precisionFactor := 0.95,
           maxAngleDeviation := 2, maxDepthDeviation := 0.5 }
  else none

/-- The property names every object literal inherits from `Object.prototype`. -/
def objectPrototypeKeys : List String :=
  ["constructor", "hasOwnProperty", "isPrototypeOf", "propertyIsEnumerable",
   "toLocaleString", "toString", "valueOf", "__proto__",
   "__defineGetter__", "__defineSetter__", "__lookupGetter__", "__lookupSetter__"]

/-- The property key a value of `currentMethod` converts to: `null` reads the
property named "null". -/
def propertyKey : Option String → String
  | none => "null"
  | some s => s

/-- The property read `methodParams[currentMethod]`: the table is an object literal, so
a key that is not its own is looked up on `Object.prototype`. -/
def methodParamsGet (currentMethod : Option String) : PropertyValue K :=
  match methodParams (propertyKey currentMethod) with
  | some p => .own p
  | none =>
    if propertyKey currentMethod ∈ objectPrototypeKeys then .inherited else .undefined

/-- The test `!currentMethod`: `null` and the empty string are falsy. -/
def isFalsy : Option String → Bool
  | none => true
  | some s => s == ""

/-- The binding `animationId`. Its declaration `let animationId;` stands on line 369,
below the `return` statement of line 52 that ends the module function, so the
declaration is never executed and the binding stays uninitialised for good. -/
def animationId : LetBinding ℕ := .uninitialized

/-- The function `Math.round`: the nearest integer, a tie going up. -/
def mathRound (x : K) : ℤ := ⌊x + 0.5⌋

/-- Lines 120-144 of `completeSimulation`: the statements below the call
`cancelAnimationFrame(animationId)`. A read of a field of `undefined` raises a
TypeError; an undefined field or a NaN deviation makes the score NaN. -/
def completeSimulationBody (st : State K) : Except JSError (Result K) :=
  let angleDeviation := st.implantAngle
  let depthDeviation := st.implantDepth
  match (methodParamsGet st.currentMethod : PropertyValue K) with
  | .undefined => .error .typeError
  | .inherited =>
    .ok { method := st.currentMethod, angle := angleDeviation, depth := depthDeviation,
          score := .nan }
  | .own p =>
    let maxAngleDeviation := p.maxAngleDeviation
    let maxDepthDeviation := p.maxDepthDeviation
    match angleDeviation, depthDeviation with
    | .num a, .num d =>
      let angleScore := 100 - (a / maxAngleDeviation) * 100
      let depthScore := 100 - (d / maxDepthDeviation) * 100
      let score := mathRound ((angleScore * 0.6) + (depthScore * 0.4))
      let finalScore := max 0 (min 100 score)
      .ok { method := st.currentMethod, angle := angleDeviation, depth := depthDeviation,
            score := .num finalScore }
    | _, _ =>
      .ok { method := st.currentMethod, angle := angleDeviation, depth := depthDeviation,
            score := .nan }

/-- The method `completeSimulation` (lines 116-145): the value it returns or the
exception it raises, and the state it leaves. Line 118 reads `animationId` to pass it to
`cancelAnimationFrame`; the rest assigns no module variable. -/
def completeSimulation (st : State K) : Except JSError (Result K) × State K :=
  match animationId.read with
  | .error e => (.error e, st)
  | .ok _ => (completeSimulationBody st, st)

/-- The function `updateImplantPosition` (lines 285-320), with the two `Math.random()`
samples `r1` and `r2` in the order they are drawn. -/
def updateImplantPosition (env : MathEnv K) (st : State K) (x y r1 r2 : K) : State K :=
  if isFalsy st.currentMethod then st
  else
    match (methodParamsGet st.currentMethod : PropertyValue K) with
    | .undefined => st
    | .inherited =>
      { st with rotationX := .nan, rotationZ := .nan, implantAngle := .nan,
                implantDepth := .nan }
    | .own params =>
      let stabilityFactor := params.stabilityFactor
      let randomFactor := (1 - stabilityFactor) * 0.1
      let randomX := (r1 - 0.5) * randomFactor
      let randomY := (r2 - 0.5) * randomFactor
      let precisionFactor := params.precisionFactor
      let controlledX := x * precisionFactor + randomX
      let controlledY := y * precisionFactor + randomY
      let maxAngle := params.maxAngleDeviation
      let angleX := controlledX * maxAngle
      let angleY := controlledY * maxAngle
      { st with
        rotationX := .num (st.targetRotationX + env.degToRad angleY)
        rotationZ := .num (st.targetRotationZ + env.degToRad angleX)
        implantAngle := .num (env.sqrt (angleX * angleX + angleY * angleY))
        implantDepth := .num (|controlledX + controlledY| * params.maxDepthDeviation) }

/-- Lines 289-319 of `updateImplantPosition`: the statements below the read of
`methodParams[currentMethod]`, for the profile `params` that read has given. -/
def updateImplantPositionWith (env : MathEnv K) (params : MethodProfile K) (st : State K)
    (x y r1 r2 : K) : State K :=
  let stabilityFactor := params.stabilityFactor
  let randomFactor := (1 - stabilityFactor) * 0.1
  let randomX := (r1 - 0.5) * randomFactor
  let randomY := (r2 - 0.5) * randomFactor
  let precisionFactor := params.precisionFactor
  let controlledX := x * precisionFactor + randomX
  let controlledY := y * precisionFactor + randomY
  let maxAngle := params.maxAngleDeviation
  let angleX := controlledX * maxAngle
  let angleY := controlledY * maxAngle
  { st with
    rotationX := .num (st.targetRotationX + env.degToRad angleY)
    rotationZ := .num (st.targetRotationZ + env.degToRad angleX)
    implantAngle := .num (env.sqrt (angleX * angleX + angleY * angleY))
    implantDepth := .num (|controlledX + controlledY| * params.maxDepthDeviation) }

/-- The rectangle `canvasContainer.getBoundingClientRect()` returns. -/
structure Rect (K : Type) where
  left : K
  top : K
  width : K
  height : K
deriving DecidableEq, Repr

/-- The method `setView` (lines 90-113). The call `camera.lookAt(0, 0, 0)` turns the
camera without moving it; the orientation is not part of the tracked state. -/
def setView (st : State K) (view : String) : State K :=
  let st1 := { st with currentView := view }
  if view = "buccal" then
    { st1 with cameraPosition := (0, 0, 10), controlsEnabled := false }
  else if view = "lingual" then
    { st1 with cameraPosition := (0, 0, -10), controlsEnabled := false }
  else if view = "occlusal" then
    { st1 with cameraPosition := (0, 10, 0), controlsEnabled := false }
  else if view = "free" then
    { st1 with controlsEnabled := true }
  else
    { st1 with cameraPosition := (0, 0, 10), controlsEnabled := false }

/-- The handler `onMouseDown` (lines 238-241). -/
def onMouseDown (st : State K) : State K :=
  if st.currentView = "free" then st else { st with isDragging := true }

/-- The handler `onMouseMove` (lines 243-253) for an event at `(clientX, clientY)` over a
canvas with bounding rectangle `rect` (of non-zero width and height); `r1` and `r2` are
the `Math.random()` samples the transform draws when it runs. -/
def onMouseMove (env : MathEnv K) (st : State K) (clientX clientY : K) (rect : Rect K)
    (r1 r2 : K) : State K :=
  if !st.isDragging || st.currentView = "free" then st
  else
    let x := ((clientX - rect.left) / rect.width) * 2 - 1
    let y := -((clientY - rect.top) / rect.height) * 2 + 1
    updateImplantPosition env st x y r1 r2

/-- The handler `onMouseUp` (lines 255-257). -/
def onMouseUp (st : State K) : State K := { st with isDragging := false }

/-- The handler `onTouchStart` (lines 260-264). -/
def onTouchStart (st : State K) : State K :=
  if st.currentView = "free" then st else { st with isDragging := true }

/-- The handler `onTouchMove` (lines 266-278) for an event whose first touch is at
`(clientX, clientY)`. -/
def onTouchMove (env : MathEnv K) (st : State K) (clientX clientY : K) (rect : Rect K)
    (r1 r2 : K) : State K :=
  if !st.isDragging || st.currentView = "free" then st
  else
    let x := ((clientX - rect.left) / rect.width) * 2 - 1
    let y := -((clientY - rect.top) / rect.height) * 2 + 1
    updateImplantPosition env st x y r1 r2

/-- Assigning to a `let` binding: a ReferenceError while it is uninitialised. -/
def LetBinding.assign {α : Type} : LetBinding α → α → Except JSError (LetBinding α)
  | .uninitialized, _ => .error .referenceError
  | .initialized _, v => .ok (.initialized v)

/-- Adding a number to a JavaScript number: NaN stays NaN. -/
def JSNum.addNum (a : JSNum K) (delta : K) : JSNum K :=
  match a with
  | .num v => .num (v + delta)
  | .nan => .nan

/-- Which of the elements that `initialize` looks up by id (lines 64-68) exist in the
document. -/
structure Dom where
  canvas : Bool
  angleValue : Bool
  depthValue : Bool
  angleMeter : Bool
  depthMeter : Bool
deriving DecidableEq, Repr

/-- The function `updateMeters` (lines 323-357). It writes to the document only; for each
meter element that exists it reads a field of `methodParams[currentMethod]`, which raises
a TypeError when that table read is `undefined`. -/
def updateMeters (dom : Dom) (st : State K) : Except JSError Unit :=
  let angleMeterStep : Except JSError Unit :=
    if dom.angleMeter then
      match (methodParamsGet st.currentMethod : PropertyValue K) with
      | .undefined => .error .typeError
      | _ => .ok ()
    else .ok ()
  match angleMeterStep with
  | .error e => .error e
  | .ok _ =>
    if dom.depthMeter then
      match (methodParamsGet st.currentMethod : PropertyValue K) with
      | .undefined => .error .typeError
      | _ => .ok ()
    else .ok ()

/-- The function `initScene` (lines 167-222), with `pi` for `Math.PI`: the camera is put
at (0, 0, 10), orbit control is off, the implant and the target are turned by `pi/2`
about the x axis. Reading the size of a canvas container that does not exist raises a
TypeError. -/
def initScene (pi : K) (dom : Dom) (st : State K) : Except JSError Unit × State K :=
  if dom.canvas then
    (.ok (),
      { st with
        cameraPosition := (0, 0, 10)
        controlsEnabled := false
        rotationX := .num (pi / 2)
        rotationZ := .num 0
        targetRotationX := pi / 2
        targetRotationZ := 0 })
  else (.error .typeError, st)

/-- Lines 373-390 of `animate`: the statements below the assignment to `animationId`.
With a truthy method and no drag in progress both rotation angles of the implant take up
a random shake; `stabilityFactor || 0.5` replaces an undefined or zero factor by 0.5. The
calls `controls.update()` and `renderer.render` touch no tracked value. -/
def animateBody (st : State K) (r1 r2 : K) : Except JSError (State K) :=
  if !isFalsy st.currentMethod && !st.isDragging then
    let shake (stabilityOrDefault : K) : State K :=
      let shakeFactor := 1 - stabilityOrDefault
      let shakeAmount := shakeFactor * 0.001
      { st with
        rotationX := st.rotationX.addNum ((r1 - 0.5) * shakeAmount)
        rotationZ := st.rotationZ.addNum ((r2 - 0.5) * shakeAmount) }
    match (methodParamsGet st.currentMethod : PropertyValue K) with
    | .undefined => .error .typeError
    | .inherited => .ok (shake 0.5)
    | .own params =>
      .ok (shake (if params.stabilityFactor = 0 then 0.5 else params.stabilityFactor))
  else .ok st

/-- The function `animate` (lines 370-391), called once per frame. Line 371 first asks
for the next frame and then assigns the id it gets, `frameId`, to `animationId`. -/
def animate (st : State K) (frameId : ℕ) (r1 r2 : K) : Except JSError Unit × State K :=
  match animationId.assign frameId with
  | .error e => (.error e, st)
  | .ok _ =>
    match animateBody st r1 r2 with
    | .error e => (.error e, st)
    | .ok st1 => (.ok (), st1)

/-- Successive runs of the statements of `animate` below line 371, one per frame, each
with its two random samples. -/
def idleFrames (st : State K) : List (K × K) → Except JSError (State K)
  | [] => .ok st
  | (r1, r2) :: rest =>
    match animateBody st r1 r2 with
    | .error e => .error e
    | .ok st1 => idleFrames st1 rest

/-- The method `initialize` (lines 57-87) for the argument `method`: how the call ends and
the state it leaves. The first frame of `animate` gets `frameId` and the samples `r1`,
`r2`. -/
def initializeSession (pi : K) (dom : Dom) (st : State K) (method : Option String)
    (frameId : ℕ) (r1 r2 : K) : Except JSError Unit × State K :=
  let st1 := { st with currentMethod := method }
  let st2 := { st1 with implantAngle := .num 0, implantDepth := .num 0 }
  match updateMeters dom st2 with
  | .error e => (.error e, st2)
  | .ok _ =>
    match initScene pi dom st2 with
    | (.error e, st3) => (.error e, st3)
    | (.ok _, st3) =>
      match animate st3 frameId r1 r2 with
      | (.error e, st4) => (.error e, st4)
      | (.ok _, st4) => (.ok (), setView st4 "buccal")

/-- A sample session state: method `m` active, the tracker holding the deviations `a`
and `d`, the buccal view with orbit control off as `initScene` leaves it, and the
rotation angles of the implant and of the target all put at 0. -/
def sessionState (m : String) (a d : K) : State K :=
  { currentMethod := some m, currentView := "buccal", isDragging := false,
    implantAngle := .num a, implantDepth := .num d,
    rotationX := .num 0, rotationZ := .num 0,
    targetRotationX := 0, targetRotationZ := 0,
    cameraPosition := (0, 0, 10), controlsEnabled := false }

/-- Spec, section 4.3: `clamp(v, lo, hi)`. -/
def clamp (v lo hi : ℤ) : ℤ := if v < lo then lo else if hi < v then hi else v

/-- Spec, section 4.3: `n` is `x` rounded to the nearest integer, a half rounding up. -/
def IsRoundHalfUp (x : K) (n : ℤ) : Prop := (n : K) - 1 / 2 ≤ x ∧ x < (n : K) + 1 / 2

/-- Spec, section 4.3, Strategy A: the raw score, the two sub-scores combined with
weights 0.6 and 0.4 and not clamped. -/
def strategyARaw (p : MethodProfile K) (a d : K) : K :=
  0.6 * (100 - (a / p.maxAngleDeviation) * 100) + 0.4 * (100 - (d / p.maxDepthDeviation) * 100)

end Definitions

end YomiSimulation

namespace SimulationManager

/-- The coordinates of a `THREE.Vector3`. -/
structure Vector3 (K : Type) where
  x : K
  y : K
  z : K
deriving DecidableEq, Repr

/-- The object `calculateResults` returns (lines 549-559 of `src/js/simulation.js`). -/
structure Results (K : Type) where
  finalDistance : K
  angleError : K
  depthError : K
  timeSeconds : K
  position : Vector3 K
deriving DecidableEq, Repr

variable {K : Type} [LinearOrderedField K] [FloorRing K]

/-- The method `THREE.Vector3.distanceTo`: the square root of the sum of the squared
coordinate differences. -/
def distanceTo (env : YomiSimulation.MathEnv K) (a b : Vector3 K) : K :=
  let dx := a.x - b.x
  let dy := a.y - b.y
  let dz := a.z - b.z
  env.sqrt (dx * dx + dy * dy + dz * dz)

/-- The method `calculateResults` (lines 543-560 of `src/js/simulation.js`); `random` is
the `Math.random()` sample of line 545 and `now` the `Date.now()` reading of line 547. -/
def calculateResults (env : YomiSimulation.MathEnv K) (implantPosition targetPosition : Vector3 K)
    (startTime now random : K) : Results K :=
  let distance := distanceTo env implantPosition targetPosition
  let angleError := random * 10 + distance * 20
  let depthError := |implantPosition.y| * 10
  let timeSeconds := (now - startTime) / 1000
  { finalDistance := distance, angleError := angleError, depthError := depthError,
    timeSeconds := timeSeconds,
    position := { x := implantPosition.x, y := implantPosition.y, z := implantPosition.z } }

/-- The integer nearest to `q`, a tie going to the even one. -/
def roundHalfEven (q : K) : ℤ :=
  if q - (⌊q⌋ : K) < 1 / 2 then ⌊q⌋
  else if 1 / 2 < q - (⌊q⌋ : K) then ⌊q⌋ + 1
  else if ⌊q⌋ % 2 = 0 then ⌊q⌋ else ⌊q⌋ + 1

/-- The binary64 number nearest to `x`, a tie going to the even significand: what an
arithmetic operation of JavaScript gives when its exact result is `x`. Zero stays zero;
any other `x` is rounded to 53 significant bits at its exponent `⌊log2 |x|⌋`. Overflow
and subnormal numbers are left out: the numbers met below are far from either. -/
def roundDouble (x : K) : K :=
  if x = 0 then 0
  else (roundHalfEven (x / 2 ^ (Int.log 2 |x| - 52)) : K) * 2 ^ (Int.log 2 |x| - 52)

/-- The method `easeInOutCubic` (lines 680-682). The function `fl` rounds the exact result
of each operation and each decimal literal to the number type: `roundDouble` for the
doubles of JavaScript, the identity for exact arithmetic. `Math.pow(u, 3)` is the cube of
`u`, rounded once. -/
def easeInOutCubic (fl : K → K) (t : K) : K :=
  if t < 0.5 then fl (fl (fl (4 * t) * t) * t)
  else fl (1 - fl (fl (fl (fl (-2 * t) + 2) ^ 3) / 2))

/-- The table `positions` of `setCamera` (lines 274-279): its own entries. -/
def cameraPositions (fl : K → K) (view : String) : Option (Vector3 K) :=
  if view = "top" then some { x := 0, y := 15, z := fl 0.1 }
  else if view = "front" then some { x := 0, y := 5, z := 15 }
  else if view = "side" then some { x := 15, y := 5, z := 0 }
  else if view = "3d" then some { x := 10, y := 10, z := 10 }
  else none

/-- What the property read `positions[view]` of line 281 gives: an entry of the table, a
member inherited from `Object.prototype`, or `undefined`. -/
inductive ViewEntry (K : Type) where
  | own (pos : Vector3 K)
  | inherited
  | undefined

/-- The property read `positions[view]` (line 281): the table is an object literal, so a
key that is not its own is looked up on `Object.prototype`. -/
def positionsGet (fl : K → K) (view : String) : ViewEntry K :=
  match cameraPositions fl view with
  | some pos => .own pos
  | none => if view ∈ YomiSimulation.objectPrototypeKeys then .inherited else .undefined

/-- One run of the closure `animateCamera` of `setCamera` (lines 293-307), `elapsed`
milliseconds after the call, from the camera position `startPos` towards `pos`: the
camera position it sets, and whether it asks for another frame. The duration is
`GAME_CONFIG.ANIMATIONS.CAMERA_TRANSITION`, 1000 ms; `fl` rounds as in `easeInOutCubic`. -/
def animateCamera (fl : K → K) (startPos pos : Vector3 K) (elapsed : K) : Vector3 K × Bool :=
  let duration : K := 1000
  let progress := min (fl (elapsed / duration)) 1
  let eased := easeInOutCubic fl progress
  ({ x := fl (startPos.x + fl (fl (pos.x - startPos.x) * eased))
     y := fl (startPos.y + fl (fl (pos.y - startPos.y) * eased))
     z := fl (startPos.z + fl (fl (pos.z - startPos.z) * eased)) },
   decide (progress < 1))

/-- The method `setCamera` (lines 273-311) as seen `elapsed` milliseconds after the call,
the camera having been at `startPos`: nothing when `positions[view]` is falsy, else the
camera position the run of `animateCamera` at that time sets and whether it asks for
another frame. An inherited member is truthy and has no field `x`, `y` or `z`, so every
coordinate it gives is NaN. -/
def setCamera (fl : K → K) (startPos : Vector3 K) (view : String) (elapsed : K) :
    Option (Vector3 (YomiSimulation.JSNum K) × Bool) :=
  match positionsGet fl view with
  | .undefined => none
  | .inherited =>
    some ({ x := .nan, y := .nan, z := .nan }, decide (min (fl (elapsed / 1000)) 1 < 1))
  | .own pos =>
    some ({ x := .num (animateCamera fl startPos pos elapsed).1.x
            y := .num (animateCamera fl startPos pos elapsed).1.y
            z := .num (animateCamera fl startPos pos elapsed).1.z },
          (animateCamera fl startPos pos elapsed).2)

/-- The fields of a `SimulationManager` and of its scene objects that the drilling
methods read or write (lines 484-541), with the Results handed to the `onComplete`
callback so far, oldest first, and the number of `animateDrill` callbacks waiting for
the next frame. -/
structure Manager (K : Type) where
  isDrilling : Bool
  startTime : K
  controlsEnabled : Bool
  crosshairPosition : Vector3 K
  drillPosition : Vector3 K
  drillRotationY : K
  drillVisible : Bool
  implantPosition : Vector3 K
  implantModelPosition : Vector3 K
  implantVisible : Bool
  targetPosition : Vector3 K
  hasOnComplete : Bool
  completed : List (Results K)
  pendingDrillFrames : ℕ
deriving DecidableEq, Repr

/-- The method `completeDrilling` (lines 523-541); `now` and `random` are the readings
that `calculateResults` takes. -/
def completeDrilling (env : YomiSimulation.MathEnv K) (m : Manager K) (now random : K) :
    Manager K :=
  let m1 := { m with
    isDrilling := false
    implantPosition := m.drillPosition
    implantModelPosition := m.drillPosition
    implantVisible := true
    drillVisible := false }
  let results := calculateResults env m1.implantPosition m1.targetPosition m1.startTime
    now random
  if m1.hasOnComplete then { m1 with completed := m1.completed ++ [results] } else m1

/-- The method `animateDrill` (lines 500-513): one step of the drill, 0.05 down
(`DRILL_SPEED / 1000`), which ends in `completeDrilling` or asks for another frame. The
function `fl` rounds the exact result of each operation and each decimal literal to the
number type, as in `easeInOutCubic`. -/
def animateDrill (env : YomiSimulation.MathEnv K) (fl : K → K) (m : Manager K)
    (now random : K) : Manager K :=
  if !m.isDrilling then m
  else
    let m1 := { m with
      drillPosition := { m.drillPosition with y := fl (m.drillPosition.y - fl (50 / 1000)) }
      drillRotationY := fl (m.drillRotationY + fl 0.1) }
    if m1.drillPosition.y ≤ 0 then completeDrilling env m1 now random
    else { m1 with pendingDrillFrames := m1.pendingDrillFrames + 1 }

/-- The method `startDrilling` (lines 484-498); a start time of 0 is falsy. -/
def startDrilling (env : YomiSimulation.MathEnv K) (fl : K → K) (m : Manager K)
    (now random : K) : Manager K :=
  let m1 := { m with
    startTime := if m.startTime = 0 then now else m.startTime
    isDrilling := true
    controlsEnabled := false
    drillPosition := { m.crosshairPosition with y := 3 } }
  animateDrill env fl m1 now random

/-- The method `stopDrilling` (lines 515-521). -/
def stopDrilling (m : Manager K) : Manager K :=
  { m with
    isDrilling := false
    controlsEnabled := true
    drillPosition := { m.drillPosition with y := 5 } }

/-- The handler `onMouseDown` (lines 340-344) for the mouse button `button`. -/
def onMouseDown (env : YomiSimulation.MathEnv K) (fl : K → K) (m : Manager K) (button : ℤ)
    (now random : K) : Manager K :=
  if button = 0 ∧ m.isDrilling = false then startDrilling env fl m now random else m

/-- The handler `onMouseUp` (lines 346-350). -/
def onMouseUp (m : Manager K) (button : ℤ) : Manager K :=
  if button = 0 ∧ m.isDrilling = true then stopDrilling m else m

/-- The handler `onMouseMove` (lines 330-338) as far as the drilling state goes: outside
drilling, `updateCrosshair` moves the crosshair to the position it computes from the
pointer, if the pointer ray meets the jaw. -/
def onMouseMove (m : Manager K) (crosshair : Option (Vector3 K)) : Manager K :=
  if m.isDrilling then m
  else
    match crosshair with
    | some position => { m with crosshairPosition := position }
    | none => m

/-- The `animateDrill` callbacks of one animation frame, run one after the other. -/
def runDrillCallbacks (env : YomiSimulation.MathEnv K) (fl : K → K) (now random : K) :
    ℕ → Manager K → Manager K
  | 0, m => m
  | n + 1, m => runDrillCallbacks env fl now random n (animateDrill env fl m now random)

/-- One animation frame: the callbacks that were waiting run; those they ask for wait for
the next frame. -/
def frame (env : YomiSimulation.MathEnv K) (fl : K → K) (m : Manager K) (now random : K) :
    Manager K :=
  runDrillCallbacks env fl now random m.pendingDrillFrames { m with pendingDrillFrames := 0 }

/-- The pointer events and animation frames that drive the drilling state machine. -/
inductive Event (K : Type) where
  | mouseDown (button : ℤ) (now random : K)
  | mouseUp (button : ℤ)
  | mouseMove (crosshair : Option (Vector3 K))
  | frame (now random : K)

/-- One event of the drilling state machine. -/
def step (env : YomiSimulation.MathEnv K) (fl : K → K) (m : Manager K) : Event K → Manager K
  | .mouseDown button now random => onMouseDown env fl m button now random
  | .mouseUp button => onMouseUp m button
  | .mouseMove crosshair => onMouseMove m crosshair
  | .frame now random => frame env fl m now random

/-- A sequence of events, in order. -/
def run (env : YomiSimulation.MathEnv K) (fl : K → K) (m : Manager K)
    (events : List (Event K)) : Manager K :=
  events.foldl (step env fl) m

/-- The height of the drill after `n` runs of line 504, from the height 3 at which
`startDrilling` puts it. -/
def drillHeight (fl : K → K) : ℕ → K
  | 0 => 3
  | n + 1 => fl (drillHeight fl n - fl (50 / 1000))

end SimulationManager

namespace YomiArcadeApp

/-- One entry of `GAME_CONFIG.METHODS` (`src/config/constants.js`, lines 5-31). -/
structure MethodConfig (K : Type) where
  id : String
  name : String
  accuracy : String
  description : String
  color : String
  targetOffset : SimulationManager.Vector3 K
  wobbleFactor : K
deriving DecidableEq, Repr

/-- The object `processResults` returns (lines 248-262 of `src/js/app.js`). A field that
holds the string of a `toFixed` call is given as the number that string denotes. -/
structure ProcessedResults (K : Type) where
  method : String
  methodName : String
  score : ℤ
  accuracy : K
  errorMm : K
  angleError : K
  depthError : K
  timeSeconds : K
  rating : String
  benchmarkAverageError : K
  benchmarkUserError : K
deriving DecidableEq, Repr

variable {K : Type} [LinearOrderedField K] [FloorRing K]

/-- The method `String.prototype.toUpperCase` on strings of ASCII characters. -/
def toUpperCase (s : String) : String := String.mk (s.data.map Char.toUpper)

/-- The table `GAME_CONFIG.METHODS`. Its keys are upper case, and no property name of
`Object.prototype` is, so a read with an upper-cased key finds an own entry or nothing. -/
def METHODS (key : String) : Option (MethodConfig K) :=
  if key = "FREEHAND" then
    some { id := "freehand", name := "Freehand", accuracy := "57.9%",
           description := "Traditional manual placement", color := "#ff6b6b",
           targetOffset := { x := 0.2, y := 0.15, z := 0.1 }, wobbleFactor := 0.02 }
  else if key = "STATIC" then
    some { id := "static", name := "Static Guided", accuracy := "61.0%",
           description := "Physical guide assistance", color := "#4ecdc4",
           targetOffset := { x := 0.1, y := 0.08, z := 0.05 }, wobbleFactor := 0.01 }
  else if key = "YOMI" then
    some { id := "yomi", name := "Yomi Robotic-Assisted", accuracy := "92.3%",
           description := "AI-powered robotic guidance", color := "#ff7f50",
           targetOffset := { x := 0.02, y := 0.02, z := 0.02 }, wobbleFactor := 0.002 }
  else none

/-- The field `AVERAGE_ERROR` of the entries of `GAME_CONFIG.BENCHMARKS`
(`src/config/constants.js`, lines 71-84). -/
def BENCHMARKS (key : String) : Option K :=
  if key = "FREEHAND" then some 2.4
  else if key = "STATIC" then some 1.8
  else if key = "YOMI" then some 0.48
  else none

/-- The number that the string `x.toFixed(digits)` denotes: `x` rounded to `digits`
decimals, a tie going away from zero. -/
def toFixed (digits : ℕ) (x : K) : K :=
  if x < 0 then -(((⌊-x * 10 ^ digits + 0.5⌋ : ℤ) : K) / 10 ^ digits)
  else ((⌊x * 10 ^ digits + 0.5⌋ : ℤ) : K) / 10 ^ digits

/-- The method `processResults` (lines 217-263 of `src/js/app.js`) for the value of
`this.selectedMethod`. Calling `toUpperCase` on `null` and reading a field of a missing
table entry raise a TypeError. -/
def processResults (selectedMethod : Option String) (results : SimulationManager.Results K) :
    Except YomiSimulation.JSError (ProcessedResults K) :=
  match selectedMethod with
  | none => .error .typeError
  | some sel =>
    let methodConfig : Option (MethodConfig K) := METHODS (toUpperCase sel)
    let benchmark : Option K := BENCHMARKS (toUpperCase sel)
    let maxError : K := 5
    let errorMm := results.finalDistance * 10
    let accuracy := max 0 (min 100 ((1 - errorMm / maxError) * 100))
    let score0 := accuracy
    let score1 :=
      if sel = "yomi" then score0 * 1.2
      else if sel = "static" then score0 * 1.1
      else score0
    let score : ℤ := min 100 (YomiSimulation.mathRound score1)
    let rating :=
      if score ≥ 80 then "excellent"
      else if score ≥ 60 then "good"
      else if score ≥ 40 then "fair"
      else "poor"
    match methodConfig, benchmark with
    | some config, some averageError =>
      .ok { method := sel, methodName := config.name, score := score,
            accuracy := toFixed 1 accuracy, errorMm := toFixed 2 errorMm,
            angleError := toFixed 1 results.angleError,
            depthError := toFixed 1 results.depthError,
            timeSeconds := toFixed 1 results.timeSeconds,
            rating := rating,
            benchmarkAverageError := averageError,
            benchmarkUserError := toFixed 2 errorMm }
    | _, _ => .error .typeError

/-- The start button of the method screen (`start-simulation-btn`). -/
structure StartButton where
  disabled : Bool
  pulse : Bool
deriving DecidableEq, Repr

/-- The state of the application that `selectMethod` can touch: the fields of
`YomiArcadeApp`, the card that `highlightSelectedMethod` marks, the start button when the
document has one, the sounds asked of the audio manager and the events handed to the
analytics manager (name and method), oldest first. -/
structure App where
  currentScreen : String
  selectedMethod : Option String
  highlightedMethod : Option String
  startButton : Option StartButton
  soundsPlayed : List String
  trackedEvents : List (String × String)
deriving DecidableEq, Repr

/-- The method `selectMethod` (lines 125-146 of `src/js/app.js`) on a host whose
`String.prototype.toUpperCase` is the function `upper`. The guard of line 126 tests the
entry of `GAME_CONFIG.METHODS` under the upper-cased id for truthiness, which does not
depend on the number type of its fields; the message it logs to the console is not part
of the state. -/
def selectMethodWith (upper : String → String) (app : App) (method : String) : App :=
  if (METHODS (upper method) : Option (MethodConfig ℚ)).isNone then app
  else
    { app with
      selectedMethod := some method
      soundsPlayed := app.soundsPlayed ++ ["click"]
      highlightedMethod := some method
      startButton := app.startButton.map (fun _ => { disabled := false, pulse := true })
      trackedEvents := app.trackedEvents ++ [("method_selected", method)] }

/-- The method `selectMethod` (lines 125-146 of `src/js/app.js`) with `toUpperCase` for the
upper-casing of the host, with which every host agrees on ids of ASCII characters. -/
def selectMethod (app : App) (method : String) : App :=
  selectMethodWith toUpperCase app method

/-- Spec, section 4.3: `clamp(v, lo, hi)` on numbers. -/
def clampNum (v lo hi : K) : K := if v < lo then lo else if hi < v then hi else v

/-- Spec, section 4.3, Strategy B: the accuracy, with `maxError` 5 mm. -/
def strategyBAccuracy (errorMm : K) : K := clampNum ((1 - errorMm / 5) * 100) 0 100

end YomiArcadeApp

namespace CameraController

/-- One entry of the map `positions` (lines 17-57 of `src/js/cameraController.js`). -/
structure View (K : Type) where
  position : K × K × K
  target : K × K × K
  fov : K
deriving DecidableEq, Repr

/-- A running `gsap` timeline created by `transitionTo` (lines 73-111): the view whose
position, target and field of view its three tweens lead to, with the duration and the
easing name passed on. -/
structure Timeline (K : Type) where
  view : View K
  duration : K
  ease : String
deriving DecidableEq, Repr

/-- The fields of a `CameraController`, of its camera and of its orbit controls that
`transitionTo` reads or writes, and the timelines in flight. -/
structure Controller (K : Type) where
  currentView : String
  isAnimating : Bool
  controlsEnabled : Bool
  controlsTarget : K × K × K
  cameraPosition : K × K × K
  cameraFov : K
  timelines : List (Timeline K)
deriving DecidableEq, Repr

/-- The value a method call evaluates to; `undefined` when the body ends or executes a
bare `return`. -/
inductive ReturnValue where
  | undefined
  | boolean (b : Bool)
deriving DecidableEq, Repr

variable {K : Type} [LinearOrderedField K] [FloorRing K]

/-- The map `positions` as `setupDefaultPositions` fills it (lines 15-58). -/
def positions (viewName : String) : Option (View K) :=
  if viewName = "default" then some { position := (5, 5, 10), target := (0, 0, 0), fov := 60 }
  else if viewName = "overview" then
    some { position := (8, 12, 15), target := (0, 0, 0), fov := 45 }
  else if viewName = "closeup" then
    some { position := (2, 2, 4), target := (0, 0, 0), fov := 40 }
  else if viewName = "surgical" then
    some { position := (0, 6, 2), target := (0, 0, 0), fov := 35 }
  else if viewName = "lateral" then
    some { position := (10, 0, 0), target := (0, 0, 0), fov := 50 }
  else if viewName = "frontal" then
    some { position := (0, 0, 10), target := (0, 0, 0), fov := 50 }
  else if viewName = "orbit" then
    some { position := (8, 5, 8), target := (0, 0, 0), fov := 55 }
  else none

/-- The method `transitionTo` (lines 60-112): the value the call evaluates to and the
controller it leaves. The caller's `onComplete` callback is not modelled. -/
def transitionTo (c : Controller K) (viewName : String) (duration : K) (ease : String) :
    ReturnValue × Controller K :=
  if c.isAnimating then (.undefined, c)
  else
    match (positions viewName : Option (View K)) with
    | none => (.undefined, c)
    | some view =>
      (.undefined,
        { c with
          isAnimating := true
          currentView := viewName
          controlsEnabled := false
          timelines := c.timelines ++ [{ view := view, duration := duration, ease := ease }] })

/-- The end of a timeline of `transitionTo`: its tweens have brought the camera position,
the orbit target and the field of view to the values of the view, and the `onComplete`
callback of lines 74-79 runs. -/
def timelineComplete (c : Controller K) (t : Timeline K) : Controller K :=
  { c with
    cameraPosition := t.view.position
    cameraFov := t.view.fov
    isAnimating := false
    controlsEnabled := true
    controlsTarget := t.view.target
    timelines := c.timelines.erase t }

end CameraController

namespace EnhancedSimulation

/-- One point of a particle system: its three coordinates in the position attribute of
the mesh geometry and its three entries of the `velocities` array. -/
structure Point (K : Type) where
  x : K
  y : K
  z : K
  vx : K
  vy : K
  vz : K
deriving DecidableEq, Repr

/-- The ageing fields of the systems that `createFoodParticles` and
`createDrillingEffect` push (`src/js/enhancedSimulation.js`, lines 266-271 and 391-397);
`gravity` is absent from the former. -/
structure Aging (K : Type) where
  life : K
  maxLife : K
  gravity : Option K
deriving DecidableEq, Repr

/-- An element of `this.particles`. `uniformTime` is `material.uniforms.time.value`
for the systems pushed with a shader material (line 223); `aging` is present for the
systems pushed with `velocities` and `life`. -/
structure ParticleSystem (K : Type) where
  points : List (Point K)
  opacity : K
  uniformTime : Option K
  aging : Option (Aging K)
deriving DecidableEq, Repr

variable {K : Type} [LinearOrderedField K] [FloorRing K]

/-- The body of the loop of lines 623-632 for one point: the position advances by the
velocity entries, then the vertical velocity takes up gravity when `system.gravity` is
truthy. -/
def movePoint (deltaTime : K) (gravity : Option K) (p : Point K) : Point K :=
  { p with
    x := p.x + p.vx
    y := p.y + p.vy
    z := p.z + p.vz
    vy := match gravity with
      | some g => if g ≠ 0 then p.vy + g * deltaTime else p.vy
      | none => p.vy }

/-- The callback of lines 605-641 on one system: `none` when the system is spliced out
of the list (lines 614-618), otherwise the system as the callback leaves it. -/
def stepSystem (deltaTime : K) (system : ParticleSystem K) : Option (ParticleSystem K) :=
  let system1 := { system with uniformTime := system.uniformTime.map (· + deltaTime) }
  match system1.aging with
  | none => some system1
  | some a =>
    let life := a.life + deltaTime
    if life > a.maxLife then none
    else
      some { system1 with
        points := system1.points.map (movePoint deltaTime a.gravity)
        opacity := 1 - life / a.maxLife
        aging := some { a with life := life } }

/-- One call of the callback by `forEach`, at index `index` of the current list: an
index past the end of the list is skipped, and `splice(index, 1)` removes the element
at that index. -/
def visit (deltaTime : K) (index : ℕ) (particles : List (ParticleSystem K)) :
    List (ParticleSystem K) :=
  match particles.get? index with
  | none => particles
  | some system =>
    match stepSystem deltaTime system with
    | none => particles.eraseIdx index
    | some system1 => particles.set index system1

/-- The iteration of `Array.prototype.forEach`: `remaining` more indices are visited in
ascending order from `index`, each on the list as the earlier calls left it. -/
def forEachFrom (deltaTime : K) : ℕ → ℕ → List (ParticleSystem K) → List (ParticleSystem K)
  | 0, _, particles => particles
  | remaining + 1, index, particles =>
    forEachFrom deltaTime remaining (index + 1) (visit deltaTime index particles)

/-- The particle loop of `update` (lines 605-641): `forEach` visits as many indices as
the list has elements when the loop starts. -/
def update (deltaTime : K) (particles : List (ParticleSystem K)) : List (ParticleSystem K) :=
  forEachFrom deltaTime particles.length 0 particles

/-- Spec, section 9: the mark-and-compact pass, which ages and moves every batch and then
keeps the survivors. -/
def markAndCompact (deltaTime : K) (particles : List (ParticleSystem K)) :
    List (ParticleSystem K) :=
  particles.filterMap (stepSystem deltaTime)

/-- The loop of `update` told on the list itself: a system that survives its step is
kept as the step leaves it; a system that is spliced out takes the place of no one, and
the system right behind it, which slides into the freed index, is passed over untouched
in this frame. -/
def walkSkipping (deltaTime : K) : List (ParticleSystem K) → List (ParticleSystem K)
  | [] => []
  | [system] =>
    match stepSystem deltaTime system with
    | some system1 => [system1]
    | none => []
  | system :: next :: rest =>
    match stepSystem deltaTime system with
    | some system1 => system1 :: walkSkipping deltaTime (next :: rest)
    | none => next :: walkSkipping deltaTime rest

/-- A drilling batch as `createDrillingEffect` pushes it (`maxLife` 1.5, `gravity`
-0.01, opacity 0.8), at age `life` with the given points. -/
def drillingSystem (life : K) (points : List (Point K)) : ParticleSystem K :=
  { points := points, opacity := 0.8, uniformTime := none,
    aging := some { life := life, maxLife := 1.5, gravity := some (-0.01) } }

/-- A food batch as `createFoodParticles` pushes it (`maxLife` 2, no gravity, opacity
0.8), at age `life` with the given points. -/
def foodSystem (life : K) (points : List (Point K)) : ParticleSystem K :=
  { points := points, opacity := 0.8, uniformTime := none,
    aging := some { life := life, maxLife := 2, gravity := none } }

end EnhancedSimulation

namespace YomiSimulation

section Lemmas

variable {K : Type} [LinearOrderedField K] [FloorRing K]

/-- The table has exactly the three entries of lines 24-41. -/
lemma methodParams_cases {m : String} {p : MethodProfile K} (h : methodParams m = some p) :
    (m = "freehand" ∧ p = ⟨0.2, 0.3, 10, 2⟩) ∨ (m = "static" ∧ p = ⟨0.6, 0.6, 5, 1.5⟩)
      ∨ (m = "yomi" ∧ p = ⟨0.9, 0.95, 2, 0.5⟩) := by
  unfold methodParams at h
  split_ifs at h with h1 h2 h3
  · exact Or.inl ⟨h1, (Option.some.inj h).symm⟩
  · exact Or.inr (Or.inl ⟨h2, (Option.some.inj h).symm⟩)
  · exact Or.inr (Or.inr ⟨h3, (Option.some.inj h).symm⟩)

/-- Every entry of the table has positive maximal deviations. -/
lemma methodParams_pos {m : String} {p : MethodProfile K} (h : methodParams m = some p) :
    0 < p.maxAngleDeviation ∧ 0 < p.maxDepthDeviation := by
  rcases methodParams_cases h with ⟨-, rfl⟩ | ⟨-, rfl⟩ | ⟨-, rfl⟩ <;> norm_num

/-- An entry of the table is what the property read returns for its key. -/
lemma methodParamsGet_own {m : String} {p : MethodProfile K} (h : methodParams m = some p) :
    (methodParamsGet (some m) : PropertyValue K) = .own p := by
  simp [methodParamsGet, propertyKey, h]

/-- The scoring statements on a table method and numeric deviations. -/
lemma completeSimulationBody_own {st : State K} {m : String} {p : MethodProfile K} {a d : K}
    (hm : st.currentMethod = some m) (hp : methodParams m = some p)
    (ha : st.implantAngle = .num a) (hd : st.implantDepth = .num d) :
    completeSimulationBody st = .ok
      { method := some m, angle := .num a, depth := .num d,
        score := .num (max 0 (min 100 (mathRound
          ((100 - (a / p.maxAngleDeviation) * 100) * 0.6
            + (100 - (d / p.maxDepthDeviation) * 100) * 0.4)))) } := by
  simp [completeSimulationBody, hm, methodParamsGet_own hp, ha, hd]

/-- The call always stops at line 118. -/
lemma completeSimulation_throws (st : State K) :
    completeSimulation st = (.error .referenceError, st) := rfl

lemma mathRound_mono {x y : K} (h : x ≤ y) : mathRound x ≤ mathRound y := by
  unfold mathRound
  exact Int.floor_mono (by linarith)

end Lemmas

section StrategyA

variable {K : Type} [LinearOrderedField K] [FloorRing K]

/-- The source's `Math.max(0, Math.min(100, v))` is the spec's `clamp(v, 0, 100)`. -/
lemma max_min_eq_clamp (v : ℤ) : max 0 (min 100 v) = clamp v 0 100 := by
  unfold clamp
  split_ifs <;> omega

lemma isRoundHalfUp_mathRound (x : K) : IsRoundHalfUp x (mathRound x) := by
  unfold IsRoundHalfUp mathRound
  have h1 := Int.floor_le (x + 0.5)
  have h2 := Int.lt_floor_add_one (x + 0.5)
  constructor
  · norm_num at h2 ⊢; linarith
  · norm_num at h1 ⊢; linarith

/-- The combination the source computes is the spec's raw score. -/
lemma raw_eq_strategyARaw (p : MethodProfile K) (a d : K) :
    (100 - (a / p.maxAngleDeviation) * 100) * 0.6
      + (100 - (d / p.maxDepthDeviation) * 100) * 0.4 = strategyARaw p a d := by
  unfold strategyARaw; ring

end StrategyA

section CompletionClaims

variable {K : Type} [LinearOrderedField K] [FloorRing K]

/-- C1 (Strategy A range). The call `completeSimulation()` stops at line 118 with a
ReferenceError and returns no score, whatever the method and the deviations. The scoring
statements below that line, run on a method of the table and deviations `a ≥ 0`,
`d ≥ 0`, produce an integer score between 0 and 100. -/
theorem strategyA_score_range (st : State K) (m : String) (p : MethodProfile K) (a d : K)
    (hm : st.currentMethod = some m) (hp : methodParams m = some p)
    (ha : st.implantAngle = .num a) (hd : st.implantDepth = .num d)
    (ha0 : 0 ≤ a) (hd0 : 0 ≤ d) :
    (completeSimulation st).1 = .error .referenceError ∧
    ∃ s : ℤ, completeSimulationBody st = .ok ⟨some m, .num a, .num d, .num s⟩
      ∧ 0 ≤ s ∧ s ≤ 100 := by
  refine ⟨rfl, _, completeSimulationBody_own hm hp ha hd, le_max_left _ _, ?_⟩
  exact max_le (by norm_num) (min_le_left _ _)

theorem strategyA_score_range_witness :
    (completeSimulation (sessionState "static" (1 : ℚ) (1 / 2))).1 = .error .referenceError ∧
    ∃ s : ℤ, completeSimulationBody (sessionState "static" (1 : ℚ) (1 / 2))
        = .ok ⟨some "static", .num 1, .num (1 / 2), .num s⟩ ∧ 0 ≤ s ∧ s ≤ 100 :=
  strategyA_score_range (sessionState "static" 1 (1 / 2)) "static" ⟨0.6, 0.6, 5, 1.5⟩ 1 (1 / 2)
    rfl (by simp [methodParams]) rfl rfl (by norm_num) (by norm_num)

/-- C2 (Strategy A formula). The call `completeSimulation()` stops at line 118 with a
ReferenceError and returns no score. The scoring statements below that line compute
`clamp(n, 0, 100)`, where `n` is the raw score
`0.6*(100 - (a/maxAngleDeviation)*100) + 0.4*(100 - (d/maxDepthDeviation)*100)` rounded
half up; the sub-scores are combined before any clamping. -/
theorem strategyA_formula (st : State K) (m : String) (p : MethodProfile K) (a d : K)
    (hm : st.currentMethod = some m) (hp : methodParams m = some p)
    (ha : st.implantAngle = .num a) (hd : st.implantDepth = .num d) :
    (completeSimulation st).1 = .error .referenceError ∧
    ∃ n : ℤ, IsRoundHalfUp (strategyARaw p a d) n ∧
      completeSimulationBody st = .ok ⟨some m, .num a, .num d, .num (clamp n 0 100)⟩ := by
  refine ⟨rfl, mathRound (strategyARaw p a d), isRoundHalfUp_mathRound _, ?_⟩
  rw [completeSimulationBody_own hm hp ha hd, raw_eq_strategyARaw, max_min_eq_clamp]

theorem strategyA_formula_witness :
    (completeSimulation (sessionState "freehand" (3 : ℚ) 1)).1 = .error .referenceError ∧
    ∃ n : ℤ, IsRoundHalfUp (strategyARaw (⟨0.2, 0.3, 10, 2⟩ : MethodProfile ℚ) 3 1) n ∧
      completeSimulationBody (sessionState "freehand" (3 : ℚ) 1)
        = .ok ⟨some "freehand", .num 3, .num 1, .num (clamp n 0 100)⟩ :=
  strategyA_formula (sessionState "freehand" 3 1) "freehand" ⟨0.2, 0.3, 10, 2⟩ 3 1
    rfl (by simp [methodParams]) rfl rfl

/-- C3 (Strategy A monotonicity). The call `completeSimulation()` stops at line 118 with
a ReferenceError and returns no score to compare. For the scoring statements below that
line, with the method and the depth deviation fixed, a larger angle deviation never gives
a larger score. -/
theorem strategyA_monotone (st1 st2 : State K) (m : String) (p : MethodProfile K)
    (a1 a2 d : K)
    (hm1 : st1.currentMethod = some m) (hm2 : st2.currentMethod = some m)
    (hp : methodParams m = some p)
    (ha1 : st1.implantAngle = .num a1) (ha2 : st2.implantAngle = .num a2)
    (hd1 : st1.implantDepth = .num d) (hd2 : st2.implantDepth = .num d)
    (hd0 : 0 ≤ d) (h0 : 0 ≤ a1) (h12 : a1 ≤ a2) :
    ((completeSimulation st1).1 = .error .referenceError
      ∧ (completeSimulation st2).1 = .error .referenceError) ∧
    ∃ s1 s2 : ℤ, completeSimulationBody st1 = .ok ⟨some m, .num a1, .num d, .num s1⟩
      ∧ completeSimulationBody st2 = .ok ⟨some m, .num a2, .num d, .num s2⟩
      ∧ s2 ≤ s1 := by
  refine ⟨⟨rfl, rfl⟩, _, _, completeSimulationBody_own hm1 hp ha1 hd1,
    completeSimulationBody_own hm2 hp ha2 hd2, ?_⟩
  have hpos := (methodParams_pos hp).1
  have hdiv : a1 / p.maxAngleDeviation ≤ a2 / p.maxAngleDeviation :=
    div_le_div_of_nonneg_right h12 hpos.le
  have hraw : (100 - (a2 / p.maxAngleDeviation) * 100) * 0.6
        + (100 - (d / p.maxDepthDeviation) * 100) * 0.4
      ≤ (100 - (a1 / p.maxAngleDeviation) * 100) * 0.6
        + (100 - (d / p.maxDepthDeviation) * 100) * 0.4 := by
    norm_num
    linarith
  exact max_le_max le_rfl (min_le_min le_rfl (mathRound_mono hraw))

theorem strategyA_monotone_witness :
    ((completeSimulation (sessionState "yomi" (1 / 2 : ℚ) (1 / 10))).1
        = .error .referenceError
      ∧ (completeSimulation (sessionState "yomi" (3 / 2 : ℚ) (1 / 10))).1
        = .error .referenceError) ∧
    ∃ s1 s2 : ℤ, completeSimulationBody (sessionState "yomi" (1 / 2 : ℚ) (1 / 10))
        = .ok ⟨some "yomi", .num (1 / 2), .num (1 / 10), .num s1⟩
      ∧ completeSimulationBody (sessionState "yomi" (3 / 2 : ℚ) (1 / 10))
        = .ok ⟨some "yomi", .num (3 / 2), .num (1 / 10), .num s2⟩
      ∧ s2 ≤ s1 :=
  strategyA_monotone (sessionState "yomi" (1 / 2) (1 / 10)) (sessionState "yomi" (3 / 2) (1 / 10))
    "yomi" ⟨0.9, 0.95, 2, 0.5⟩ (1 / 2) (3 / 2) (1 / 10)
    rfl rfl (by simp [methodParams]) rfl rfl rfl rfl (by norm_num) (by norm_num) (by norm_num)

/-- C4 (Strategy A asymmetric penalty). The call `completeSimulation()` stops at line 118
with a ReferenceError and returns no score. In the scoring statements below that line,
with a depth deviation of 0 the depth sub-score is exactly 100, and every angle deviation
of at least 5/3 of `maxAngleDeviation` has a negative angle sub-score, which enters the
combination unclamped and gives the final score 0. -/
theorem strategyA_asymmetric_penalty (st : State K) (m : String) (p : MethodProfile K)
    (a : K)
    (hm : st.currentMethod = some m) (hp : methodParams m = some p)
    (ha : st.implantAngle = .num a) (hd : st.implantDepth = .num 0)
    (h : 5 / 3 * p.maxAngleDeviation ≤ a) :
    (completeSimulation st).1 = .error .referenceError ∧
    100 - (0 / p.maxDepthDeviation) * 100 = (100 : K) ∧
    100 - (a / p.maxAngleDeviation) * 100 < 0 ∧
    completeSimulationBody st = .ok ⟨some m, .num a, .num 0, .num 0⟩ := by
  have hpos := (methodParams_pos hp).1
  have hdiv : 5 / 3 ≤ a / p.maxAngleDeviation := by
    rw [le_div_iff₀ hpos]; exact h
  refine ⟨rfl, by norm_num, by linarith, ?_⟩
  rw [completeSimulationBody_own hm hp ha hd]
  have hraw : (100 - (a / p.maxAngleDeviation) * 100) * 0.6
        + (100 - ((0 : K) / p.maxDepthDeviation) * 100) * 0.4 + 0.5 < ((1 : ℤ) : K) := by
    norm_num
    linarith
  have hs : mathRound ((100 - (a / p.maxAngleDeviation) * 100) * 0.6
        + (100 - ((0 : K) / p.maxDepthDeviation) * 100) * 0.4) < 1 := by
    unfold mathRound
    exact Int.floor_lt.mpr hraw
  have : max 0 (min 100 (mathRound ((100 - (a / p.maxAngleDeviation) * 100) * 0.6
        + (100 - ((0 : K) / p.maxDepthDeviation) * 100) * 0.4))) = 0 := by
    omega
  rw [this]

theorem strategyA_asymmetric_penalty_witness :
    (completeSimulation (sessionState "static" (25 / 3 : ℚ) 0)).1 = .error .referenceError ∧
    100 - (0 / (⟨0.6, 0.6, 5, 1.5⟩ : MethodProfile ℚ).maxDepthDeviation) * 100 = (100 : ℚ) ∧
    100 - ((25 / 3 : ℚ) / (⟨0.6, 0.6, 5, 1.5⟩ : MethodProfile ℚ).maxAngleDeviation) * 100 < 0 ∧
    completeSimulationBody (sessionState "static" (25 / 3 : ℚ) 0)
      = .ok ⟨some "static", .num (25 / 3), .num 0, .num 0⟩ :=
  strategyA_asymmetric_penalty (sessionState "static" (25 / 3) 0) "static" ⟨0.6, 0.6, 5, 1.5⟩
    (25 / 3) rfl (by simp [methodParams]) rfl rfl (by norm_num)

end CompletionClaims

section MotionTransform

variable {K : Type} [LinearOrderedField K] [FloorRing K]

/-- The keys of the table are truthy. -/
lemma isFalsy_of_methodParams {m : String} {p : MethodProfile K}
    (hp : methodParams m = some p) : isFalsy (some m) = false := by
  rcases methodParams_cases hp with ⟨rfl, -⟩ | ⟨rfl, -⟩ | ⟨rfl, -⟩ <;> decide

/-- The transform on a method of the table. -/
lemma updateImplantPosition_own (env : MathEnv K) {st : State K} {m : String}
    {p : MethodProfile K} (x y r1 r2 : K)
    (hm : st.currentMethod = some m) (hp : methodParams m = some p) :
    updateImplantPosition env st x y r1 r2 =
      { st with
        rotationX := .num (st.targetRotationX + env.degToRad
          ((y * p.precisionFactor + (r2 - 0.5) * ((1 - p.stabilityFactor) * 0.1))
            * p.maxAngleDeviation))
        rotationZ := .num (st.targetRotationZ + env.degToRad
          ((x * p.precisionFactor + (r1 - 0.5) * ((1 - p.stabilityFactor) * 0.1))
            * p.maxAngleDeviation))
        implantAngle := .num (env.sqrt
          ((x * p.precisionFactor + (r1 - 0.5) * ((1 - p.stabilityFactor) * 0.1))
              * p.maxAngleDeviation
            * ((x * p.precisionFactor + (r1 - 0.5) * ((1 - p.stabilityFactor) * 0.1))
              * p.maxAngleDeviation)
          + (y * p.precisionFactor + (r2 - 0.5) * ((1 - p.stabilityFactor) * 0.1))
              * p.maxAngleDeviation
            * ((y * p.precisionFactor + (r2 - 0.5) * ((1 - p.stabilityFactor) * 0.1))
              * p.maxAngleDeviation)))
        implantDepth := .num
          (|x * p.precisionFactor + (r1 - 0.5) * ((1 - p.stabilityFactor) * 0.1)
            + (y * p.precisionFactor + (r2 - 0.5) * ((1 - p.stabilityFactor) * 0.1))|
            * p.maxDepthDeviation) } := by
  have hf := isFalsy_of_methodParams hp
  simp only [updateImplantPosition, hm, hf, methodParamsGet_own hp]
  rfl

/-- A method whose property read is `undefined` leaves the state as it is. -/
lemma updateImplantPosition_undefined (env : MathEnv K) (st : State K) (x y r1 r2 : K)
    (h : (methodParamsGet st.currentMethod : PropertyValue K) = .undefined) :
    updateImplantPosition env st x y r1 r2 = st := by
  unfold updateImplantPosition
  split_ifs
  · rfl
  · rw [h]

/-- C5 (Motion Transform non-negativity). For a method of the table, a pointer in
`[-1,1]^2` and two random samples in `[0,1)`, the angle deviation and the depth deviation
that `updateImplantPosition` stores are numbers and are not negative, `Math.sqrt` being
non-negative on non-negative arguments. -/
theorem updateImplantPosition_nonneg (env : MathEnv K) (st : State K) (m : String)
    (p : MethodProfile K) (x y r1 r2 : K)
    (hm : st.currentMethod = some m) (hp : methodParams m = some p)
    (hx : -1 ≤ x ∧ x ≤ 1) (hy : -1 ≤ y ∧ y ≤ 1)
    (hr1 : 0 ≤ r1 ∧ r1 < 1) (hr2 : 0 ≤ r2 ∧ r2 < 1)
    (hsqrt : ∀ v : K, 0 ≤ v → 0 ≤ env.sqrt v) :
    ∃ a d : K, (updateImplantPosition env st x y r1 r2).implantAngle = .num a ∧ 0 ≤ a
      ∧ (updateImplantPosition env st x y r1 r2).implantDepth = .num d ∧ 0 ≤ d := by
  rw [updateImplantPosition_own env x y r1 r2 hm hp]
  refine ⟨_, _, rfl, hsqrt _ ?_, rfl, ?_⟩
  · exact add_nonneg (mul_self_nonneg _) (mul_self_nonneg _)
  · exact mul_nonneg (abs_nonneg _) (methodParams_pos hp).2.le

theorem updateImplantPosition_nonneg_witness :
    ∃ a d : ℝ,
      (updateImplantPosition ⟨Real.sqrt, fun t => t * (Real.pi / 180)⟩
        (sessionState "static" 0 0) (-1 / 2) (1 / 4) (1 / 8) (7 / 8)).implantAngle = .num a
      ∧ 0 ≤ a
      ∧ (updateImplantPosition ⟨Real.sqrt, fun t => t * (Real.pi / 180)⟩
        (sessionState "static" 0 0) (-1 / 2) (1 / 4) (1 / 8) (7 / 8)).implantDepth = .num d
      ∧ 0 ≤ d :=
  updateImplantPosition_nonneg ⟨Real.sqrt, fun t => t * (Real.pi / 180)⟩
    (sessionState "static" 0 0) "static" ⟨0.6, 0.6, 5, 1.5⟩ (-1 / 2) (1 / 4) (1 / 8) (7 / 8)
    rfl (by simp [methodParams]) (by norm_num) (by norm_num) (by norm_num) (by norm_num)
    (fun v _ => Real.sqrt_nonneg v)

/-- C6 (Motion Transform reference). For a method of the table with profile `p`, a
pointer `(x, y)` and random samples `r1`, `r2`, `updateImplantPosition` works with
`controlledX = x*p.precisionFactor + (r1 - 0.5)*(1 - p.stabilityFactor)*0.1` and
`controlledY` likewise (the jitter term is not multiplied by the pointer), and stores
`angleDeviation = sqrt((controlledX*maxAngle)^2 + (controlledY*maxAngle)^2)` and
`depthDeviation = |controlledX + controlledY| * maxDepthDeviation`. -/
theorem updateImplantPosition_reference (env : MathEnv K) (st : State K) (m : String)
    (p : MethodProfile K) (x y r1 r2 : K)
    (hm : st.currentMethod = some m) (hp : methodParams m = some p) :
    ∃ controlledX controlledY : K,
      controlledX = x * p.precisionFactor + (r1 - 0.5) * (1 - p.stabilityFactor) * 0.1
      ∧ controlledY = y * p.precisionFactor + (r2 - 0.5) * (1 - p.stabilityFactor) * 0.1
      ∧ (updateImplantPosition env st x y r1 r2).implantAngle
          = .num (env.sqrt ((controlledX * p.maxAngleDeviation) ^ 2
              + (controlledY * p.maxAngleDeviation) ^ 2))
      ∧ (updateImplantPosition env st x y r1 r2).implantDepth
          = .num (|controlledX + controlledY| * p.maxDepthDeviation) := by
  rw [updateImplantPosition_own env x y r1 r2 hm hp]
  refine ⟨_, _, rfl, rfl, ?_, ?_⟩
  · show JSNum.num _ = JSNum.num _
    congr 2
    ring
  · show JSNum.num _ = JSNum.num _
    congr 3
    ring

theorem updateImplantPosition_reference_witness :
    ∃ controlledX controlledY : ℝ,
      controlledX = 1 * (⟨0.9, 0.95, 2, 0.5⟩ : MethodProfile ℝ).precisionFactor
        + (1 / 4 - 0.5) * (1 - (⟨0.9, 0.95, 2, 0.5⟩ : MethodProfile ℝ).stabilityFactor) * 0.1
      ∧ controlledY = (-1) * (⟨0.9, 0.95, 2, 0.5⟩ : MethodProfile ℝ).precisionFactor
        + (3 / 4 - 0.5) * (1 - (⟨0.9, 0.95, 2, 0.5⟩ : MethodProfile ℝ).stabilityFactor) * 0.1
      ∧ (updateImplantPosition ⟨Real.sqrt, fun t => t * (Real.pi / 180)⟩
          (sessionState "yomi" 0 0) 1 (-1) (1 / 4) (3 / 4)).implantAngle
          = .num (Real.sqrt
              ((controlledX * (⟨0.9, 0.95, 2, 0.5⟩ : MethodProfile ℝ).maxAngleDeviation) ^ 2
              + (controlledY * (⟨0.9, 0.95, 2, 0.5⟩ : MethodProfile ℝ).maxAngleDeviation) ^ 2))
      ∧ (updateImplantPosition ⟨Real.sqrt, fun t => t * (Real.pi / 180)⟩
          (sessionState "yomi" 0 0) 1 (-1) (1 / 4) (3 / 4)).implantDepth
          = .num (|controlledX + controlledY|
              * (⟨0.9, 0.95, 2, 0.5⟩ : MethodProfile ℝ).maxDepthDeviation) :=
  updateImplantPosition_reference ⟨Real.sqrt, fun t => t * (Real.pi / 180)⟩
    (sessionState "yomi" 0 0) "yomi" ⟨0.9, 0.95, 2, 0.5⟩ 1 (-1) (1 / 4) (3 / 4)
    rfl (by simp [methodParams])

end MotionTransform

section Scenarios

variable {K : Type} [LinearOrderedField K] [FloorRing K]

/-- The scoring statements give 100 on zero deviations, for every method of the table. -/
lemma completeSimulationBody_zero {st : State K} {m : String} {p : MethodProfile K}
    (hm : st.currentMethod = some m) (hp : methodParams m = some p)
    (ha : st.implantAngle = .num 0) (hd : st.implantDepth = .num 0) :
    completeSimulationBody st = .ok ⟨some m, .num 0, .num 0, .num 100⟩ := by
  rw [completeSimulationBody_own hm hp ha hd]
  have hr : mathRound ((100 - ((0 : K) / p.maxAngleDeviation) * 100) * 0.6
      + (100 - ((0 : K) / p.maxDepthDeviation) * 100) * 0.4) = 100 := by
    unfold mathRound
    rw [Int.floor_eq_iff]
    constructor <;> norm_num
  rw [hr]
  rfl

/-- C7 (Scenario Yomi). The table entry of `yomi` is stability 0.9, precision 0.95,
maxAngle 2, maxDepth 0.5, and with pointer (0,0) and zero jitter (both samples 0.5) the
transform stores angle deviation 0 and depth deviation 0. Completing the session then
does not score 100: the call `completeSimulation()` stops at line 118 with a
ReferenceError. The scoring statements below that line give 100 on these deviations, and
on zero deviations for every method of the table. -/
theorem scenario_yomi (env : MathEnv K) (st : State K)
    (hm : st.currentMethod = some "yomi") (hs : env.sqrt 0 = 0) :
    methodParams "yomi" = some (⟨0.9, 0.95, 2, 0.5⟩ : MethodProfile K)
    ∧ (updateImplantPosition env st 0 0 0.5 0.5).implantAngle = .num 0
    ∧ (updateImplantPosition env st 0 0 0.5 0.5).implantDepth = .num 0
    ∧ (completeSimulation (updateImplantPosition env st 0 0 0.5 0.5)).1
        = .error .referenceError
    ∧ completeSimulationBody (updateImplantPosition env st 0 0 0.5 0.5)
        = .ok ⟨some "yomi", .num 0, .num 0, .num 100⟩
    ∧ ∀ (st0 : State K) (m : String) (p : MethodProfile K), st0.currentMethod = some m →
        methodParams m = some p → st0.implantAngle = .num 0 → st0.implantDepth = .num 0 →
        completeSimulationBody st0 = .ok ⟨some m, .num 0, .num 0, .num 100⟩ := by
  have hp : methodParams "yomi" = some (⟨0.9, 0.95, 2, 0.5⟩ : MethodProfile K) := by
    simp [methodParams]
  have hu := updateImplantPosition_own env (0 : K) 0 0.5 0.5 hm hp
  have ha : (updateImplantPosition env st 0 0 0.5 0.5).implantAngle = .num 0 := by
    rw [hu]
    show JSNum.num _ = JSNum.num _
    norm_num [hs]
  have hd : (updateImplantPosition env st 0 0 0.5 0.5).implantDepth = .num 0 := by
    rw [hu]
    show JSNum.num _ = JSNum.num _
    norm_num
  have hm2 : (updateImplantPosition env st 0 0 0.5 0.5).currentMethod = some "yomi" := by
    rw [hu]; exact hm
  exact ⟨hp, ha, hd, rfl, completeSimulationBody_zero hm2 hp ha hd,
    fun st0 m p h1 h2 h3 h4 => completeSimulationBody_zero h1 h2 h3 h4⟩

theorem scenario_yomi_witness :
    methodParams "yomi" = some (⟨0.9, 0.95, 2, 0.5⟩ : MethodProfile ℝ)
    ∧ (updateImplantPosition ⟨Real.sqrt, fun t => t * (Real.pi / 180)⟩
        (sessionState "yomi" (1 : ℝ) 1) 0 0 0.5 0.5).implantAngle = .num 0
    ∧ (updateImplantPosition ⟨Real.sqrt, fun t => t * (Real.pi / 180)⟩
        (sessionState "yomi" (1 : ℝ) 1) 0 0 0.5 0.5).implantDepth = .num 0
    ∧ (completeSimulation (updateImplantPosition ⟨Real.sqrt, fun t => t * (Real.pi / 180)⟩
        (sessionState "yomi" (1 : ℝ) 1) 0 0 0.5 0.5)).1 = .error .referenceError
    ∧ completeSimulationBody (updateImplantPosition ⟨Real.sqrt, fun t => t * (Real.pi / 180)⟩
        (sessionState "yomi" (1 : ℝ) 1) 0 0 0.5 0.5)
        = .ok ⟨some "yomi", .num 0, .num 0, .num 100⟩
    ∧ ∀ (st0 : State ℝ) (m : String) (p : MethodProfile ℝ), st0.currentMethod = some m →
        methodParams m = some p → st0.implantAngle = .num 0 → st0.implantDepth = .num 0 →
        completeSimulationBody st0 = .ok ⟨some m, .num 0, .num 0, .num 100⟩ :=
  scenario_yomi ⟨Real.sqrt, fun t => t * (Real.pi / 180)⟩ (sessionState "yomi" 1 1) rfl
    Real.sqrt_zero

/-- Full deflection with the table's own `freehand` entry. That entry has precision 0.3,
maxAngle 10 and maxDepth 2; with pointer (1,1) and zero jitter the controlled pointer is
(0.3, 0.3), and the transform stores the angle deviation `a = sqrt(18) = 3*sqrt(2)` and
the depth deviation 1.2. On these deviations the scoring statements of
`completeSimulation` compute the score 51. -/
theorem scenario_freehand_table (env : MathEnv K) (st : State K)
    (hm : st.currentMethod = some "freehand")
    (hs : 0 ≤ env.sqrt 18 ∧ env.sqrt 18 * env.sqrt 18 = 18) :
    methodParams "freehand" = some (⟨0.2, 0.3, 10, 2⟩ : MethodProfile K)
    ∧ (1 : K) * 0.3 + (0.5 - 0.5) * ((1 - 0.2) * 0.1) = 0.3
    ∧ ∃ a : K, 0 ≤ a ∧ a * a = 18
      ∧ (updateImplantPosition env st 1 1 0.5 0.5).implantAngle = .num a
      ∧ (updateImplantPosition env st 1 1 0.5 0.5).implantDepth = .num 1.2
      ∧ completeSimulationBody (updateImplantPosition env st 1 1 0.5 0.5)
          = .ok ⟨some "freehand", .num a, .num 1.2, .num 51⟩ := by
  have hp : methodParams "freehand" = some (⟨0.2, 0.3, 10, 2⟩ : MethodProfile K) := by
    simp [methodParams]
  have hu := updateImplantPosition_own env (1 : K) 1 0.5 0.5 hm hp
  have ha : (updateImplantPosition env st 1 1 0.5 0.5).implantAngle
      = .num (env.sqrt 18) := by
    rw [hu]
    show JSNum.num _ = JSNum.num _
    norm_num
  have hd : (updateImplantPosition env st 1 1 0.5 0.5).implantDepth = .num 1.2 := by
    rw [hu]
    show JSNum.num _ = JSNum.num _
    norm_num
    rw [abs_of_nonneg (by norm_num)]
    norm_num
  have hm2 : (updateImplantPosition env st 1 1 0.5 0.5).currentMethod
      = some "freehand" := by
    rw [hu]; exact hm
  refine ⟨hp, by norm_num, env.sqrt 18, hs.1, hs.2, ha, hd, ?_⟩
  rw [completeSimulationBody_own hm2 hp ha hd]
  obtain ⟨h0, h2⟩ := hs
  have hlo : (49 : K) / 12 < env.sqrt 18 := by nlinarith
  have hhi : env.sqrt 18 ≤ 17 / 4 := by nlinarith
  have hr : mathRound ((100 - (env.sqrt 18 / (10 : K)) * 100) * 0.6
      + (100 - ((1.2 : K) / 2) * 100) * 0.4) = 51 := by
    unfold mathRound
    rw [Int.floor_eq_iff]
    constructor
    · norm_num; linarith
    · norm_num; linarith
  show Except.ok _ = Except.ok _
  simp only [hr]
  rfl

theorem scenario_freehand_table_witness :
    methodParams "freehand" = some (⟨0.2, 0.3, 10, 2⟩ : MethodProfile ℝ)
    ∧ (1 : ℝ) * 0.3 + (0.5 - 0.5) * ((1 - 0.2) * 0.1) = 0.3
    ∧ ∃ a : ℝ, 0 ≤ a ∧ a * a = 18
      ∧ (updateImplantPosition ⟨Real.sqrt, fun t => t * (Real.pi / 180)⟩
          (sessionState "freehand" (0 : ℝ) 0) 1 1 0.5 0.5).implantAngle = .num a
      ∧ (updateImplantPosition ⟨Real.sqrt, fun t => t * (Real.pi / 180)⟩
          (sessionState "freehand" (0 : ℝ) 0) 1 1 0.5 0.5).implantDepth = .num 1.2
      ∧ completeSimulationBody (updateImplantPosition ⟨Real.sqrt, fun t => t * (Real.pi / 180)⟩
          (sessionState "freehand" (0 : ℝ) 0) 1 1 0.5 0.5)
          = .ok ⟨some "freehand", .num a, .num 1.2, .num 51⟩ :=
  scenario_freehand_table ⟨Real.sqrt, fun t => t * (Real.pi / 180)⟩
    (sessionState "freehand" 0 0) rfl
    ⟨Real.sqrt_nonneg 18, Real.mul_self_sqrt (by norm_num)⟩

/-- The transform on a method of the table is the statements of lines 289-319 run on the
table's profile. -/
lemma updateImplantPosition_eq_with (env : MathEnv K) {st : State K} {m : String}
    {p : MethodProfile K} (x y r1 r2 : K)
    (hm : st.currentMethod = some m) (hp : methodParams m = some p) :
    updateImplantPosition env st x y r1 r2 = updateImplantPositionWith env p st x y r1 r2 := by
  rw [updateImplantPosition_own env x y r1 r2 hm hp]
  rfl

/-- C8 (Scenario Freehand, full deflection). The table gives `freehand` maxAngle 10 and
maxDepth 2. Under the scenario's condition, a profile with these two limits and precision
1 (whatever its stability), pointer (1,1) and zero jitter (both samples 0.5), the
statements of the transform give the controlled pointer (1,1), turn the implant by the
angles 10 and 10 from the target, and store the angle deviation `a = 10*sqrt(2)` (the
non-negative root of 200) and the depth deviation 4, and
the scoring statements of `completeSimulation` give 0 on these deviations. The call
`completeSimulation()` itself returns no score: it stops at line 118 with a
ReferenceError. -/
theorem scenario_freehand_full_deflection (env : MathEnv K) (st : State K) (stability : K)
    (hm : st.currentMethod = some "freehand")
    (hs : 0 ≤ env.sqrt 200 ∧ env.sqrt 200 * env.sqrt 200 = 200) :
    (∃ p : MethodProfile K, methodParams "freehand" = some p
      ∧ p.maxAngleDeviation = 10 ∧ p.maxDepthDeviation = 2)
    ∧ (1 : K) * 1 + (0.5 - 0.5) * ((1 - stability) * 0.1) = 1
    ∧ (updateImplantPositionWith env ⟨stability, 1, 10, 2⟩ st 1 1 0.5 0.5).rotationX
        = .num (st.targetRotationX + env.degToRad 10)
    ∧ (updateImplantPositionWith env ⟨stability, 1, 10, 2⟩ st 1 1 0.5 0.5).rotationZ
        = .num (st.targetRotationZ + env.degToRad 10)
    ∧ ∃ a : K, 0 ≤ a ∧ a * a = 200
      ∧ (updateImplantPositionWith env ⟨stability, 1, 10, 2⟩ st 1 1 0.5 0.5).implantAngle
          = .num a
      ∧ (updateImplantPositionWith env ⟨stability, 1, 10, 2⟩ st 1 1 0.5 0.5).implantDepth
          = .num 4
      ∧ completeSimulationBody
          (updateImplantPositionWith env ⟨stability, 1, 10, 2⟩ st 1 1 0.5 0.5)
          = .ok ⟨some "freehand", .num a, .num 4, .num 0⟩
      ∧ (completeSimulation
          (updateImplantPositionWith env ⟨stability, 1, 10, 2⟩ st 1 1 0.5 0.5)).1
          = .error .referenceError := by
  have hp : methodParams "freehand" = some (⟨0.2, 0.3, 10, 2⟩ : MethodProfile K) := by
    simp [methodParams]
  have ha : (updateImplantPositionWith env ⟨stability, 1, 10, 2⟩ st 1 1 0.5 0.5).implantAngle
      = .num (env.sqrt 200) := by
    show JSNum.num _ = JSNum.num _
    norm_num
  have hd : (updateImplantPositionWith env ⟨stability, 1, 10, 2⟩ st 1 1 0.5 0.5).implantDepth
      = .num 4 := by
    show JSNum.num _ = JSNum.num _
    norm_num
  have hm2 : (updateImplantPositionWith env ⟨stability, 1, 10, 2⟩ st 1 1 0.5 0.5).currentMethod
      = some "freehand" := hm
  have hrx : (updateImplantPositionWith env ⟨stability, 1, 10, 2⟩ st 1 1 0.5 0.5).rotationX
      = .num (st.targetRotationX + env.degToRad 10) := by
    show JSNum.num _ = JSNum.num _
    norm_num
  have hrz : (updateImplantPositionWith env ⟨stability, 1, 10, 2⟩ st 1 1 0.5 0.5).rotationZ
      = .num (st.targetRotationZ + env.degToRad 10) := by
    show JSNum.num _ = JSNum.num _
    norm_num
  refine ⟨⟨_, hp, rfl, rfl⟩, by norm_num, hrx, hrz, env.sqrt 200, hs.1, hs.2, ha, hd, ?_, rfl⟩
  rw [completeSimulationBody_own hm2 hp ha hd]
  obtain ⟨h0, h2⟩ := hs
  have hlo : (14 : K) < env.sqrt 200 := by nlinarith
  have hr : mathRound ((100 - (env.sqrt 200 / (10 : K)) * 100) * 0.6
      + (100 - ((4 : K) / 2) * 100) * 0.4) ≤ 0 := by
    unfold mathRound
    have hlt : (100 - (env.sqrt 200 / (10 : K)) * 100) * 0.6
        + (100 - ((4 : K) / 2) * 100) * 0.4 + 0.5 < ((1 : ℤ) : K) := by
      push_cast
      norm_num
      linarith
    have := Int.floor_lt.mpr hlt
    omega
  show Except.ok _ = Except.ok _
  have hz : max 0 (min 100 (mathRound ((100 - (env.sqrt 200 / (10 : K)) * 100) * 0.6
      + (100 - ((4 : K) / 2) * 100) * 0.4))) = 0 := by
    rw [min_eq_right (by omega), max_eq_left hr]
  simp only [hz]

theorem scenario_freehand_full_deflection_witness :
    (∃ p : MethodProfile ℝ, methodParams "freehand" = some p
      ∧ p.maxAngleDeviation = 10 ∧ p.maxDepthDeviation = 2)
    ∧ (1 : ℝ) * 1 + (0.5 - 0.5) * ((1 - 0.2) * 0.1) = 1
    ∧ (updateImplantPositionWith ⟨Real.sqrt, fun t => t * (Real.pi / 180)⟩ ⟨0.2, 1, 10, 2⟩
        (sessionState "freehand" (0 : ℝ) 0) 1 1 0.5 0.5).rotationX
        = .num ((sessionState "freehand" (0 : ℝ) 0).targetRotationX + 10 * (Real.pi / 180))
    ∧ (updateImplantPositionWith ⟨Real.sqrt, fun t => t * (Real.pi / 180)⟩ ⟨0.2, 1, 10, 2⟩
        (sessionState "freehand" (0 : ℝ) 0) 1 1 0.5 0.5).rotationZ
        = .num ((sessionState "freehand" (0 : ℝ) 0).targetRotationZ + 10 * (Real.pi / 180))
    ∧ ∃ a : ℝ, 0 ≤ a ∧ a * a = 200
      ∧ (updateImplantPositionWith ⟨Real.sqrt, fun t => t * (Real.pi / 180)⟩ ⟨0.2, 1, 10, 2⟩
          (sessionState "freehand" (0 : ℝ) 0) 1 1 0.5 0.5).implantAngle = .num a
      ∧ (updateImplantPositionWith ⟨Real.sqrt, fun t => t * (Real.pi / 180)⟩ ⟨0.2, 1, 10, 2⟩
          (sessionState "freehand" (0 : ℝ) 0) 1 1 0.5 0.5).implantDepth = .num 4
      ∧ completeSimulationBody
          (updateImplantPositionWith ⟨Real.sqrt, fun t => t * (Real.pi / 180)⟩ ⟨0.2, 1, 10, 2⟩
            (sessionState "freehand" (0 : ℝ) 0) 1 1 0.5 0.5)
          = .ok ⟨some "freehand", .num a, .num 4, .num 0⟩
      ∧ (completeSimulation
          (updateImplantPositionWith ⟨Real.sqrt, fun t => t * (Real.pi / 180)⟩ ⟨0.2, 1, 10, 2⟩
            (sessionState "freehand" (0 : ℝ) 0) 1 1 0.5 0.5)).1
          = .error .referenceError :=
  scenario_freehand_full_deflection ⟨Real.sqrt, fun t => t * (Real.pi / 180)⟩
    (sessionState "freehand" 0 0) 0.2 rfl
    ⟨Real.sqrt_nonneg 200, Real.mul_self_sqrt (by norm_num)⟩

end Scenarios

section Guards

variable {K : Type} [LinearOrderedField K] [FloorRing K]

/-- C9 (Motion Transform no-op). With no active method (`currentMethod` is `null`)
`updateImplantPosition` changes nothing, and so it does for a method id such as "robot"
whose property read is `undefined`. The guard of line 286 does not cover every id without
a table entry: "constructor" has none, yet `methodParams["constructor"]` is the member
inherited from `Object.prototype`, which is truthy, so the transform runs on undefined
profile fields and overwrites the angle deviation, the depth deviation and both rotation
angles with NaN, for every pointer input. -/
theorem updateImplantPosition_guard (env : MathEnv K) (st : State K) (x y r1 r2 : K) :
    updateImplantPosition env { st with currentMethod := none } x y r1 r2
      = { st with currentMethod := none }
    ∧ updateImplantPosition env { st with currentMethod := some "robot" } x y r1 r2
      = { st with currentMethod := some "robot" }
    ∧ (methodParams "constructor" : Option (MethodProfile K)) = none
    ∧ (updateImplantPosition env (sessionState "constructor" 0 0) x y r1 r2).implantAngle
      = .nan
    ∧ (updateImplantPosition env (sessionState "constructor" 0 0) x y r1 r2).implantDepth
      = .nan
    ∧ (updateImplantPosition env (sessionState "constructor" 0 0) x y r1 r2).rotationX
      = .nan
    ∧ (updateImplantPosition env (sessionState "constructor" 0 0) x y r1 r2).rotationZ
      = .nan
    ∧ updateImplantPosition env (sessionState "constructor" 0 0) x y r1 r2
      ≠ sessionState "constructor" 0 0 := by
  have hc : (methodParams "constructor" : Option (MethodProfile K)) = none := by
    simp [methodParams]
  have hg : (methodParamsGet (some "constructor") : PropertyValue K) = .inherited := by
    simp [methodParamsGet, propertyKey, hc, objectPrototypeKeys]
  have hr : (methodParamsGet (some "robot") : PropertyValue K) = .undefined := by
    simp [methodParamsGet, propertyKey, methodParams, objectPrototypeKeys]
  have hf : isFalsy (some "constructor") = false := by decide
  have hu : updateImplantPosition env (sessionState "constructor" 0 0) x y r1 r2
      = { sessionState "constructor" (0 : K) 0 with
          rotationX := .nan, rotationZ := .nan, implantAngle := .nan,
          implantDepth := .nan } := by
    simp only [updateImplantPosition, sessionState, hf, hg]
    rfl
  refine ⟨rfl, updateImplantPosition_undefined env _ x y r1 r2 hr, hc, ?_, ?_, ?_, ?_, ?_⟩
  · rw [hu]
  · rw [hu]
  · rw [hu]
  · rw [hu]
  · rw [hu]
    intro h
    have h2 := congrArg State.implantAngle h
    exact JSNum.noConfusion h2

/-- C10 (idempotent completion). Two consecutive calls of `completeSimulation()` return
no Result at all: each stops at line 118 with a ReferenceError. Neither call changes a
tracked value, and the second call behaves exactly as the first. -/
theorem completeSimulation_twice (st : State K) :
    (completeSimulation st).1 = .error .referenceError
    ∧ (completeSimulation st).2 = st
    ∧ (completeSimulation (completeSimulation st).2).1 = .error .referenceError
    ∧ completeSimulation (completeSimulation st).2 = completeSimulation st :=
  ⟨rfl, rfl, rfl, rfl⟩

end Guards


section TrackerAndViews

variable {K : Type} [LinearOrderedField K] [FloorRing K]

/-- The call `completeSimulation()` leaves every tracked value as it was. -/
lemma completeSimulation_snd (st : State K) : (completeSimulation st).2 = st := rfl

/-- While dragging outside the free view, `onMouseMove` runs the motion transform on
the normalised pointer. -/
lemma onMouseMove_dragging (env : MathEnv K) (st : State K) (clientX clientY : K)
    (rect : Rect K) (r1 r2 : K) (hd : st.isDragging = true) (hv : st.currentView ≠ "free") :
    onMouseMove env st clientX clientY rect r1 r2
      = updateImplantPosition env st (((clientX - rect.left) / rect.width) * 2 - 1)
          (-((clientY - rect.top) / rect.height) * 2 + 1) r1 r2 := by
  simp [onMouseMove, hd, hv]

/-- While dragging outside the free view, `onTouchMove` runs the motion transform on
the normalised pointer. -/
lemma onTouchMove_dragging (env : MathEnv K) (st : State K) (clientX clientY : K)
    (rect : Rect K) (r1 r2 : K) (hd : st.isDragging = true) (hv : st.currentView ≠ "free") :
    onTouchMove env st clientX clientY rect r1 r2
      = updateImplantPosition env st (((clientX - rect.left) / rect.width) * 2 - 1)
          (-((clientY - rect.top) / rect.height) * 2 + 1) r1 r2 := by
  simp [onTouchMove, hd, hv]

/-- C11, as stated, fails: after `completeSimulation()` in a yomi session with both
deviations 0, pressing the mouse button and moving the pointer to the right edge of the
canvas (normalised pointer (1, 0), zero jitter) changes the depth deviation. -/
theorem tracker_not_frozen_counterexample :
    (onMouseMove ⟨Real.sqrt, fun t => t * (Real.pi / 180)⟩
        (onMouseDown (completeSimulation (sessionState "yomi" (0 : ℝ) 0)).2)
        100 50 ⟨0, 0, 100, 100⟩ 0.5 0.5).implantDepth
      ≠ (sessionState "yomi" (0 : ℝ) 0).implantDepth := by
  have hp : methodParams "yomi" = some (⟨0.9, 0.95, 2, 0.5⟩ : MethodProfile ℝ) := by
    simp [methodParams]
  have h1 : onMouseDown (completeSimulation (sessionState "yomi" (0 : ℝ) 0)).2
      = { sessionState "yomi" (0 : ℝ) 0 with isDragging := true } := by
    simp [onMouseDown, completeSimulation_snd, sessionState]
  have hm : ({ sessionState "yomi" (0 : ℝ) 0 with isDragging := true } : State ℝ).currentMethod
      = some "yomi" := rfl
  rw [h1, onMouseMove_dragging _ _ _ _ _ _ _ rfl (by decide),
    updateImplantPosition_own _ _ _ _ _ hm hp]
  show JSNum.num _ ≠ JSNum.num _
  intro h
  have h4 := JSNum.num.inj h
  norm_num at h4

/-- C11, amended (no freeze at completion). The call `completeSimulation()` changes no
tracked value and detaches no handler, so a mouse or touch move made after it, while
dragging and outside the free view, is handled exactly as before completion: the motion
transform runs on the normalised pointer and overwrites the deviations. -/
theorem pointer_input_after_completion (env : MathEnv K) (st : State K)
    (clientX clientY : K) (rect : Rect K) (r1 r2 : K)
    (hd : st.isDragging = true) (hv : st.currentView ≠ "free") :
    (completeSimulation st).2 = st
    ∧ onMouseMove env (completeSimulation st).2 clientX clientY rect r1 r2
      = updateImplantPosition env st (((clientX - rect.left) / rect.width) * 2 - 1)
          (-((clientY - rect.top) / rect.height) * 2 + 1) r1 r2
    ∧ onTouchMove env (completeSimulation st).2 clientX clientY rect r1 r2
      = updateImplantPosition env st (((clientX - rect.left) / rect.width) * 2 - 1)
          (-((clientY - rect.top) / rect.height) * 2 + 1) r1 r2 := by
  refine ⟨rfl, ?_, ?_⟩
  · rw [completeSimulation_snd]
    exact onMouseMove_dragging env st clientX clientY rect r1 r2 hd hv
  · rw [completeSimulation_snd]
    exact onTouchMove_dragging env st clientX clientY rect r1 r2 hd hv

theorem pointer_input_after_completion_witness :
    (completeSimulation ({ sessionState "static" (1 : ℝ) 1 with isDragging := true })).2
      = { sessionState "static" (1 : ℝ) 1 with isDragging := true }
    ∧ onMouseMove ⟨Real.sqrt, fun t => t * (Real.pi / 180)⟩
        (completeSimulation ({ sessionState "static" (1 : ℝ) 1 with isDragging := true })).2
        30 40 ⟨10, 20, 200, 100⟩ 0.25 0.75
      = updateImplantPosition ⟨Real.sqrt, fun t => t * (Real.pi / 180)⟩
          { sessionState "static" (1 : ℝ) 1 with isDragging := true }
          (((30 - (⟨10, 20, 200, 100⟩ : Rect ℝ).left) / (⟨10, 20, 200, 100⟩ : Rect ℝ).width) * 2 - 1)
          (-((40 - (⟨10, 20, 200, 100⟩ : Rect ℝ).top) / (⟨10, 20, 200, 100⟩ : Rect ℝ).height) * 2 + 1)
          0.25 0.75
    ∧ onTouchMove ⟨Real.sqrt, fun t => t * (Real.pi / 180)⟩
        (completeSimulation ({ sessionState "static" (1 : ℝ) 1 with isDragging := true })).2
        30 40 ⟨10, 20, 200, 100⟩ 0.25 0.75
      = updateImplantPosition ⟨Real.sqrt, fun t => t * (Real.pi / 180)⟩
          { sessionState "static" (1 : ℝ) 1 with isDragging := true }
          (((30 - (⟨10, 20, 200, 100⟩ : Rect ℝ).left) / (⟨10, 20, 200, 100⟩ : Rect ℝ).width) * 2 - 1)
          (-((40 - (⟨10, 20, 200, 100⟩ : Rect ℝ).top) / (⟨10, 20, 200, 100⟩ : Rect ℝ).height) * 2 + 1)
          0.25 0.75 :=
  pointer_input_after_completion ⟨Real.sqrt, fun t => t * (Real.pi / 180)⟩
    { sessionState "static" (1 : ℝ) 1 with isDragging := true } 30 40 ⟨10, 20, 200, 100⟩
    0.25 0.75 rfl (by decide)

/-- C14 (method profile ranges). Every entry of the table has its stability factor and
its precision factor in [0,1] and positive maximal deviations. -/
theorem method_profile_ranges (m : String) (p : MethodProfile K)
    (h : methodParams m = some p) :
    (0 ≤ p.stabilityFactor ∧ p.stabilityFactor ≤ 1)
    ∧ (0 ≤ p.precisionFactor ∧ p.precisionFactor ≤ 1)
    ∧ 0 < p.maxAngleDeviation ∧ 0 < p.maxDepthDeviation := by
  rcases methodParams_cases h with ⟨-, rfl⟩ | ⟨-, rfl⟩ | ⟨-, rfl⟩ <;> norm_num

theorem method_profile_ranges_witness :
    (0 ≤ (⟨0.2, 0.3, 10, 2⟩ : MethodProfile ℚ).stabilityFactor
      ∧ (⟨0.2, 0.3, 10, 2⟩ : MethodProfile ℚ).stabilityFactor ≤ 1)
    ∧ (0 ≤ (⟨0.2, 0.3, 10, 2⟩ : MethodProfile ℚ).precisionFactor
      ∧ (⟨0.2, 0.3, 10, 2⟩ : MethodProfile ℚ).precisionFactor ≤ 1)
    ∧ 0 < (⟨0.2, 0.3, 10, 2⟩ : MethodProfile ℚ).maxAngleDeviation
    ∧ 0 < (⟨0.2, 0.3, 10, 2⟩ : MethodProfile ℚ).maxDepthDeviation :=
  method_profile_ranges "freehand" ⟨0.2, 0.3, 10, 2⟩ (by simp [methodParams])

/-- After any call of `setView`, orbit control is on exactly in the free view. -/
lemma setView_lock (st : State K) (view : String) :
    (setView st view).controlsEnabled = true ↔ (setView st view).currentView = "free" := by
  unfold setView
  split_ifs with h1 h2 h3 h4 <;> simp_all

/-- C15 (view/lock invariant). From a state in the buccal view with orbit control off,
after any finite sequence of `setView` calls with arbitrary view names, orbit control is
on if and only if the current view is "free". -/
theorem view_lock_invariant (st : State K) (views : List String)
    (hview : st.currentView = "buccal") (hlock : st.controlsEnabled = false) :
    (views.foldl setView st).controlsEnabled = true
      ↔ (views.foldl setView st).currentView = "free" := by
  have hinit : st.controlsEnabled = true ↔ st.currentView = "free" := by
    rw [hview, hlock]; decide
  clear hview hlock
  induction views generalizing st with
  | nil => exact hinit
  | cons v vs ih => exact ih (setView st v) (setView_lock st v)

theorem view_lock_invariant_witness :
    (["occlusal", "free", "lingual", "panorama", "free"].foldl setView
        (sessionState "yomi" (0 : ℚ) 0)).controlsEnabled = true
      ↔ (["occlusal", "free", "lingual", "panorama", "free"].foldl setView
        (sessionState "yomi" (0 : ℚ) 0)).currentView = "free" :=
  view_lock_invariant (sessionState "yomi" 0 0)
    ["occlusal", "free", "lingual", "panorama", "free"] rfl rfl

/-- C16 (free view keeps the camera). The call `setView('free')` changes nothing but the
current view, which becomes "free", and the orbit control, which is switched on; in
particular the camera position is the one before the call. -/
theorem setView_free (st : State K) :
    setView st "free" = { st with currentView := "free", controlsEnabled := true }
    ∧ (setView st "free").cameraPosition = st.cameraPosition := by
  have h : setView st "free" = { st with currentView := "free", controlsEnabled := true } := by
    simp [setView]
  exact ⟨h, by rw [h]⟩

end TrackerAndViews

section ReachableDeviations

variable {K : Type} [LinearOrderedField K] [FloorRing K]

/-- C27 (angle deviation is not capped). For the method `yomi` (maximal angle deviation
2), the pointer (1, 1) and zero jitter, `updateImplantPosition` stores the angle deviation
`sqrt(7.22)`, about 2.69, which is strictly greater than the maximal angle deviation of
the method. -/
theorem angle_deviation_uncapped (env : MathEnv K) (st : State K)
    (hm : st.currentMethod = some "yomi")
    (hs : 0 ≤ env.sqrt 7.22 ∧ env.sqrt 7.22 * env.sqrt 7.22 = 7.22) :
    ∃ (p : MethodProfile K) (a : K), methodParams "yomi" = some p
      ∧ (-1 ≤ (1 : K) ∧ (1 : K) ≤ 1)
      ∧ (updateImplantPosition env st 1 1 0.5 0.5).implantAngle = .num a
      ∧ p.maxAngleDeviation < a := by
  have hp : methodParams "yomi" = some (⟨0.9, 0.95, 2, 0.5⟩ : MethodProfile K) := by
    simp [methodParams]
  have hu := updateImplantPosition_own env (1 : K) 1 0.5 0.5 hm hp
  have ha : (updateImplantPosition env st 1 1 0.5 0.5).implantAngle
      = .num (env.sqrt 7.22) := by
    rw [hu]
    show JSNum.num _ = JSNum.num _
    norm_num
  refine ⟨_, env.sqrt 7.22, hp, by norm_num, ha, ?_⟩
  obtain ⟨h0, h2⟩ := hs
  show (2 : K) < env.sqrt 7.22
  by_contra hle
  have hle2 : env.sqrt 7.22 ≤ 2 := not_lt.mp hle
  have : env.sqrt 7.22 * env.sqrt 7.22 ≤ 2 * 2 := mul_le_mul hle2 hle2 h0 (by norm_num)
  rw [h2] at this
  norm_num at this

theorem angle_deviation_uncapped_witness :
    ∃ (p : MethodProfile ℝ) (a : ℝ), methodParams "yomi" = some p
      ∧ (-1 ≤ (1 : ℝ) ∧ (1 : ℝ) ≤ 1)
      ∧ (updateImplantPosition ⟨Real.sqrt, fun t => t * (Real.pi / 180)⟩
          (sessionState "yomi" (0 : ℝ) 0) 1 1 0.5 0.5).implantAngle = .num a
      ∧ p.maxAngleDeviation < a :=
  angle_deviation_uncapped ⟨Real.sqrt, fun t => t * (Real.pi / 180)⟩
    (sessionState "yomi" 0 0) rfl
    ⟨Real.sqrt_nonneg _, Real.mul_self_sqrt (by norm_num)⟩

/-- The controlled pointer of the freehand profile stays within 0.34 of the origin. -/
lemma freehand_controlled_bound (v r : K) (hv : -1 ≤ v ∧ v ≤ 1) (hr : 0 ≤ r ∧ r < 1) :
    |v * 0.3 + (r - 0.5) * ((1 - 0.2) * 0.1)| ≤ 0.34 := by
  rw [abs_le]
  constructor <;> norm_num <;> linarith [hv.1, hv.2, hr.1, hr.2]

/-- The scoring statements on the deviations that the transform stores for freehand. -/
lemma freehand_body_score (env : MathEnv K) (st : State K)
    (hm : st.currentMethod = some "freehand") (x y r1 r2 : K)
    (hx : -1 ≤ x ∧ x ≤ 1) (hy : -1 ≤ y ∧ y ≤ 1)
    (hr1 : 0 ≤ r1 ∧ r1 < 1) (hr2 : 0 ≤ r2 ∧ r2 < 1)
    (hs : ∀ v : K, 0 ≤ v → 0 ≤ env.sqrt v ∧ env.sqrt v * env.sqrt v = v) :
    ∃ (a d : K) (score : ℤ),
      completeSimulationBody (updateImplantPosition env st x y r1 r2)
        = .ok ⟨some "freehand", .num a, .num d, .num score⟩
      ∧ 44 ≤ score := by
  have hp : methodParams "freehand" = some (⟨0.2, 0.3, 10, 2⟩ : MethodProfile K) := by
    simp [methodParams]
  have hu := updateImplantPosition_own env x y r1 r2 hm hp
  obtain ⟨cx, hcx⟩ : ∃ cx : K, cx = x * 0.3 + (r1 - 0.5) * ((1 - 0.2) * 0.1) := ⟨_, rfl⟩
  obtain ⟨cy, hcy⟩ : ∃ cy : K, cy = y * 0.3 + (r2 - 0.5) * ((1 - 0.2) * 0.1) := ⟨_, rfl⟩
  have hbx : |cx| ≤ 0.34 := by rw [hcx]; exact freehand_controlled_bound x r1 hx hr1
  have hby : |cy| ≤ 0.34 := by rw [hcy]; exact freehand_controlled_bound y r2 hy hr2
  have ha : (updateImplantPosition env st x y r1 r2).implantAngle
      = .num (env.sqrt (cx * 10 * (cx * 10) + cy * 10 * (cy * 10))) := by
    rw [hu, hcx, hcy]
  have hd : (updateImplantPosition env st x y r1 r2).implantDepth
      = .num (|cx + cy| * 2) := by
    rw [hu, hcx, hcy]
  have hm2 : (updateImplantPosition env st x y r1 r2).currentMethod = some "freehand" := by
    rw [hu]; exact hm
  refine ⟨_, _, _, completeSimulationBody_own hm2 hp ha hd, ?_⟩
  have hsq := hs (cx * 10 * (cx * 10) + cy * 10 * (cy * 10))
    (add_nonneg (mul_self_nonneg _) (mul_self_nonneg _))
  obtain ⟨hA0, hA2⟩ := hsq
  have hx2 : cx * cx ≤ 0.34 * 0.34 := by
    have := abs_le.mp hbx
    nlinarith [this.1, this.2]
  have hy2 : cy * cy ≤ 0.34 * 0.34 := by
    have := abs_le.mp hby
    nlinarith [this.1, this.2]
  have hA : env.sqrt (cx * 10 * (cx * 10) + cy * 10 * (cy * 10)) ≤ 4.8084 := by
    by_contra hgt
    have hgt2 := not_le.mp hgt
    have : (4.8084 : K) * 4.8084
        < env.sqrt (cx * 10 * (cx * 10) + cy * 10 * (cy * 10))
          * env.sqrt (cx * 10 * (cx * 10) + cy * 10 * (cy * 10)) :=
      mul_lt_mul'' hgt2 hgt2 (by norm_num) (by norm_num)
    rw [hA2] at this
    norm_num at this hx2 hy2
    linarith
  have hD : |cx + cy| ≤ 0.68 := by
    have h1 := abs_add cx cy
    norm_num at hbx hby ⊢
    linarith
  have hround : (44 : ℤ) ≤ mathRound
      ((100 - (env.sqrt (cx * 10 * (cx * 10) + cy * 10 * (cy * 10)) / (10 : K)) * 100) * 0.6
        + (100 - (|cx + cy| * 2 / (2 : K)) * 100) * 0.4) := by
    unfold mathRound
    rw [Int.le_floor]
    norm_num at hA hD ⊢
    linarith
  exact le_max_of_le_right (le_min (by norm_num) hround)

/-- The scoring statements give 0 on the deviations that the transform stores for yomi
at the pointer (1, 1) with zero jitter. -/
lemma yomi_body_score_zero (env : MathEnv K) (st : State K)
    (hm : st.currentMethod = some "yomi")
    (hs : ∀ v : K, 0 ≤ v → 0 ≤ env.sqrt v ∧ env.sqrt v * env.sqrt v = v) :
    ∃ a d : K,
      completeSimulationBody (updateImplantPosition env st 1 1 0.5 0.5)
        = .ok ⟨some "yomi", .num a, .num d, .num 0⟩ := by
  have hp : methodParams "yomi" = some (⟨0.9, 0.95, 2, 0.5⟩ : MethodProfile K) := by
    simp [methodParams]
  have hu := updateImplantPosition_own env (1 : K) 1 0.5 0.5 hm hp
  have ha : (updateImplantPosition env st 1 1 0.5 0.5).implantAngle
      = .num (env.sqrt 7.22) := by
    rw [hu]
    show JSNum.num _ = JSNum.num _
    norm_num
  have hd : (updateImplantPosition env st 1 1 0.5 0.5).implantDepth = .num 0.95 := by
    rw [hu]
    show JSNum.num _ = JSNum.num _
    norm_num
    rw [abs_of_nonneg (by norm_num)]
    norm_num
  have hm2 : (updateImplantPosition env st 1 1 0.5 0.5).currentMethod = some "yomi" := by
    rw [hu]; exact hm
  refine ⟨env.sqrt 7.22, 0.95, ?_⟩
  rw [completeSimulationBody_own hm2 hp ha hd]
  obtain ⟨h0, h2⟩ := hs 7.22 (by norm_num)
  have hgt : (2 : K) < env.sqrt 7.22 := by
    by_contra hle
    have hle2 : env.sqrt 7.22 ≤ 2 := not_lt.mp hle
    have : env.sqrt 7.22 * env.sqrt 7.22 ≤ 2 * 2 := mul_le_mul hle2 hle2 h0 (by norm_num)
    rw [h2] at this
    norm_num at this
  have hround : mathRound ((100 - (env.sqrt 7.22 / (2 : K)) * 100) * 0.6
      + (100 - ((0.95 : K) / 0.5) * 100) * 0.4) < 1 := by
    unfold mathRound
    rw [Int.floor_lt]
    norm_num
    linarith
  have hzero : max 0 (min 100 (mathRound ((100 - (env.sqrt 7.22 / (2 : K)) * 100) * 0.6
      + (100 - ((0.95 : K) / 0.5) * 100) * 0.4))) = 0 := by
    omega
  show Except.ok _ = Except.ok _
  simp only [hzero]

/-- C29 (reachable freehand scores). The call `completeSimulation()` stops at line 118
with a ReferenceError and returns no score. For the scoring statements below that line:
on the deviations that `updateImplantPosition` stores for the freehand profile, for every
pointer in `[-1,1]^2` and every pair of random samples in `[0,1)`, the score is at least
44; on the deviations it stores for yomi at the pointer (1, 1) with zero jitter the score
is 0. -/
theorem reachable_scores (env : MathEnv K) (st sty : State K)
    (hm : st.currentMethod = some "freehand") (hmy : sty.currentMethod = some "yomi")
    (x y r1 r2 : K)
    (hx : -1 ≤ x ∧ x ≤ 1) (hy : -1 ≤ y ∧ y ≤ 1)
    (hr1 : 0 ≤ r1 ∧ r1 < 1) (hr2 : 0 ≤ r2 ∧ r2 < 1)
    (hs : ∀ v : K, 0 ≤ v → 0 ≤ env.sqrt v ∧ env.sqrt v * env.sqrt v = v) :
    (completeSimulation (updateImplantPosition env st x y r1 r2)).1 = .error .referenceError
    ∧ (∃ (a d : K) (score : ℤ),
        completeSimulationBody (updateImplantPosition env st x y r1 r2)
          = .ok ⟨some "freehand", .num a, .num d, .num score⟩
        ∧ 44 ≤ score)
    ∧ ∃ a d : K,
        completeSimulationBody (updateImplantPosition env sty 1 1 0.5 0.5)
          = .ok ⟨some "yomi", .num a, .num d, .num 0⟩ :=
  ⟨rfl, freehand_body_score env st hm x y r1 r2 hx hy hr1 hr2 hs,
    yomi_body_score_zero env sty hmy hs⟩

theorem reachable_scores_witness :
    (completeSimulation (updateImplantPosition ⟨Real.sqrt, fun t => t * (Real.pi / 180)⟩
        (sessionState "freehand" (0 : ℝ) 0) (-1) (-1) 0 0)).1 = .error .referenceError
    ∧ (∃ (a d : ℝ) (score : ℤ),
        completeSimulationBody (updateImplantPosition ⟨Real.sqrt, fun t => t * (Real.pi / 180)⟩
            (sessionState "freehand" (0 : ℝ) 0) (-1) (-1) 0 0)
          = .ok ⟨some "freehand", .num a, .num d, .num score⟩
        ∧ 44 ≤ score)
    ∧ ∃ a d : ℝ,
        completeSimulationBody (updateImplantPosition ⟨Real.sqrt, fun t => t * (Real.pi / 180)⟩
            (sessionState "yomi" (0 : ℝ) 0) 1 1 0.5 0.5)
          = .ok ⟨some "yomi", .num a, .num d, .num 0⟩ :=
  reachable_scores ⟨Real.sqrt, fun t => t * (Real.pi / 180)⟩
    (sessionState "freehand" 0 0) (sessionState "yomi" 0 0) rfl rfl (-1) (-1) 0 0
    (by norm_num) (by norm_num) (by norm_num) (by norm_num)
    (fun v hv => ⟨Real.sqrt_nonneg v, Real.mul_self_sqrt hv⟩)

end ReachableDeviations

section SessionLifecycle

variable {K : Type} [LinearOrderedField K] [FloorRing K]

/-- The call `animate()` always stops at the assignment of line 371 and leaves every
tracked value as it was. -/
lemma animate_throws (st : State K) (frameId : ℕ) (r1 r2 : K) :
    animate st frameId r1 r2 = (.error .referenceError, st) := rfl

/-- Whatever the method id and however the call ends, `initialize` has made the id the
active method and put both deviations to 0. -/
lemma initializeSession_fields (pi : K) (dom : Dom) (st : State K) (method : Option String)
    (frameId : ℕ) (r1 r2 : K) :
    (initializeSession pi dom st method frameId r1 r2).2.currentMethod = method
    ∧ (initializeSession pi dom st method frameId r1 r2).2.implantAngle = .num 0
    ∧ (initializeSession pi dom st method frameId r1 r2).2.implantDepth = .num 0 := by
  unfold initializeSession
  cases hmeters : updateMeters dom
      { st with currentMethod := method, implantAngle := .num 0, implantDepth := .num 0 } with
  | error e => simp [hmeters]
  | ok u =>
    simp only [hmeters]
    unfold initScene
    by_cases hc : dom.canvas = true
    · simp [hc, animate_throws]
    · simp [hc]

/-- C23, as stated, fails: `initialize('robot')`, called in a yomi session whose tracker
holds the deviations 1 and 1, raises a TypeError in `updateMeters` and leaves "robot" as
the active method and both deviations at 0, although "robot" has no table entry. -/
theorem initialize_unknown_counterexample :
    (methodParams "robot" : Option (MethodProfile ℝ)) = none
    ∧ (sessionState "yomi" (1 : ℝ) 1).currentMethod = some "yomi"
    ∧ (sessionState "yomi" (1 : ℝ) 1).implantAngle = .num 1
    ∧ (initializeSession Real.pi ⟨true, true, true, true, true⟩
        (sessionState "yomi" (1 : ℝ) 1) (some "robot") 1 0.5 0.5).1 = .error .typeError
    ∧ (initializeSession Real.pi ⟨true, true, true, true, true⟩
        (sessionState "yomi" (1 : ℝ) 1) (some "robot") 1 0.5 0.5).2.currentMethod
        = some "robot"
    ∧ (initializeSession Real.pi ⟨true, true, true, true, true⟩
        (sessionState "yomi" (1 : ℝ) 1) (some "robot") 1 0.5 0.5).2.implantAngle = .num 0 := by
  have hr : (methodParams "robot" : Option (MethodProfile ℝ)) = none := by
    simp [methodParams]
  have hg : (methodParamsGet (some "robot") : PropertyValue ℝ) = .undefined := by
    simp [methodParamsGet, propertyKey, methodParams, objectPrototypeKeys]
  have hf := initializeSession_fields Real.pi ⟨true, true, true, true, true⟩
    (sessionState "yomi" (1 : ℝ) 1) (some "robot") 1 0.5 0.5
  refine ⟨hr, rfl, rfl, ?_, hf.1, hf.2.1⟩
  simp [initializeSession, updateMeters, hg]

/-- C23, amended (no validation at session init). The method `initialize` does not reject
a method id. For every id, with or without an entry in the profile table, the call makes
the id the active method and puts both deviations to 0, and these assignments stand
however the call ends. For an id whose table read is `undefined`, the call then ends in
`updateMeters` with a TypeError as soon as one of the two meter elements exists, with
exactly those assignments made. -/
theorem initialize_mutates_first (pi : K) (dom : Dom) (st : State K) (method : Option String)
    (frameId : ℕ) (r1 r2 : K) :
    ((initializeSession pi dom st method frameId r1 r2).2.currentMethod = method
      ∧ (initializeSession pi dom st method frameId r1 r2).2.implantAngle = .num 0
      ∧ (initializeSession pi dom st method frameId r1 r2).2.implantDepth = .num 0)
    ∧ ((methodParamsGet method : PropertyValue K) = .undefined →
        (dom.angleMeter = true ∨ dom.depthMeter = true) →
        initializeSession pi dom st method frameId r1 r2
          = (.error .typeError,
              { st with
                currentMethod := method, implantAngle := .num 0, implantDepth := .num 0 })) := by
  refine ⟨initializeSession_fields pi dom st method frameId r1 r2, ?_⟩
  intro hund hmeter
  have hmeters : updateMeters dom
      { st with currentMethod := method, implantAngle := .num 0, implantDepth := .num 0 }
      = .error .typeError := by
    unfold updateMeters
    simp only [hund]
    rcases hmeter with h | h
    · simp [h]
    · by_cases ha : dom.angleMeter = true
      · simp [ha]
      · simp [ha, h]
  unfold initializeSession
  simp only [hmeters]

theorem initialize_mutates_first_witness :
    ((initializeSession Real.pi ⟨true, false, false, false, true⟩
        (sessionState "static" (2 : ℝ) 1) none 7 0.25 0.75).2.currentMethod = none
      ∧ (initializeSession Real.pi ⟨true, false, false, false, true⟩
        (sessionState "static" (2 : ℝ) 1) none 7 0.25 0.75).2.implantAngle = .num 0
      ∧ (initializeSession Real.pi ⟨true, false, false, false, true⟩
        (sessionState "static" (2 : ℝ) 1) none 7 0.25 0.75).2.implantDepth = .num 0)
    ∧ (methodParamsGet none : PropertyValue ℝ) = .undefined
    ∧ initializeSession Real.pi ⟨true, false, false, false, true⟩
        (sessionState "static" (2 : ℝ) 1) none 7 0.25 0.75
      = (.error .typeError,
          { sessionState "static" (2 : ℝ) 1 with
            currentMethod := none, implantAngle := .num 0, implantDepth := .num 0 }) :=
  have hund : (methodParamsGet none : PropertyValue ℝ) = .undefined := by
    simp [methodParamsGet, propertyKey, methodParams, objectPrototypeKeys]
  ⟨(initialize_mutates_first Real.pi ⟨true, false, false, false, true⟩
      (sessionState "static" 2 1) none 7 0.25 0.75).1,
    hund,
    (initialize_mutates_first Real.pi ⟨true, false, false, false, true⟩
      (sessionState "static" 2 1) none 7 0.25 0.75).2 hund (Or.inr rfl)⟩

/-- C24, as stated, fails: with no active method the call `completeSimulation()` raises
an exception, and so do its scoring statements taken alone. -/
theorem complete_without_method_counterexample :
    (completeSimulation
        ({ sessionState "yomi" (0 : ℚ) 0 with currentMethod := none } : State ℚ)).1
      = .error .referenceError
    ∧ completeSimulationBody
        ({ sessionState "yomi" (0 : ℚ) 0 with currentMethod := none } : State ℚ)
      = .error .typeError := by
  refine ⟨rfl, ?_⟩
  simp [completeSimulationBody, methodParamsGet, propertyKey, methodParams,
    objectPrototypeKeys, sessionState]

/-- C24, amended (completion with no active method). With no active method
`completeSimulation()` changes no tracked value, but it returns no rejected or ignored
signal: the method has no guard for a missing method and the call ends in an exception;
its scoring statements read a field of the `undefined` table entry, a TypeError. -/
theorem complete_without_method (st : State K) (h : st.currentMethod = none) :
    (completeSimulation st).2 = st
    ∧ (∃ e : JSError, (completeSimulation st).1 = .error e)
    ∧ completeSimulationBody st = .error .typeError := by
  refine ⟨rfl, ⟨.referenceError, rfl⟩, ?_⟩
  simp [completeSimulationBody, h, methodParamsGet, propertyKey, methodParams,
    objectPrototypeKeys]

theorem complete_without_method_witness :
    (completeSimulation
        ({ sessionState "static" (1 : ℚ) 1 with currentMethod := none } : State ℚ)).2
      = { sessionState "static" (1 : ℚ) 1 with currentMethod := none }
    ∧ (∃ e : JSError, (completeSimulation
        ({ sessionState "static" (1 : ℚ) 1 with currentMethod := none } : State ℚ)).1
          = .error e)
    ∧ completeSimulationBody
        ({ sessionState "static" (1 : ℚ) 1 with currentMethod := none } : State ℚ)
      = .error .typeError :=
  complete_without_method { sessionState "static" (1 : ℚ) 1 with currentMethod := none } rfl

/-- One idle run of the statements of `animate` below line 371, for a method of the
table: both rotation angles take up their shake. -/
lemma animateBody_idle {st : State K} {m : String} {p : MethodProfile K} {x z : K}
    (r1 r2 : K) (hm : st.currentMethod = some m) (hp : methodParams m = some p)
    (hdrag : st.isDragging = false)
    (hx : st.rotationX = .num x) (hz : st.rotationZ = .num z) :
    animateBody st r1 r2 = .ok
      { st with
        rotationX := .num (x + (r1 - 0.5) * ((1 - p.stabilityFactor) * 0.001))
        rotationZ := .num (z + (r2 - 0.5) * ((1 - p.stabilityFactor) * 0.001)) } := by
  have hf := isFalsy_of_methodParams hp
  have hs0 : p.stabilityFactor ≠ 0 := by
    rcases methodParams_cases hp with ⟨-, rfl⟩ | ⟨-, rfl⟩ | ⟨-, rfl⟩ <;> norm_num
  simp [animateBody, hm, hf, hdrag, methodParamsGet_own hp, hs0, hx, hz, JSNum.addNum]

/-- The size of one shake. -/
lemma shake_bound {p : MethodProfile K} {m : String} (hp : methodParams m = some p)
    (r : K) (hr : 0 ≤ r ∧ r < 1) :
    |(r - 0.5) * ((1 - p.stabilityFactor) * 0.001)| ≤ 0.0005 * (1 - p.stabilityFactor) := by
  have hs1 : 0 ≤ 1 - p.stabilityFactor := by
    rcases methodParams_cases hp with ⟨-, rfl⟩ | ⟨-, rfl⟩ | ⟨-, rfl⟩ <;> norm_num
  have hr5 : |r - 0.5| ≤ 0.5 := by
    rw [abs_le]
    constructor <;> norm_num <;> linarith [hr.1, hr.2]
  rw [abs_mul, abs_of_nonneg (by positivity : (0 : K) ≤ (1 - p.stabilityFactor) * 0.001)]
  calc |r - 0.5| * ((1 - p.stabilityFactor) * 0.001)
      ≤ 0.5 * ((1 - p.stabilityFactor) * 0.001) :=
        mul_le_mul_of_nonneg_right hr5 (by positivity)
    _ = 0.0005 * (1 - p.stabilityFactor) := by ring

/-- The drift after any number of idle runs of the statements of `animate` below line
371. -/
lemma idleFrames_drift {m : String} {p : MethodProfile K} (hp : methodParams m = some p)
    (samples : List (K × K)) :
    ∀ (st : State K) (x z : K), st.currentMethod = some m → st.isDragging = false →
      st.rotationX = .num x → st.rotationZ = .num z →
      (∀ q ∈ samples, (0 ≤ q.1 ∧ q.1 < 1) ∧ (0 ≤ q.2 ∧ q.2 < 1)) →
      ∃ (st1 : State K) (x1 z1 : K), idleFrames st samples = .ok st1
        ∧ st1.rotationX = .num x1 ∧ st1.rotationZ = .num z1
        ∧ |x1 - x| ≤ (samples.length : K) * (0.0005 * (1 - p.stabilityFactor))
        ∧ |z1 - z| ≤ (samples.length : K) * (0.0005 * (1 - p.stabilityFactor)) := by
  induction samples with
  | nil =>
    intro st x z _ _ hx hz _
    exact ⟨st, x, z, rfl, hx, hz, by simp, by simp⟩
  | cons q rest ih =>
    intro st x z hm hdrag hx hz hq
    obtain ⟨r1, r2⟩ := q
    have hr := hq (r1, r2) (List.mem_cons_self _ _)
    have hstep := animateBody_idle r1 r2 hm hp hdrag hx hz
    obtain ⟨st1, x1, z1, hrun, hx1, hz1, hbx, hbz⟩ :=
      ih _ (x + (r1 - 0.5) * ((1 - p.stabilityFactor) * 0.001))
        (z + (r2 - 0.5) * ((1 - p.stabilityFactor) * 0.001))
        (show ({ st with
            rotationX := .num (x + (r1 - 0.5) * ((1 - p.stabilityFactor) * 0.001))
            rotationZ := .num (z + (r2 - 0.5) * ((1 - p.stabilityFactor) * 0.001)) }
            : State K).currentMethod = some m from hm)
        (show ({ st with
            rotationX := .num (x + (r1 - 0.5) * ((1 - p.stabilityFactor) * 0.001))
            rotationZ := .num (z + (r2 - 0.5) * ((1 - p.stabilityFactor) * 0.001)) }
            : State K).isDragging = false from hdrag)
        rfl rfl (fun q' hq' => hq q' (List.mem_cons_of_mem _ hq'))
    refine ⟨st1, x1, z1, ?_, hx1, hz1, ?_, ?_⟩
    · simp only [idleFrames, hstep]
      exact hrun
    · have h1 := shake_bound hp r1 hr.1
      have h2 : |x1 - x| ≤ |x1 - (x + (r1 - 0.5) * ((1 - p.stabilityFactor) * 0.001))|
          + |(r1 - 0.5) * ((1 - p.stabilityFactor) * 0.001)| := by
        have := abs_add (x1 - (x + (r1 - 0.5) * ((1 - p.stabilityFactor) * 0.001)))
          ((r1 - 0.5) * ((1 - p.stabilityFactor) * 0.001))
        rwa [show x1 - (x + (r1 - 0.5) * ((1 - p.stabilityFactor) * 0.001))
          + (r1 - 0.5) * ((1 - p.stabilityFactor) * 0.001) = x1 - x by ring] at this
      simp only [List.length_cons, Nat.cast_add, Nat.cast_one]
      linarith
    · have h1 := shake_bound hp r2 hr.2
      have h2 : |z1 - z| ≤ |z1 - (z + (r2 - 0.5) * ((1 - p.stabilityFactor) * 0.001))|
          + |(r2 - 0.5) * ((1 - p.stabilityFactor) * 0.001)| := by
        have := abs_add (z1 - (z + (r2 - 0.5) * ((1 - p.stabilityFactor) * 0.001)))
          ((r2 - 0.5) * ((1 - p.stabilityFactor) * 0.001))
        rwa [show z1 - (z + (r2 - 0.5) * ((1 - p.stabilityFactor) * 0.001))
          + (r2 - 0.5) * ((1 - p.stabilityFactor) * 0.001) = z1 - z by ring] at this
      simp only [List.length_cons, Nat.cast_add, Nat.cast_one]
      linarith

/-- C26 (idle perturbation). A frame adds nothing to the rotation of the implant: the
call `animate()` stops at the assignment of line 371 with a ReferenceError, before the
shake. The statements below that line, for a method of the table with stability factor
`s`, add `(r - 0.5) * (1 - s) * 0.001` to `rotation.x` and to `rotation.z` while no drag is
in progress, never resetting them, so that after `n` idle runs the drift on each axis is
at most `n * 0.0005 * (1 - s)`; during a drag they leave the state as it is. -/
theorem idle_perturbation (st : State K) (m : String) (p : MethodProfile K) (x z : K)
    (frameId : ℕ) (r1 r2 : K) (samples : List (K × K))
    (hm : st.currentMethod = some m) (hp : methodParams m = some p)
    (hdrag : st.isDragging = false)
    (hx : st.rotationX = .num x) (hz : st.rotationZ = .num z)
    (hr1 : 0 ≤ r1 ∧ r1 < 1) (hr2 : 0 ≤ r2 ∧ r2 < 1)
    (hsamples : ∀ q ∈ samples, (0 ≤ q.1 ∧ q.1 < 1) ∧ (0 ≤ q.2 ∧ q.2 < 1)) :
    animate st frameId r1 r2 = (.error .referenceError, st)
    ∧ animateBody st r1 r2 = .ok
        { st with
          rotationX := .num (x + (r1 - 0.5) * (1 - p.stabilityFactor) * 0.001)
          rotationZ := .num (z + (r2 - 0.5) * (1 - p.stabilityFactor) * 0.001) }
    ∧ animateBody { st with isDragging := true } r1 r2 = .ok { st with isDragging := true }
    ∧ ∃ (st1 : State K) (x1 z1 : K), idleFrames st samples = .ok st1
        ∧ st1.rotationX = .num x1 ∧ st1.rotationZ = .num z1
        ∧ |x1 - x| ≤ (samples.length : K) * 0.0005 * (1 - p.stabilityFactor)
        ∧ |z1 - z| ≤ (samples.length : K) * 0.0005 * (1 - p.stabilityFactor) := by
  refine ⟨rfl, ?_, ?_, ?_⟩
  · rw [animateBody_idle r1 r2 hm hp hdrag hx hz]
    simp only [mul_assoc]
  · simp [animateBody]
  · obtain ⟨st1, x1, z1, h1, h2, h3, h4, h5⟩ :=
      idleFrames_drift hp samples st x z hm hdrag hx hz hsamples
    exact ⟨st1, x1, z1, h1, h2, h3, by rw [mul_assoc]; exact h4, by rw [mul_assoc]; exact h5⟩

theorem idle_perturbation_witness :
    animate (sessionState "freehand" (0 : ℚ) 0) 3 (1 / 4) (3 / 4)
      = (.error .referenceError, sessionState "freehand" (0 : ℚ) 0)
    ∧ animateBody (sessionState "freehand" (0 : ℚ) 0) (1 / 4) (3 / 4) = .ok
        { sessionState "freehand" (0 : ℚ) 0 with
          rotationX := .num (0 + (1 / 4 - 0.5)
            * (1 - (⟨0.2, 0.3, 10, 2⟩ : MethodProfile ℚ).stabilityFactor) * 0.001)
          rotationZ := .num (0 + (3 / 4 - 0.5)
            * (1 - (⟨0.2, 0.3, 10, 2⟩ : MethodProfile ℚ).stabilityFactor) * 0.001) }
    ∧ animateBody { sessionState "freehand" (0 : ℚ) 0 with isDragging := true } (1 / 4) (3 / 4)
      = .ok { sessionState "freehand" (0 : ℚ) 0 with isDragging := true }
    ∧ ∃ (st1 : State ℚ) (x1 z1 : ℚ),
        idleFrames (sessionState "freehand" (0 : ℚ) 0) [(0, 0), (1 / 2, 9 / 10), (0, 1 / 3)]
          = .ok st1
        ∧ st1.rotationX = .num x1 ∧ st1.rotationZ = .num z1
        ∧ |x1 - 0| ≤ (([(0, 0), (1 / 2, 9 / 10), (0, 1 / 3)] : List (ℚ × ℚ)).length : ℚ)
            * 0.0005 * (1 - (⟨0.2, 0.3, 10, 2⟩ : MethodProfile ℚ).stabilityFactor)
        ∧ |z1 - 0| ≤ (([(0, 0), (1 / 2, 9 / 10), (0, 1 / 3)] : List (ℚ × ℚ)).length : ℚ)
            * 0.0005 * (1 - (⟨0.2, 0.3, 10, 2⟩ : MethodProfile ℚ).stabilityFactor) :=
  idle_perturbation (sessionState "freehand" 0 0) "freehand" ⟨0.2, 0.3, 10, 2⟩ 0 0 3
    (1 / 4) (3 / 4) [(0, 0), (1 / 2, 9 / 10), (0, 1 / 3)]
    rfl (by simp [methodParams]) rfl rfl rfl (by norm_num) (by norm_num)
    (by
      intro q hq
      simp only [List.mem_cons, List.mem_singleton, List.not_mem_nil, or_false] at hq
      rcases hq with rfl | rfl | rfl <;> norm_num)

end SessionLifecycle

end YomiSimulation

namespace YomiArcadeApp

open YomiSimulation SimulationManager

section StrategyB

variable {K : Type} [LinearOrderedField K] [FloorRing K]

/-- The source's `Math.max(0, Math.min(100, v))` is the spec's `clamp(v, 0, 100)` on
numbers. -/
lemma max_min_eq_clampNum (v : K) : max 0 (min 100 v) = clampNum v 0 100 := by
  unfold clampNum
  split_ifs with h1 h2
  · rw [min_eq_right (by linarith), max_eq_left h1.le]
  · rw [min_eq_left h2.le, max_eq_right (by norm_num)]
  · rw [min_eq_right (not_lt.mp h2), max_eq_right (not_lt.mp h1)]

/-- The two tables of `GAME_CONFIG` have the same keys. -/
lemma BENCHMARKS_of_METHODS {key : String} {config : MethodConfig K}
    (h : METHODS key = some config) : ∃ averageError : K, BENCHMARKS key = some averageError := by
  unfold METHODS at h
  unfold BENCHMARKS
  split_ifs at h ⊢ <;> simp_all

/-- What `processResults` returns for a method that has an entry in both tables. -/
lemma processResults_ok (sel : String) (results : Results K) (config : MethodConfig K)
    (averageError : K) (hc : METHODS (toUpperCase sel) = some config)
    (hb : BENCHMARKS (toUpperCase sel) = some averageError) :
    ∃ r : ProcessedResults K, processResults (some sel) results = .ok r
      ∧ r.method = sel
      ∧ r.score = min 100 (mathRound
          (if sel = "yomi" then
            max 0 (min 100 ((1 - results.finalDistance * 10 / 5) * 100)) * 1.2
          else if sel = "static" then
            max 0 (min 100 ((1 - results.finalDistance * 10 / 5) * 100)) * 1.1
          else max 0 (min 100 ((1 - results.finalDistance * 10 / 5) * 100))))
      ∧ r.accuracy = toFixed 1 (max 0 (min 100 ((1 - results.finalDistance * 10 / 5) * 100)))
      ∧ r.errorMm = toFixed 2 (results.finalDistance * 10)
      ∧ r.angleError = toFixed 1 results.angleError
      ∧ r.depthError = toFixed 1 results.depthError
      ∧ r.timeSeconds = toFixed 1 results.timeSeconds := by
  simp only [processResults, hc, hb]
  exact ⟨_, rfl, rfl, rfl, rfl, rfl, rfl, rfl, rfl⟩

/-- C12 (Strategy B formula). For a final distance that is not negative and the selected
method `freehand`, `static` or `yomi`, `processResults` works with
`errorMm = finalDistance*10` and `accuracy = clamp((1 - errorMm/5)*100, 0, 100)`, which it
reports to two and to one decimals, and returns the score `clamp(n, 0, 100)`, where `n` is
`accuracy * m` rounded half up and `m` is 1.0, 1.1 or 1.2; the score is an integer between
0 and 100. -/
theorem strategyB_formula (sel : String) (m : K) (results : Results K)
    (hfd : 0 ≤ results.finalDistance)
    (hm : (sel = "freehand" ∧ m = 1.0) ∨ (sel = "static" ∧ m = 1.1)
      ∨ (sel = "yomi" ∧ m = 1.2)) :
    ∃ (r : ProcessedResults K) (n : ℤ), processResults (some sel) results = .ok r
      ∧ r.errorMm = toFixed 2 (results.finalDistance * 10)
      ∧ r.accuracy = toFixed 1 (strategyBAccuracy (results.finalDistance * 10))
      ∧ IsRoundHalfUp (strategyBAccuracy (results.finalDistance * 10) * m) n
      ∧ r.score = clamp n 0 100
      ∧ 0 ≤ r.score ∧ r.score ≤ 100 := by
  have hcfg : ∃ config : MethodConfig K, METHODS (toUpperCase sel) = some config := by
    rcases hm with ⟨rfl, -⟩ | ⟨rfl, -⟩ | ⟨rfl, -⟩
    · rw [show toUpperCase "freehand" = "FREEHAND" by decide]
      unfold METHODS
      rw [if_pos rfl]
      exact ⟨_, rfl⟩
    · rw [show toUpperCase "static" = "STATIC" by decide]
      unfold METHODS
      rw [if_neg (by decide), if_pos rfl]
      exact ⟨_, rfl⟩
    · rw [show toUpperCase "yomi" = "YOMI" by decide]
      unfold METHODS
      rw [if_neg (by decide), if_neg (by decide), if_pos rfl]
      exact ⟨_, rfl⟩
  obtain ⟨config, hc⟩ := hcfg
  obtain ⟨averageError, hb⟩ := BENCHMARKS_of_METHODS hc
  obtain ⟨r, hr, -, hscore, hacc, herr, -, -, -⟩ := processResults_ok sel results config averageError hc hb
  have hmul : (if sel = "yomi" then
        max 0 (min 100 ((1 - results.finalDistance * 10 / 5) * 100)) * 1.2
      else if sel = "static" then
        max 0 (min 100 ((1 - results.finalDistance * 10 / 5) * 100)) * 1.1
      else max 0 (min 100 ((1 - results.finalDistance * 10 / 5) * 100)))
      = strategyBAccuracy (results.finalDistance * 10) * m := by
    unfold strategyBAccuracy
    rw [← max_min_eq_clampNum]
    rcases hm with ⟨rfl, rfl⟩ | ⟨rfl, rfl⟩ | ⟨rfl, rfl⟩
    · rw [if_neg (by decide), if_neg (by decide)]; norm_num
    · rw [if_neg (by decide), if_pos rfl]
    · rw [if_pos rfl]
  rw [hmul] at hscore
  have hacc0 : 0 ≤ strategyBAccuracy (results.finalDistance * 10) := by
    unfold strategyBAccuracy
    rw [← max_min_eq_clampNum]
    exact le_max_left _ _
  have hm0 : 0 ≤ m := by
    rcases hm with ⟨-, rfl⟩ | ⟨-, rfl⟩ | ⟨-, rfl⟩ <;> norm_num
  have hround : 0 ≤ mathRound (strategyBAccuracy (results.finalDistance * 10) * m) := by
    unfold mathRound
    apply Int.floor_nonneg.mpr
    have := mul_nonneg hacc0 hm0
    norm_num
    linarith
  refine ⟨r, mathRound (strategyBAccuracy (results.finalDistance * 10) * m), hr, herr, ?_,
    isRoundHalfUp_mathRound _, ?_, ?_, ?_⟩
  · rw [hacc, max_min_eq_clampNum]; rfl
  · rw [hscore, ← max_min_eq_clamp, max_eq_right (le_min (by norm_num) hround)]
  · rw [hscore]; exact le_min (by norm_num) hround
  · rw [hscore]; exact min_le_left _ _

theorem strategyB_formula_witness :
    ∃ (r : ProcessedResults ℚ) (n : ℤ),
      processResults (some "static") (⟨3 / 10, 12, 4, 20, ⟨0, 0, 0⟩⟩ : Results ℚ) = .ok r
      ∧ r.errorMm = toFixed 2 ((⟨3 / 10, 12, 4, 20, ⟨0, 0, 0⟩⟩ : Results ℚ).finalDistance * 10)
      ∧ r.accuracy = toFixed 1
          (strategyBAccuracy ((⟨3 / 10, 12, 4, 20, ⟨0, 0, 0⟩⟩ : Results ℚ).finalDistance * 10))
      ∧ IsRoundHalfUp
          (strategyBAccuracy ((⟨3 / 10, 12, 4, 20, ⟨0, 0, 0⟩⟩ : Results ℚ).finalDistance * 10)
            * 1.1) n
      ∧ r.score = clamp n 0 100
      ∧ 0 ≤ r.score ∧ r.score ≤ 100 :=
  strategyB_formula "static" 1.1 ⟨3 / 10, 12, 4, 20, ⟨0, 0, 0⟩⟩ (by norm_num)
    (Or.inr (Or.inl ⟨rfl, rfl⟩))

end StrategyB

section Determinism

variable {K : Type} [LinearOrderedField K] [FloorRing K]

/-- C13, as stated, fails: two completions of a yomi session from the same implant
position, target position and elapsed time, one drawing the random sample 0 and the other
0.5 in `calculateResults`, report the angle errors 0.0 and 5.0. -/
theorem scoring_randomness_counterexample :
    ∃ pa pb : ProcessedResults ℝ,
      processResults (some "yomi")
          (calculateResults ⟨Real.sqrt, fun t => t * (Real.pi / 180)⟩
            ⟨0.02, 0, 0.02⟩ ⟨0.02, 0, 0.02⟩ 0 10000 0) = .ok pa
      ∧ processResults (some "yomi")
          (calculateResults ⟨Real.sqrt, fun t => t * (Real.pi / 180)⟩
            ⟨0.02, 0, 0.02⟩ ⟨0.02, 0, 0.02⟩ 0 10000 0.5) = .ok pb
      ∧ pa.angleError = 0 ∧ pb.angleError = 5 ∧ pa.angleError ≠ pb.angleError := by
  have hu : toUpperCase "yomi" = "YOMI" := by decide
  have hc : (METHODS (toUpperCase "yomi") : Option (MethodConfig ℝ)) = some
      { id := "yomi", name := "Yomi Robotic-Assisted", accuracy := "92.3%",
        description := "AI-powered robotic guidance", color := "#ff7f50",
        targetOffset := { x := 0.02, y := 0.02, z := 0.02 }, wobbleFactor := 0.002 } := by
    rw [hu]; unfold METHODS
    rw [if_neg (by decide), if_neg (by decide), if_pos rfl]
  obtain ⟨avg, hb⟩ := BENCHMARKS_of_METHODS hc
  obtain ⟨pa, hpa, -, -, -, -, haa, -, -⟩ := processResults_ok "yomi"
    (calculateResults ⟨Real.sqrt, fun t => t * (Real.pi / 180)⟩
      ⟨0.02, 0, 0.02⟩ ⟨0.02, 0, 0.02⟩ 0 10000 (0 : ℝ)) _ avg hc hb
  obtain ⟨pb, hpb, -, -, -, -, hab, -, -⟩ := processResults_ok "yomi"
    (calculateResults ⟨Real.sqrt, fun t => t * (Real.pi / 180)⟩
      ⟨0.02, 0, 0.02⟩ ⟨0.02, 0, 0.02⟩ 0 10000 (0.5 : ℝ)) _ avg hc hb
  have ha0 : pa.angleError = 0 := by
    rw [haa]
    simp only [calculateResults, distanceTo, toFixed]
    norm_num
  have hb5 : pb.angleError = 5 := by
    rw [hab]
    simp only [calculateResults, distanceTo, toFixed]
    norm_num
  refine ⟨pa, pb, hpa, hpb, ha0, hb5, ?_⟩
  rw [ha0, hb5]
  norm_num

/-- C13, amended (what is deterministic at completion). For a selected method with a
table entry, two runs of `calculateResults` followed by `processResults` from the same
implant position, target position, method and clock readings return results that agree in
every field except the reported angle error (so in the score, the accuracy, the distance
error, the depth error and the time); the angle error is `random*10 + distance*20` to one
decimal, with `random` the `Math.random()` sample drawn at completion. -/
theorem scoring_deterministic_except_angle (env : MathEnv K)
    (implantPosition targetPosition : Vector3 K) (startTime now : K) (sel : String)
    (config : MethodConfig K) (hc : METHODS (toUpperCase sel) = some config)
    (randomA randomB : K) :
    ∃ pa pb : ProcessedResults K,
      processResults (some sel)
          (calculateResults env implantPosition targetPosition startTime now randomA) = .ok pa
      ∧ processResults (some sel)
          (calculateResults env implantPosition targetPosition startTime now randomB) = .ok pb
      ∧ pb = { pa with angleError := pb.angleError }
      ∧ pa.angleError
          = toFixed 1 (randomA * 10 + distanceTo env implantPosition targetPosition * 20)
      ∧ pb.angleError
          = toFixed 1 (randomB * 10 + distanceTo env implantPosition targetPosition * 20) := by
  obtain ⟨avg, hb⟩ := BENCHMARKS_of_METHODS hc
  simp only [processResults, hc, hb, calculateResults]
  exact ⟨_, _, rfl, rfl, rfl, rfl, rfl⟩

theorem scoring_deterministic_except_angle_witness :
    ∃ pa pb : ProcessedResults ℝ,
      processResults (some "freehand")
          (calculateResults ⟨Real.sqrt, fun t => t * (Real.pi / 180)⟩
            ⟨0.3, -0.01, 0.1⟩ ⟨0.2, 0, 0.1⟩ 1000 31000 0.25) = .ok pa
      ∧ processResults (some "freehand")
          (calculateResults ⟨Real.sqrt, fun t => t * (Real.pi / 180)⟩
            ⟨0.3, -0.01, 0.1⟩ ⟨0.2, 0, 0.1⟩ 1000 31000 0.75) = .ok pb
      ∧ pb = { pa with angleError := pb.angleError }
      ∧ pa.angleError = toFixed 1 (0.25 * 10
          + distanceTo ⟨Real.sqrt, fun t => t * (Real.pi / 180)⟩
              ⟨0.3, -0.01, 0.1⟩ ⟨0.2, 0, 0.1⟩ * 20)
      ∧ pb.angleError = toFixed 1 (0.75 * 10
          + distanceTo ⟨Real.sqrt, fun t => t * (Real.pi / 180)⟩
              ⟨0.3, -0.01, 0.1⟩ ⟨0.2, 0, 0.1⟩ * 20) :=
  scoring_deterministic_except_angle ⟨Real.sqrt, fun t => t * (Real.pi / 180)⟩
    ⟨0.3, -0.01, 0.1⟩ ⟨0.2, 0, 0.1⟩ 1000 31000 "freehand"
    { id := "freehand", name := "Freehand", accuracy := "57.9%",
      description := "Traditional manual placement", color := "#ff6b6b",
      targetOffset := { x := 0.2, y := 0.15, z := 0.1 }, wobbleFactor := 0.02 }
    (by rw [show toUpperCase "freehand" = "FREEHAND" by decide]; unfold METHODS; rw [if_pos rfl])
    0.25 0.75

end Determinism

section MethodSelection

variable {K : Type} [LinearOrderedField K] [FloorRing K]

/-- The keys of `GAME_CONFIG.METHODS`. -/
lemma METHODS_eq_none_iff (key : String) :
    (METHODS key : Option (MethodConfig K)) = none
      ↔ key ≠ "FREEHAND" ∧ key ≠ "STATIC" ∧ key ≠ "YOMI" := by
  unfold METHODS
  split_ifs with h1 h2 h3 <;> simp_all

/-- C22 (InvalidMethod at selection). Whatever the upper-casing `upper` of the host, for
every method id whose upper-cased form is none of the keys of the method table
`selectMethod` returns at its guard: the application state after the call is the state
before it, the selected method included. But the guard lets pass an id that is no key of
the table and no id of an entry as soon as its upper-cased form is a key: on a host that
upper-cases "yomı" (with the dotless i, U+0131) to "YOMI", as Unicode has it, the call
`selectMethod("yomı")` makes "yomı" the selected method, plays the click, marks the card,
enables the start button and tracks the selection. -/
theorem selectMethod_rejects_unknown (upper : String → String) (app : App) (method : String) :
    ((upper method ≠ "FREEHAND" ∧ upper method ≠ "STATIC" ∧ upper method ≠ "YOMI") →
      selectMethodWith upper app method = app
      ∧ (selectMethodWith upper app method).selectedMethod = app.selectedMethod)
    ∧ (upper "yomı" = "YOMI" →
        (METHODS "yomı" : Option (MethodConfig ℚ)) = none
        ∧ (∀ (key : String) (config : MethodConfig ℚ),
            METHODS key = some config → config.id ≠ "yomı")
        ∧ selectMethodWith upper app "yomı"
          = { app with
              selectedMethod := some "yomı"
              soundsPlayed := app.soundsPlayed ++ ["click"]
              highlightedMethod := some "yomı"
              startButton := app.startButton.map (fun _ => { disabled := false, pulse := true })
              trackedEvents := app.trackedEvents ++ [("method_selected", "yomı")] }) := by
  constructor
  · intro h
    have hnone : (METHODS (upper method) : Option (MethodConfig ℚ)) = none :=
      (METHODS_eq_none_iff _).mpr h
    have : selectMethodWith upper app method = app := by
      simp [selectMethodWith, hnone]
    exact ⟨this, by rw [this]⟩
  · intro hupper
    refine ⟨?_, ?_, ?_⟩
    · rw [METHODS_eq_none_iff]
      decide
    · intro key config hkey
      unfold METHODS at hkey
      split_ifs at hkey <;> simp at hkey <;> subst hkey <;> decide
    · simp [selectMethodWith, hupper, METHODS]

theorem selectMethod_rejects_unknown_witness :
    (selectMethodWith
        (fun s => String.mk (s.data.map fun c => if c = Char.ofNat 305 then 'I' else c.toUpper))
        { currentScreen := "method-selection", selectedMethod := some "static",
          highlightedMethod := some "static", startButton := some ⟨false, true⟩,
          soundsPlayed := ["click"], trackedEvents := [("method_selected", "static")] }
        "robot"
      = { currentScreen := "method-selection", selectedMethod := some "static",
          highlightedMethod := some "static", startButton := some ⟨false, true⟩,
          soundsPlayed := ["click"], trackedEvents := [("method_selected", "static")] }
      ∧ (selectMethodWith
        (fun s => String.mk (s.data.map fun c => if c = Char.ofNat 305 then 'I' else c.toUpper))
        { currentScreen := "method-selection", selectedMethod := some "static",
          highlightedMethod := some "static", startButton := some ⟨false, true⟩,
          soundsPlayed := ["click"], trackedEvents := [("method_selected", "static")] }
        "robot").selectedMethod
      = some "static")
    ∧ (METHODS "yomı" : Option (MethodConfig ℚ)) = none
    ∧ (∀ (key : String) (config : MethodConfig ℚ),
        METHODS key = some config → config.id ≠ "yomı")
    ∧ selectMethodWith
        (fun s => String.mk (s.data.map fun c => if c = Char.ofNat 305 then 'I' else c.toUpper))
        { currentScreen := "method-selection", selectedMethod := some "static",
          highlightedMethod := some "static", startButton := some ⟨false, true⟩,
          soundsPlayed := ["click"], trackedEvents := [("method_selected", "static")] }
        "yomı"
      = { currentScreen := "method-selection", selectedMethod := some "yomı",
          highlightedMethod := some "yomı", startButton := some ⟨false, true⟩,
          soundsPlayed := ["click", "click"],
          trackedEvents := [("method_selected", "static"), ("method_selected", "yomı")] } :=
  ⟨(selectMethod_rejects_unknown
      (fun s => String.mk (s.data.map fun c => if c = Char.ofNat 305 then 'I' else c.toUpper))
      { currentScreen := "method-selection", selectedMethod := some "static",
        highlightedMethod := some "static", startButton := some ⟨false, true⟩,
        soundsPlayed := ["click"], trackedEvents := [("method_selected", "static")] }
      "robot").1 (by decide),
    (selectMethod_rejects_unknown
      (fun s => String.mk (s.data.map fun c => if c = Char.ofNat 305 then 'I' else c.toUpper))
      { currentScreen := "method-selection", selectedMethod := some "static",
        highlightedMethod := some "static", startButton := some ⟨false, true⟩,
        soundsPlayed := ["click"], trackedEvents := [("method_selected", "static")] }
      "robot").2 (by decide)⟩

/-- C28 (multiplier follows the accepted method): the evaluation at the failing input.
The id "YOMI" is accepted by `selectMethod` and becomes the selected method as given. For
a final distance of 0.1 (accuracy 80), `processResults` then finds the yomi entry of the
table (method name "Yomi Robotic-Assisted") but returns the score 80, without the
multiplier 1.2, whereas for the selected method "yomi" it returns 96. -/
theorem multiplier_case_sensitive :
    (selectMethod
        { currentScreen := "method-selection", selectedMethod := none,
          highlightedMethod := none, startButton := some ⟨true, false⟩,
          soundsPlayed := [], trackedEvents := [] } "YOMI").selectedMethod = some "YOMI"
    ∧ ∃ upper lower : ProcessedResults ℚ,
        processResults (some "YOMI") (⟨1 / 10, 5, 0, 30, ⟨1 / 10, 0, 0⟩⟩ : Results ℚ)
          = .ok upper
        ∧ processResults (some "yomi") (⟨1 / 10, 5, 0, 30, ⟨1 / 10, 0, 0⟩⟩ : Results ℚ)
          = .ok lower
        ∧ upper.methodName = "Yomi Robotic-Assisted"
        ∧ lower.methodName = "Yomi Robotic-Assisted"
        ∧ upper.score = 80 ∧ lower.score = 96 := by
  have hU : toUpperCase "YOMI" = "YOMI" := by decide
  have hL : toUpperCase "yomi" = "YOMI" := by decide
  have hacc : max (0 : ℚ) (min 100 ((1 - 1 / 10 * 10 / 5) * 100)) = 80 := by norm_num
  refine ⟨?_, ?_⟩
  · simp [selectMethod, selectMethodWith, hU, METHODS]
  · simp only [processResults, hU, hL, METHODS, BENCHMARKS, hacc]
    refine ⟨_, _, rfl, rfl, rfl, rfl, ?_, ?_⟩
    · show min 100 (mathRound _) = (80 : ℤ)
      have h1 : ¬ ("YOMI" = "yomi") := by decide
      have h2 : ¬ ("YOMI" = "static") := by decide
      norm_num [mathRound, h1, h2]
    · show min 100 (mathRound _) = (96 : ℤ)
      norm_num [mathRound]

end MethodSelection

end YomiArcadeApp

namespace CameraController

section Transitions

variable {K : Type} [LinearOrderedField K] [FloorRing K]

/-- C17 (transition re-entrancy guard). A call of `transitionTo` made while a transition
is in flight (`isAnimating` is true) leaves the controller as it is, for every view name:
the current view, `isAnimating`, the orbit-control flag and the list of running timelines
are unchanged, no timeline is started, and every timeline in flight still ends where it
would have ended, with the camera at the position of its own view. -/
theorem transitionTo_in_flight (c : Controller K) (viewName : String) (duration : K)
    (ease : String) (h : c.isAnimating = true) :
    (transitionTo c viewName duration ease).2 = c
    ∧ (transitionTo c viewName duration ease).2.currentView = c.currentView
    ∧ (transitionTo c viewName duration ease).2.isAnimating = c.isAnimating
    ∧ (transitionTo c viewName duration ease).2.controlsEnabled = c.controlsEnabled
    ∧ (transitionTo c viewName duration ease).2.timelines = c.timelines
    ∧ ∀ t : Timeline K, t ∈ c.timelines →
        timelineComplete (transitionTo c viewName duration ease).2 t = timelineComplete c t
        ∧ (timelineComplete (transitionTo c viewName duration ease).2 t).cameraPosition
          = t.view.position := by
  have hc : (transitionTo c viewName duration ease).2 = c := by
    simp [transitionTo, h]
  rw [hc]
  exact ⟨rfl, rfl, rfl, rfl, rfl, fun t _ => ⟨rfl, rfl⟩⟩

theorem transitionTo_in_flight_witness :
    (transitionTo
        ({ currentView := "surgical", isAnimating := true, controlsEnabled := false,
           controlsTarget := (0, 0, 0), cameraPosition := (3, 5, 7), cameraFov := 50,
           timelines := [⟨⟨(0, 6, 2), (0, 0, 0), 35⟩, 2, "power2.inOut"⟩] } : Controller ℚ)
        "free" 2 "power2.inOut").2
      = { currentView := "surgical", isAnimating := true, controlsEnabled := false,
          controlsTarget := (0, 0, 0), cameraPosition := (3, 5, 7), cameraFov := 50,
          timelines := [⟨⟨(0, 6, 2), (0, 0, 0), 35⟩, 2, "power2.inOut"⟩] } :=
  (transitionTo_in_flight
    ({ currentView := "surgical", isAnimating := true, controlsEnabled := false,
       controlsTarget := (0, 0, 0), cameraPosition := (3, 5, 7), cameraFov := 50,
       timelines := [⟨⟨(0, 6, 2), (0, 0, 0), 35⟩, 2, "power2.inOut"⟩] } : Controller ℚ)
    "free" 2 "power2.inOut" rfl).1

/-- C18, as stated, fails: the request for the view "overview" is rejected by a
controller in flight (nothing changes) and accepted by an idle one (a timeline starts),
and both calls evaluate to the same value. -/
theorem transitionTo_signal_counterexample :
    (transitionTo
        ({ currentView := "surgical", isAnimating := true, controlsEnabled := false,
           controlsTarget := (0, 0, 0), cameraPosition := (3, 5, 7), cameraFov := 50,
           timelines := [⟨⟨(0, 6, 2), (0, 0, 0), 35⟩, 2, "power2.inOut"⟩] } : Controller ℚ)
        "overview" 2 "power2.inOut").2.timelines.length = 1
    ∧ (transitionTo
        ({ currentView := "default", isAnimating := false, controlsEnabled := true,
           controlsTarget := (0, 0, 0), cameraPosition := (5, 5, 10), cameraFov := 60,
           timelines := [] } : Controller ℚ)
        "overview" 2 "power2.inOut").2.timelines.length = 1
    ∧ (transitionTo
        ({ currentView := "default", isAnimating := false, controlsEnabled := true,
           controlsTarget := (0, 0, 0), cameraPosition := (5, 5, 10), cameraFov := 60,
           timelines := [] } : Controller ℚ)
        "overview" 2 "power2.inOut").2.currentView = "overview"
    ∧ ¬ ((transitionTo
        ({ currentView := "surgical", isAnimating := true, controlsEnabled := false,
           controlsTarget := (0, 0, 0), cameraPosition := (3, 5, 7), cameraFov := 50,
           timelines := [⟨⟨(0, 6, 2), (0, 0, 0), 35⟩, 2, "power2.inOut"⟩] } : Controller ℚ)
        "overview" 2 "power2.inOut").1
      ≠ (transitionTo
        ({ currentView := "default", isAnimating := false, controlsEnabled := true,
           controlsTarget := (0, 0, 0), cameraPosition := (5, 5, 10), cameraFov := 60,
           timelines := [] } : Controller ℚ)
        "overview" 2 "power2.inOut").1) := by
  refine ⟨by simp [transitionTo], by simp [transitionTo, positions],
    by simp [transitionTo, positions], ?_⟩
  simp [transitionTo, positions]

/-- C18, amended (no accept/reject signal). Every call of `transitionTo` evaluates to
`undefined`, whether the request is rejected or accepted; what tells the two apart is the
controller itself, where exactly an accepted request starts one more timeline. -/
theorem transitionTo_returns_undefined (c : Controller K) (viewName : String) (duration : K)
    (ease : String) :
    (transitionTo c viewName duration ease).1 = .undefined
    ∧ ((transitionTo c viewName duration ease).2.timelines.length = c.timelines.length + 1
        ↔ (c.isAnimating = false ∧ (positions viewName : Option (View K)).isSome = true)) := by
  unfold transitionTo
  by_cases h : c.isAnimating = true
  · simp [h]
  · have hf : c.isAnimating = false := by simpa using h
    cases hp : (positions viewName : Option (View K)) with
    | none => simp [hf]
    | some v => simp [hf]

end Transitions

end CameraController

namespace EnhancedSimulation

section Particles

variable {K : Type} [LinearOrderedField K] [FloorRing K]

/-- Indices past the end of the list are skipped by `forEach`. -/
lemma forEachFrom_past_end (deltaTime : K) (remaining index : ℕ)
    (particles : List (ParticleSystem K)) (h : particles.length ≤ index) :
    forEachFrom deltaTime remaining index particles = particles := by
  induction remaining generalizing index with
  | zero => rfl
  | succ n ih =>
    have hv : visit deltaTime index particles = particles := by
      unfold visit
      rw [List.get?_eq_none.mpr h]
    rw [forEachFrom, hv]
    exact ih (index + 1) (by omega)

/-- The visit of the first system not yet visited, when it survives. -/
lemma visit_survivor (deltaTime : K) (visited rest : List (ParticleSystem K))
    (system system1 : ParticleSystem K) (h : stepSystem deltaTime system = some system1) :
    visit deltaTime visited.length (visited ++ system :: rest)
      = (visited ++ [system1]) ++ rest := by
  unfold visit
  rw [List.get?_eq_getElem?, List.getElem?_append_right (le_refl _)]
  simp [h]

/-- The visit of the first system not yet visited, when it is spliced out. -/
lemma visit_expired (deltaTime : K) (visited rest : List (ParticleSystem K))
    (system : ParticleSystem K) (h : stepSystem deltaTime system = none) :
    visit deltaTime visited.length (visited ++ system :: rest) = visited ++ rest := by
  unfold visit
  rw [List.get?_eq_getElem?, List.getElem?_append_right (le_refl _)]
  simp [h, List.eraseIdx_append_of_length_le]

/-- The loop invariant: with the systems in `visited` done and those in `todo` ahead,
the remaining iterations leave `visited` alone and walk `todo`. -/
lemma forEachFrom_walk (deltaTime : K) (remaining : ℕ) :
    ∀ visited todo : List (ParticleSystem K), todo.length ≤ remaining →
      forEachFrom deltaTime remaining visited.length (visited ++ todo)
        = visited ++ walkSkipping deltaTime todo := by
  induction remaining with
  | zero =>
    intro visited todo h
    have : todo = [] := List.length_eq_zero.mp (Nat.le_zero.mp h)
    subst this
    simp [forEachFrom, walkSkipping]
  | succ n ih =>
    intro visited todo h
    match todo, h with
    | [], _ =>
      rw [forEachFrom_past_end deltaTime (n + 1) visited.length (visited ++ []) (by simp)]
      simp [walkSkipping]
    | [system], _ =>
      rw [forEachFrom]
      cases hs : stepSystem deltaTime system with
      | some system1 =>
        rw [visit_survivor deltaTime visited [] system system1 hs]
        rw [forEachFrom_past_end deltaTime n _ _ (by simp)]
        simp [walkSkipping, hs]
      | none =>
        rw [visit_expired deltaTime visited [] system hs]
        rw [forEachFrom_past_end deltaTime n _ _ (by simp)]
        simp [walkSkipping, hs]
    | system :: next :: rest, h =>
      rw [forEachFrom]
      have hlen : rest.length + 1 ≤ n := by simpa using h
      cases hs : stepSystem deltaTime system with
      | some system1 =>
        rw [visit_survivor deltaTime visited (next :: rest) system system1 hs]
        have := ih (visited ++ [system1]) (next :: rest) (by simpa using hlen)
        rw [List.length_append, List.length_singleton] at this
        rw [this]
        simp [walkSkipping, hs]
      | none =>
        rw [visit_expired deltaTime visited (next :: rest) system hs]
        have := ih (visited ++ [next]) rest (by omega)
        rw [List.length_append, List.length_singleton, List.append_assoc,
          List.singleton_append] at this
        rw [this]
        simp [walkSkipping, hs]

/-- The particle loop of `update` is the walk that passes over the system behind each
removed one. -/
lemma update_eq_walkSkipping (deltaTime : K) (particles : List (ParticleSystem K)) :
    update deltaTime particles = walkSkipping deltaTime particles := by
  have := forEachFrom_walk deltaTime particles.length [] particles (le_refl _)
  simpa [update] using this

/-- In a frame in which no system is removed, the loop agrees with mark-and-compact. -/
lemma update_eq_markAndCompact_of_no_removal (deltaTime : K)
    (particles : List (ParticleSystem K))
    (h : ∀ system ∈ particles, stepSystem deltaTime system ≠ none) :
    update deltaTime particles = markAndCompact deltaTime particles := by
  rw [update_eq_walkSkipping]
  unfold markAndCompact
  induction particles with
  | nil => rfl
  | cons system rest ih =>
    have hs := h system (List.mem_cons_self _ _)
    have hrest := ih (fun t ht => h t (List.mem_cons_of_mem _ ht))
    cases hstep : stepSystem deltaTime system with
    | none => exact absurd hstep hs
    | some system1 =>
      cases rest with
      | nil => simp [walkSkipping, hstep]
      | cons next rest1 => simp [walkSkipping, hstep, hrest]

/-- C19, as stated, fails: a drilling batch (`maxLife` 1.5) of age 1 alone in the list is
still in the list after `update(0.5)`, at the age of exactly 1.5. -/
theorem batch_at_maxLife_counterexample :
    ∃ system : ParticleSystem ℚ,
      update (1 / 2) [drillingSystem 1 [⟨0, 0, 0, 1 / 100, 1 / 10, 0⟩]] = [system]
      ∧ system.aging = some ⟨3 / 2, 3 / 2, some (-1 / 100)⟩ := by
  rw [update_eq_walkSkipping]
  refine ⟨{ points := [⟨1 / 100, 1 / 10, 0, 1 / 100, 1 / 10 + (-1 / 100) * (1 / 2), 0⟩],
            opacity := 0, uniformTime := none,
            aging := some ⟨3 / 2, 3 / 2, some (-1 / 100)⟩ }, ?_, rfl⟩
  simp only [walkSkipping, stepSystem, drillingSystem]
  norm_num [movePoint]

/-- C19, amended (removal frame). When the loop of `update(dt)` visits an aging batch,
it removes the batch from the live list in that frame exactly when the age after adding
`dt` is strictly greater than `maxLife`; otherwise the batch stays, at the new age. So a
batch alone in the list is gone after the frame if its new age exceeds `maxLife`, and is
still there if its new age is at most `maxLife`, `maxLife` itself included. -/
theorem batch_removal_frame (deltaTime : K) (particles : List (ParticleSystem K))
    (index : ℕ) (system : ParticleSystem K) (a : Aging K)
    (hget : particles.get? index = some system) (ha : system.aging = some a) :
    (stepSystem deltaTime system = none ↔ a.maxLife < a.life + deltaTime)
    ∧ (a.maxLife < a.life + deltaTime →
        visit deltaTime index particles = particles.eraseIdx index
        ∧ update deltaTime [system] = [])
    ∧ (a.life + deltaTime ≤ a.maxLife →
        ∃ system1 : ParticleSystem K,
          system1.aging = some { a with life := a.life + deltaTime }
          ∧ visit deltaTime index particles = particles.set index system1
          ∧ update deltaTime [system] = [system1]) := by
  have hstep : a.maxLife < a.life + deltaTime → stepSystem deltaTime system = none := by
    intro h
    simp [stepSystem, ha, h]
  have hkeep : a.life + deltaTime ≤ a.maxLife →
      stepSystem deltaTime system = some
        { points := system.points.map (movePoint deltaTime a.gravity)
          opacity := 1 - (a.life + deltaTime) / a.maxLife
          uniformTime := system.uniformTime.map (· + deltaTime)
          aging := some { a with life := a.life + deltaTime } } := by
    intro h
    simp [stepSystem, ha, not_lt.mpr h]
  refine ⟨⟨?_, hstep⟩, ?_, ?_⟩
  · intro hnone
    by_contra hlt
    rw [hkeep (not_lt.mp hlt)] at hnone
    exact Option.noConfusion hnone
  · intro h
    refine ⟨?_, ?_⟩
    · simp only [visit, hget, hstep h]
    · rw [update_eq_walkSkipping]
      simp only [walkSkipping, hstep h]
  · intro h
    refine ⟨{ points := system.points.map (movePoint deltaTime a.gravity)
              opacity := 1 - (a.life + deltaTime) / a.maxLife
              uniformTime := system.uniformTime.map (· + deltaTime)
              aging := some { a with life := a.life + deltaTime } }, rfl, ?_, ?_⟩
    · simp only [visit, hget, hkeep h]
    · rw [update_eq_walkSkipping]
      simp only [walkSkipping, hkeep h]

theorem batch_removal_frame_witness :
    (stepSystem (1 / 5) (drillingSystem (7 / 5 : ℚ) [⟨0, 0, 0, 1 / 100, 1 / 10, 0⟩]) = none
        ↔ (⟨7 / 5, 1.5, some (-0.01)⟩ : Aging ℚ).maxLife
            < (⟨7 / 5, 1.5, some (-0.01)⟩ : Aging ℚ).life + 1 / 5)
    ∧ ((⟨7 / 5, 1.5, some (-0.01)⟩ : Aging ℚ).maxLife
          < (⟨7 / 5, 1.5, some (-0.01)⟩ : Aging ℚ).life + 1 / 5 →
        visit (1 / 5) 0 [drillingSystem (7 / 5 : ℚ) [⟨0, 0, 0, 1 / 100, 1 / 10, 0⟩]]
          = [drillingSystem (7 / 5 : ℚ) [⟨0, 0, 0, 1 / 100, 1 / 10, 0⟩]].eraseIdx 0
        ∧ update (1 / 5) [drillingSystem (7 / 5 : ℚ) [⟨0, 0, 0, 1 / 100, 1 / 10, 0⟩]] = [])
    ∧ ((⟨7 / 5, 1.5, some (-0.01)⟩ : Aging ℚ).life + 1 / 5
          ≤ (⟨7 / 5, 1.5, some (-0.01)⟩ : Aging ℚ).maxLife →
        ∃ system1 : ParticleSystem ℚ,
          system1.aging = some { (⟨7 / 5, 1.5, some (-0.01)⟩ : Aging ℚ) with
            life := (⟨7 / 5, 1.5, some (-0.01)⟩ : Aging ℚ).life + 1 / 5 }
          ∧ visit (1 / 5) 0 [drillingSystem (7 / 5 : ℚ) [⟨0, 0, 0, 1 / 100, 1 / 10, 0⟩]]
            = [drillingSystem (7 / 5 : ℚ) [⟨0, 0, 0, 1 / 100, 1 / 10, 0⟩]].set 0 system1
          ∧ update (1 / 5) [drillingSystem (7 / 5 : ℚ) [⟨0, 0, 0, 1 / 100, 1 / 10, 0⟩]]
            = [system1]) :=
  batch_removal_frame (1 / 5) [drillingSystem (7 / 5 : ℚ) [⟨0, 0, 0, 1 / 100, 1 / 10, 0⟩]] 0
    (drillingSystem (7 / 5 : ℚ) [⟨0, 0, 0, 1 / 100, 1 / 10, 0⟩]) ⟨7 / 5, 1.5, some (-0.01)⟩
    rfl rfl

/-- C20 (sibling independence): the evaluation at the failing input. With a drilling
batch of age 1.4 in front of a fresh food batch, `update(0.2)` removes the drilling batch
and passes over the food batch, which keeps age 0 and its old positions; the
mark-and-compact reference ages it to 0.2 and advances its point. -/
theorem sibling_passed_over :
    update (1 / 5 : ℚ)
        [drillingSystem (7 / 5) [⟨0, 0, 0, 1 / 100, 1 / 10, 0⟩],
         foodSystem 0 [⟨1, 1, 1, 1 / 100, -1 / 50, 0⟩]]
      = [foodSystem 0 [⟨1, 1, 1, 1 / 100, -1 / 50, 0⟩]]
    ∧ markAndCompact (1 / 5 : ℚ)
        [drillingSystem (7 / 5) [⟨0, 0, 0, 1 / 100, 1 / 10, 0⟩],
         foodSystem 0 [⟨1, 1, 1, 1 / 100, -1 / 50, 0⟩]]
      = [{ points := [⟨101 / 100, 49 / 50, 1, 1 / 100, -1 / 50, 0⟩], opacity := 9 / 10,
           uniformTime := none, aging := some ⟨1 / 5, 2, none⟩ }]
    ∧ update (1 / 5 : ℚ)
        [drillingSystem (7 / 5) [⟨0, 0, 0, 1 / 100, 1 / 10, 0⟩],
         foodSystem 0 [⟨1, 1, 1, 1 / 100, -1 / 50, 0⟩]]
      ≠ markAndCompact (1 / 5 : ℚ)
        [drillingSystem (7 / 5) [⟨0, 0, 0, 1 / 100, 1 / 10, 0⟩],
         foodSystem 0 [⟨1, 1, 1, 1 / 100, -1 / 50, 0⟩]] := by
  have hA : stepSystem (1 / 5 : ℚ) (drillingSystem (7 / 5) [⟨0, 0, 0, 1 / 100, 1 / 10, 0⟩])
      = none := by
    simp only [stepSystem, drillingSystem]
    norm_num
  have hB : stepSystem (1 / 5 : ℚ) (foodSystem 0 [⟨1, 1, 1, 1 / 100, -1 / 50, 0⟩])
      = some { points := [⟨101 / 100, 49 / 50, 1, 1 / 100, -1 / 50, 0⟩], opacity := 9 / 10,
               uniformTime := none, aging := some ⟨1 / 5, 2, none⟩ } := by
    simp only [stepSystem, foodSystem]
    norm_num [movePoint]
  have h1 : update (1 / 5 : ℚ)
        [drillingSystem (7 / 5) [⟨0, 0, 0, 1 / 100, 1 / 10, 0⟩],
         foodSystem 0 [⟨1, 1, 1, 1 / 100, -1 / 50, 0⟩]]
      = [foodSystem 0 [⟨1, 1, 1, 1 / 100, -1 / 50, 0⟩]] := by
    rw [update_eq_walkSkipping]
    simp only [walkSkipping, hA]
  have h2 : markAndCompact (1 / 5 : ℚ)
        [drillingSystem (7 / 5) [⟨0, 0, 0, 1 / 100, 1 / 10, 0⟩],
         foodSystem 0 [⟨1, 1, 1, 1 / 100, -1 / 50, 0⟩]]
      = [{ points := [⟨101 / 100, 49 / 50, 1, 1 / 100, -1 / 50, 0⟩], opacity := 9 / 10,
           uniformTime := none, aging := some ⟨1 / 5, 2, none⟩ }] := by
    simp only [markAndCompact, List.filterMap_cons, hA, hB, List.filterMap_nil]
  refine ⟨h1, h2, ?_⟩
  rw [h1, h2]
  intro h
  have h3 := congrArg (fun l => l.map ParticleSystem.opacity) h
  simp only [List.map_cons, List.map_nil, foodSystem] at h3
  norm_num at h3

/-- C21, as stated, fails: `update(0.2)` moves the point (1, 1, 1) of a fresh food batch,
whose velocity is (0.01, -0.02, 0), to (1.01, 0.98, 1), not to
(1.002, 0.996, 1) = position + velocity * 0.2. -/
theorem integration_step_counterexample :
    ∃ system : ParticleSystem ℚ,
      update (1 / 5) [foodSystem 0 [⟨1, 1, 1, 1 / 100, -1 / 50, 0⟩]] = [system]
      ∧ system.points = [⟨101 / 100, 49 / 50, 1, 1 / 100, -1 / 50, 0⟩]
      ∧ (101 / 100 : ℚ) ≠ 1 + 1 / 100 * (1 / 5) := by
  rw [update_eq_walkSkipping]
  refine ⟨{ points := [⟨101 / 100, 49 / 50, 1, 1 / 100, -1 / 50, 0⟩], opacity := 9 / 10,
            uniformTime := none, aging := some ⟨1 / 5, 2, none⟩ }, ?_, rfl, by norm_num⟩
  simp only [walkSkipping, stepSystem, foodSystem]
  norm_num [movePoint]

/-- C21, amended (integration step). For every aging batch that the loop of `update(dt)`
visits and does not remove, each point moves by its velocity, once per frame and whatever
`dt` is: new position = old position + velocity on each of the three axes. The step `dt`
enters the vertical velocity only, which takes up `gravity * dt` when the batch has a
non-zero gravity. -/
theorem integration_step (deltaTime : K) (particles : List (ParticleSystem K))
    (index : ℕ) (system : ParticleSystem K) (a : Aging K)
    (hget : particles.get? index = some system) (ha : system.aging = some a)
    (hlive : a.life + deltaTime ≤ a.maxLife) :
    ∃ system1 : ParticleSystem K,
      stepSystem deltaTime system = some system1
      ∧ visit deltaTime index particles = particles.set index system1
      ∧ update deltaTime [system] = [system1]
      ∧ system1.points.map (fun p => (p.x, p.y, p.z))
          = system.points.map (fun p => (p.x + p.vx, p.y + p.vy, p.z + p.vz))
      ∧ system1.points.map (fun p => (p.vx, p.vy, p.vz))
          = system.points.map (fun p =>
              (p.vx,
               (match a.gravity with
                | some g => if g ≠ 0 then p.vy + g * deltaTime else p.vy
                | none => p.vy),
               p.vz)) := by
  have hkeep : stepSystem deltaTime system = some
      { points := system.points.map (movePoint deltaTime a.gravity)
        opacity := 1 - (a.life + deltaTime) / a.maxLife
        uniformTime := system.uniformTime.map (· + deltaTime)
        aging := some { a with life := a.life + deltaTime } } := by
    simp [stepSystem, ha, not_lt.mpr hlive]
  refine ⟨_, hkeep, ?_, ?_, ?_, ?_⟩
  · simp only [visit, hget, hkeep]
  · rw [update_eq_walkSkipping]
    simp only [walkSkipping, hkeep]
  · simp only [List.map_map]
    rfl
  · simp only [List.map_map]
    rfl

theorem integration_step_witness :
    ∃ system1 : ParticleSystem ℚ,
      stepSystem (1 / 5) (drillingSystem (1 : ℚ) [⟨0, 0, 0, 1 / 100, 1 / 10, 0⟩]) = some system1
      ∧ visit (1 / 5) 0 [drillingSystem (1 : ℚ) [⟨0, 0, 0, 1 / 100, 1 / 10, 0⟩]]
        = [drillingSystem (1 : ℚ) [⟨0, 0, 0, 1 / 100, 1 / 10, 0⟩]].set 0 system1
      ∧ update (1 / 5) [drillingSystem (1 : ℚ) [⟨0, 0, 0, 1 / 100, 1 / 10, 0⟩]] = [system1]
      ∧ system1.points.map (fun p => (p.x, p.y, p.z))
          = (drillingSystem (1 : ℚ) [⟨0, 0, 0, 1 / 100, 1 / 10, 0⟩]).points.map
              (fun p => (p.x + p.vx, p.y + p.vy, p.z + p.vz))
      ∧ system1.points.map (fun p => (p.vx, p.vy, p.vz))
          = (drillingSystem (1 : ℚ) [⟨0, 0, 0, 1 / 100, 1 / 10, 0⟩]).points.map (fun p =>
              (p.vx,
               (match (⟨1, 1.5, some (-0.01)⟩ : Aging ℚ).gravity with
                | some g => if g ≠ 0 then p.vy + g * (1 / 5) else p.vy
                | none => p.vy),
               p.vz)) :=
  integration_step (1 / 5) [drillingSystem (1 : ℚ) [⟨0, 0, 0, 1 / 100, 1 / 10, 0⟩]] 0
    (drillingSystem (1 : ℚ) [⟨0, 0, 0, 1 / 100, 1 / 10, 0⟩]) ⟨1, 1.5, some (-0.01)⟩
    rfl rfl (by norm_num)

end Particles

end EnhancedSimulation

namespace SimulationManager

section Rounding

variable {K : Type} [LinearOrderedField K] [FloorRing K]

/-- A number less than a half away from an integer rounds to that integer. -/
lemma roundHalfEven_eq {q : K} {k : ℤ} (h1 : (k : K) - 1 / 2 < q) (h2 : q < (k : K) + 1 / 2) :
    roundHalfEven q = k := by
  unfold roundHalfEven
  by_cases hk : (k : K) ≤ q
  · have hf : ⌊q⌋ = k := by
      rw [Int.floor_eq_iff]
      exact ⟨hk, by linarith⟩
    rw [hf, if_pos (by linarith)]
  · have hf : ⌊q⌋ = k - 1 := by
      rw [Int.floor_eq_iff]
      push_cast
      exact ⟨by linarith, by linarith [not_le.mp hk]⟩
    have hlt : ¬ (q - ((k - 1 : ℤ) : K) < 1 / 2) := by
      push_cast
      linarith
    have hgt : 1 / 2 < q - ((k - 1 : ℤ) : K) := by
      push_cast
      linarith
    rw [hf, if_neg hlt, if_pos hgt]
    ring

/-- Rounding does not go below an integer that the number is not below. -/
lemma le_roundHalfEven {q : K} {n : ℤ} (h : (n : K) ≤ q) : n ≤ roundHalfEven q := by
  have hf : n ≤ ⌊q⌋ := Int.le_floor.mpr h
  unfold roundHalfEven
  split_ifs <;> omega

/-- The exponent of a number between two successive powers of 2. -/
lemma log_abs_eq {x : K} {e : ℤ} (h1 : (2 : K) ^ e ≤ |x|) (h2 : |x| < (2 : K) ^ (e + 1)) :
    Int.log 2 |x| = e := by
  have hpos : 0 < |x| := lt_of_lt_of_le (zpow_pos (by norm_num) e) h1
  apply le_antisymm
  · have := (Int.lt_zpow_iff_log_lt (b := 2) (by norm_num) hpos).mp (by exact_mod_cast h2)
    omega
  · exact (Int.zpow_le_iff_le_log (b := 2) (by norm_num) hpos).mp (by exact_mod_cast h1)

/-- The double nearest to `x`, from the exponent `e` of `x` and the integer `k` nearest to
`x / 2 ^ (e - 52)`. -/
lemma roundDouble_eq {x : K} (e k : ℤ) (h1 : (2 : K) ^ e ≤ |x|) (h2 : |x| < (2 : K) ^ (e + 1))
    (h3 : (k : K) - 1 / 2 < x / 2 ^ (e - 52)) (h4 : x / 2 ^ (e - 52) < (k : K) + 1 / 2) :
    roundDouble x = (k : K) * 2 ^ (e - 52) := by
  have hpos : 0 < |x| := lt_of_lt_of_le (zpow_pos (by norm_num) e) h1
  have hx : x ≠ 0 := abs_pos.mp hpos
  unfold roundDouble
  rw [if_neg hx, log_abs_eq h1 h2, roundHalfEven_eq h3 h4]

/-- The same for a positive number. -/
lemma roundDouble_eq_pos {x : K} (e k : ℤ) (h1 : (2 : K) ^ e ≤ x) (h2 : x < (2 : K) ^ (e + 1))
    (h3 : (k : K) - 1 / 2 < x / 2 ^ (e - 52)) (h4 : x / 2 ^ (e - 52) < (k : K) + 1 / 2) :
    roundDouble x = (k : K) * 2 ^ (e - 52) := by
  have hpos : 0 < x := lt_of_lt_of_le (zpow_pos (by norm_num) e) h1
  exact roundDouble_eq e k (by rwa [abs_of_pos hpos]) (by rwa [abs_of_pos hpos]) h3 h4

/-- The same for a negative number. -/
lemma roundDouble_eq_neg {x : K} (e k : ℤ) (h1 : (2 : K) ^ e ≤ -x) (h2 : -x < (2 : K) ^ (e + 1))
    (h3 : (k : K) - 1 / 2 < x / 2 ^ (e - 52)) (h4 : x / 2 ^ (e - 52) < (k : K) + 1 / 2) :
    roundDouble x = (k : K) * 2 ^ (e - 52) := by
  have hpos : 0 < -x := lt_of_lt_of_le (zpow_pos (by norm_num) e) h1
  have hneg : x < 0 := by linarith
  exact roundDouble_eq e k (by rwa [abs_of_neg hneg]) (by rwa [abs_of_neg hneg]) h3 h4

/-- A number half-way between two integers rounds to the even one. -/
lemma roundHalfEven_tie {q : K} {f k : ℤ} (h : q = (f : K) + 1 / 2)
    (hk : (f % 2 = 0 ∧ k = f) ∨ (f % 2 = 1 ∧ k = f + 1)) : roundHalfEven q = k := by
  have hf : ⌊q⌋ = f := by
    rw [Int.floor_eq_iff, h]
    constructor <;> linarith
  have hfrac : q - (f : K) = 1 / 2 := by
    rw [h]
    ring
  unfold roundHalfEven
  rw [hf, hfrac, if_neg (lt_irrefl _), if_neg (lt_irrefl _)]
  rcases hk with ⟨h0, rfl⟩ | ⟨h1, rfl⟩
  · rw [if_pos h0]
  · rw [if_neg (by omega)]

/-- The double nearest to a positive `x` half-way between two doubles: the one with the
even significand. -/
lemma roundDouble_eq_tie {x : K} (e f k : ℤ) (h1 : (2 : K) ^ e ≤ x) (h2 : x < (2 : K) ^ (e + 1))
    (h3 : x / 2 ^ (e - 52) = (f : K) + 1 / 2)
    (hk : (f % 2 = 0 ∧ k = f) ∨ (f % 2 = 1 ∧ k = f + 1)) :
    roundDouble x = (k : K) * 2 ^ (e - 52) := by
  have hpos : 0 < x := lt_of_lt_of_le (zpow_pos (by norm_num) e) h1
  have habs : |x| = x := abs_of_pos hpos
  unfold roundDouble
  rw [if_neg (ne_of_gt hpos), log_abs_eq (by rwa [habs]) (by rwa [habs]),
    roundHalfEven_tie h3 hk]

/-- Zero is a double. -/
lemma roundDouble_zero : roundDouble (0 : K) = 0 := by
  simp [roundDouble]

/-- One is a double. -/
lemma roundDouble_one : roundDouble (1 : K) = 1 := by
  rw [roundDouble_eq_pos 0 4503599627370496 (by norm_num) (by norm_num) (by norm_num)
    (by norm_num)]
  norm_num

/-- Rounding to a double does not take a number from 1 on below 1. -/
lemma one_le_roundDouble {x : K} (h : 1 ≤ x) : 1 ≤ roundDouble x := by
  have hx0 : 0 < x := lt_of_lt_of_le one_pos h
  have habs : |x| = x := abs_of_pos hx0
  have he : 0 ≤ Int.log 2 x := by
    have := (Int.zpow_le_iff_le_log (b := 2) (x := 0) (by norm_num) hx0).mp (by simpa using h)
    exact this
  have hle : (2 : K) ^ Int.log 2 x ≤ x := by
    have := Int.zpow_log_le_self (b := 2) (by norm_num) hx0
    exact_mod_cast this
  have hu : (0 : K) < 2 ^ (Int.log 2 x - 52) := zpow_pos (by norm_num) _
  have hsplit : (2 : K) ^ Int.log 2 x = 4503599627370496 * 2 ^ (Int.log 2 x - 52) := by
    have h52 : (4503599627370496 : K) = 2 ^ (52 : ℤ) := by norm_num
    rw [h52, ← zpow_add₀ (by norm_num : (2 : K) ≠ 0)]
    congr 1
    ring
  have hq : ((4503599627370496 : ℤ) : K) ≤ x / 2 ^ (Int.log 2 x - 52) := by
    rw [le_div_iff₀ hu]
    push_cast
    rw [← hsplit]
    exact hle
  have hk := le_roundHalfEven hq
  unfold roundDouble
  rw [if_neg (ne_of_gt hx0), habs]
  have hkK : (4503599627370496 : K) ≤ (roundHalfEven (x / 2 ^ (Int.log 2 x - 52)) : K) := by
    exact_mod_cast hk
  calc (1 : K) = 2 ^ (0 : ℤ) := by norm_num
    _ ≤ 2 ^ Int.log 2 x := zpow_le_zpow_right₀ (by norm_num) he
    _ = 4503599627370496 * 2 ^ (Int.log 2 x - 52) := hsplit
    _ ≤ (roundHalfEven (x / 2 ^ (Int.log 2 x - 52)) : K) * 2 ^ (Int.log 2 x - 52) :=
        mul_le_mul_of_nonneg_right hkK hu.le

end Rounding

section Easing

variable {K : Type} [LinearOrderedField K] [FloorRing K]

/-- Cubes are monotone on non-negative numbers. -/
lemma cube_le_cube {a b : K} (ha : 0 ≤ a) (hab : a ≤ b) : a * a * a ≤ b * b * b := by
  have h2 : a * a ≤ b * b := mul_le_mul hab hab ha (ha.trans hab)
  exact mul_le_mul h2 hab ha (mul_nonneg (ha.trans hab) (ha.trans hab))

/-- The second branch of `easeInOutCubic` written with a product. -/
lemma ease_upper_branch (t : K) :
    1 - (-2 * t + 2) ^ 3 / 2 = 1 - (2 - 2 * t) * (2 - 2 * t) * (2 - 2 * t) / 2 := by
  ring

/-- The easing curve in exact arithmetic. -/
lemma easeInOutCubic_id (t : K) :
    easeInOutCubic id t = if t < 0.5 then 4 * t * t * t else 1 - (-2 * t + 2) ^ 3 / 2 := rfl

/-- In exact arithmetic the easing curve does not decrease on [0, 1]. -/
lemma easeInOutCubic_mono {s t : K} (hs : 0 ≤ s) (hst : s ≤ t) (ht : t ≤ 1) :
    easeInOutCubic id s ≤ easeInOutCubic id t := by
  rw [easeInOutCubic_id, easeInOutCubic_id]
  by_cases h1 : t < 0.5
  · have h0 : s < 0.5 := lt_of_le_of_lt hst h1
    rw [if_pos h0, if_pos h1]
    have := cube_le_cube hs hst
    linarith
  · rw [if_neg h1, ease_upper_branch t]
    have hu0 : 0 ≤ 2 - 2 * t := by linarith
    have hu1 : 2 - 2 * t ≤ 1 := by
      have := not_lt.mp h1
      norm_num at this
      linarith
    have hcube1 : (2 - 2 * t) * (2 - 2 * t) * (2 - 2 * t) ≤ 1 * 1 * 1 := cube_le_cube hu0 hu1
    by_cases h0 : s < 0.5
    · rw [if_pos h0]
      have hs5 : s ≤ 1 / 2 := by
        norm_num at h0
        linarith
      have := cube_le_cube hs hs5
      norm_num at this hcube1
      linarith
    · rw [if_neg h0, ease_upper_branch s]
      have := cube_le_cube hu0 (show 2 - 2 * t ≤ 2 - 2 * s by linarith)
      linarith

/-- In exact arithmetic the easing curve reaches 1 on [0, 1] at 1 only. -/
lemma easeInOutCubic_eq_one_iff {t : K} (h0 : 0 ≤ t) (h1 : t ≤ 1) :
    easeInOutCubic id t = 1 ↔ t = 1 := by
  rw [easeInOutCubic_id]
  by_cases h : t < 0.5
  · rw [if_pos h]
    have ht5 : t ≤ 1 / 2 := by
      norm_num at h
      linarith
    have := cube_le_cube h0 ht5
    constructor
    · intro heq
      norm_num at this
      linarith
    · intro heq
      rw [heq] at h
      norm_num at h
  · rw [if_neg h]
    constructor
    · intro heq
      have hz : (-2 * t + 2) ^ 3 = 0 := by linarith
      have := pow_eq_zero_iff (n := 3) (by norm_num) |>.mp hz
      linarith
    · intro heq
      rw [heq]
      norm_num

/-- In doubles the easing curve takes 0 to 0. -/
lemma easeInOutCubic_double_zero : easeInOutCubic roundDouble (0 : K) = 0 := by
  unfold easeInOutCubic
  rw [if_pos (by norm_num)]
  norm_num [roundDouble_zero]

/-- In doubles the easing curve takes 1 to 1. -/
lemma easeInOutCubic_double_one : easeInOutCubic roundDouble (1 : K) = 1 := by
  have h2 : roundDouble (-2 * 1 : K) = -2 := by
    rw [roundDouble_eq_neg 1 (-4503599627370496) (by norm_num) (by norm_num) (by norm_num)
      (by norm_num)]
    norm_num
  unfold easeInOutCubic
  rw [if_neg (by norm_num), h2]
  norm_num [roundDouble_zero, roundDouble_one]

/-- The progress of a camera transition is 1 from the full duration on, in doubles too. -/
lemma progress_double_eq_one {elapsed : K} (h : 1000 ≤ elapsed) :
    min (roundDouble (elapsed / 1000)) 1 = 1 := by
  apply min_eq_right
  apply one_le_roundDouble
  rw [le_div_iff₀ (by norm_num)]
  linarith

/-- The call `setCamera('constructor')` finds the member that `positions` inherits from
`Object.prototype`, which is truthy, and sets every coordinate of the camera to NaN; a
name that is no property at all starts no animation. -/
lemma setCamera_inherited (fl : K → K) (startPos : Vector3 K) :
    setCamera fl startPos "constructor" 0
      = some ({ x := .nan, y := .nan, z := .nan }, decide (min (fl (0 / 1000)) 1 < 1))
    ∧ setCamera fl startPos "above" 0 = none := by
  constructor
  · simp [setCamera, positionsGet, cameraPositions, YomiSimulation.objectPrototypeKeys]
  · simp [setCamera, positionsGet, cameraPositions, YomiSimulation.objectPrototypeKeys]

/-- C30, as stated, fails: from the default camera position (0, 5, 10), the run of
`animateCamera` for the view `top` at progress 1 (1000 ms after the call) asks for no
further frame and leaves the camera at z = 0.09999999999999964, which is not the z of the
view, the double 0.1: the difference `0.1 - 10` is rounded to the nearest double before
it is added to 10. -/
theorem camera_end_position_counterexample :
    cameraPositions roundDouble "top"
      = some (⟨0, 15, (3602879701896397 / 36028797018963968)⟩ : Vector3 ℚ)
    ∧ animateCamera roundDouble (⟨0, 5, 10⟩ : Vector3 ℚ)
        ⟨0, 15, (3602879701896397 / 36028797018963968)⟩ 1000
      = (⟨0, 15, (56294995342131 / 562949953421312)⟩, false)
    ∧ ((56294995342131 / 562949953421312 : ℚ))
      ≠ (3602879701896397 / 36028797018963968) := by
  have hc : roundDouble (0.1 : ℚ) = (3602879701896397 / 36028797018963968) := by
    rw [roundDouble_eq_pos (-4) 7205759403792794 (by norm_num) (by norm_num) (by norm_num)
      (by norm_num)]
    norm_num
  have hp : min (roundDouble ((1000 : ℚ) / 1000)) 1 = 1 := progress_double_eq_one le_rfl
  have hx : roundDouble ((0 : ℚ) + roundDouble (roundDouble (0 - 0) * 1)) = 0 := by
    norm_num [roundDouble_zero]
  have h10 : roundDouble ((15 : ℚ) - 5) = 10 := by
    rw [roundDouble_eq_pos 3 5629499534213120 (by norm_num) (by norm_num) (by norm_num)
      (by norm_num)]
    norm_num
  have h10b : roundDouble ((10 : ℚ) * 1) = 10 := by
    rw [roundDouble_eq_pos 3 5629499534213120 (by norm_num) (by norm_num) (by norm_num)
      (by norm_num)]
    norm_num
  have h15 : roundDouble ((5 : ℚ) + 10) = 15 := by
    rw [roundDouble_eq_pos 3 8444249301319680 (by norm_num) (by norm_num) (by norm_num)
      (by norm_num)]
    norm_num
  have hd : roundDouble ((3602879701896397 / 36028797018963968 : ℚ) - 10)
      = (-5573204538870989 / 562949953421312) := by
    rw [roundDouble_eq_neg 3 (-5573204538870989) (by norm_num) (by norm_num) (by norm_num)
      (by norm_num)]
    norm_num
  have hd' : roundDouble ((-5573204538870989 / 562949953421312 : ℚ) * 1)
      = (-5573204538870989 / 562949953421312) := by
    rw [roundDouble_eq_neg 3 (-5573204538870989) (by norm_num) (by norm_num) (by norm_num)
      (by norm_num)]
    norm_num
  have hz : roundDouble (10 + (-5573204538870989 / 562949953421312 : ℚ))
      = (56294995342131 / 562949953421312) := by
    rw [roundDouble_eq_pos (-4) 7205759403792768 (by norm_num) (by norm_num) (by norm_num)
      (by norm_num)]
    norm_num
  refine ⟨?_, ?_, by norm_num⟩
  · simp [cameraPositions, hc]
  · simp only [animateCamera, hp, easeInOutCubic_double_one, hx, h10, h10b, h15, hd, hd', hz]
    simp

/-- C30, amended (easing curve and camera end position). In exact arithmetic the curve
`easeInOutCubic` takes 0 to 0 and 1 to 1, its two branches agree at 0.5, it does not
decrease on [0, 1], and on [0, 1] it reaches 1 at 1 only; a run of `animateCamera` with no
time elapsed leaves the camera at the start position and asks for another frame, and a
run at or after the full duration (1000 ms) puts the camera at the target position and
asks for none. In doubles the curve takes 0 to 0 and 1 to 1 as well, and the run with no
time elapsed leaves a camera whose coordinates are doubles where it is; the run at or
after the full duration asks for no further frame and sets each coordinate to
`start + (pos - start) * 1` with every operation rounded, which need not be the
coordinate of the target. -/
theorem easeInOutCubic_valid (s t : K) (hs : 0 ≤ s) (hst : s ≤ t) (ht : t ≤ 1)
    (startPos pos : Vector3 K) (elapsed : K) (helapsed : 1000 ≤ elapsed)
    (hstart : roundDouble startPos.x = startPos.x ∧ roundDouble startPos.y = startPos.y
      ∧ roundDouble startPos.z = startPos.z) :
    easeInOutCubic id (0 : K) = 0
    ∧ easeInOutCubic id (1 : K) = 1
    ∧ 4 * (0.5 : K) * 0.5 * 0.5 = 1 - (-2 * (0.5 : K) + 2) ^ 3 / 2
    ∧ easeInOutCubic id s ≤ easeInOutCubic id t
    ∧ (easeInOutCubic id t = 1 ↔ t = 1)
    ∧ animateCamera id startPos pos 0 = (startPos, true)
    ∧ animateCamera id startPos pos elapsed = (pos, false)
    ∧ easeInOutCubic roundDouble (0 : K) = 0
    ∧ easeInOutCubic roundDouble (1 : K) = 1
    ∧ animateCamera roundDouble startPos pos 0 = (startPos, true)
    ∧ animateCamera roundDouble startPos pos elapsed
      = ({ x := roundDouble (startPos.x + roundDouble (roundDouble (pos.x - startPos.x) * 1))
           y := roundDouble (startPos.y + roundDouble (roundDouble (pos.y - startPos.y) * 1))
           z := roundDouble (startPos.z + roundDouble (roundDouble (pos.z - startPos.z) * 1)) },
         false) := by
  have e0 : easeInOutCubic id (0 : K) = 0 := by
    rw [easeInOutCubic_id]
    norm_num
  have e1 : easeInOutCubic id (1 : K) = 1 := by
    rw [easeInOutCubic_id]
    norm_num
  refine ⟨e0, e1, by norm_num, easeInOutCubic_mono hs hst ht,
    easeInOutCubic_eq_one_iff (hs.trans hst) ht, ?_, ?_, easeInOutCubic_double_zero,
    easeInOutCubic_double_one, ?_, ?_⟩
  · have hp : min (id ((0 : K) / 1000)) 1 = 0 := by norm_num
    simp only [animateCamera, hp, e0]
    simp
  · have hp : min (id (elapsed / 1000)) 1 = 1 := by
      apply min_eq_right
      rw [id, le_div_iff₀ (by norm_num)]
      linarith
    simp only [animateCamera, hp, e1]
    simp
  · have hp : min (roundDouble ((0 : K) / 1000)) 1 = 0 := by
      norm_num [roundDouble_zero]
    simp only [animateCamera, hp, easeInOutCubic_double_zero]
    simp [roundDouble_zero, hstart.1, hstart.2.1, hstart.2.2]
  · simp only [animateCamera, progress_double_eq_one helapsed, easeInOutCubic_double_one]
    simp

theorem easeInOutCubic_valid_witness :
    easeInOutCubic id (0 : ℚ) = 0
    ∧ easeInOutCubic id (1 : ℚ) = 1
    ∧ 4 * (0.5 : ℚ) * 0.5 * 0.5 = 1 - (-2 * (0.5 : ℚ) + 2) ^ 3 / 2
    ∧ easeInOutCubic id (1 / 4 : ℚ) ≤ easeInOutCubic id (3 / 4 : ℚ)
    ∧ (easeInOutCubic id (3 / 4 : ℚ) = 1 ↔ (3 / 4 : ℚ) = 1)
    ∧ animateCamera id (⟨0, 5, 10⟩ : Vector3 ℚ) ⟨15, 5, 0⟩ 0 = (⟨0, 5, 10⟩, true)
    ∧ animateCamera id (⟨0, 5, 10⟩ : Vector3 ℚ) ⟨15, 5, 0⟩ 1250 = (⟨15, 5, 0⟩, false)
    ∧ easeInOutCubic roundDouble (0 : ℚ) = 0
    ∧ easeInOutCubic roundDouble (1 : ℚ) = 1
    ∧ animateCamera roundDouble (⟨0, 5, 10⟩ : Vector3 ℚ) ⟨15, 5, 0⟩ 0 = (⟨0, 5, 10⟩, true)
    ∧ animateCamera roundDouble (⟨0, 5, 10⟩ : Vector3 ℚ) ⟨15, 5, 0⟩ 1250
      = ({ x := roundDouble (0 + roundDouble (roundDouble (15 - 0) * 1))
           y := roundDouble (5 + roundDouble (roundDouble (5 - 5) * 1))
           z := roundDouble (10 + roundDouble (roundDouble (0 - 10) * 1)) },
         false) :=
  easeInOutCubic_valid (1 / 4) (3 / 4) (by norm_num) (by norm_num) (by norm_num)
    ⟨0, 5, 10⟩ ⟨15, 5, 0⟩ 1250 (by norm_num)
    ⟨roundDouble_zero,
      by
        rw [roundDouble_eq_pos 2 5629499534213120 (by norm_num) (by norm_num) (by norm_num)
          (by norm_num)]
        norm_num,
      by
        rw [roundDouble_eq_pos 3 5629499534213120 (by norm_num) (by norm_num) (by norm_num)
          (by norm_num)]
        norm_num⟩

end Easing

section Drilling

variable {K : Type} [LinearOrderedField K] [FloorRing K]

/-- One more run of line 504. -/
lemma drillHeight_succ (fl : K → K) (n : ℕ) :
    drillHeight fl (n + 1) = fl (drillHeight fl n - fl (50 / 1000)) := rfl

/-- In exact arithmetic the drill is at `3 - n * 0.05` after `n` steps. -/
lemma drillHeight_exact (n : ℕ) : drillHeight (id : K → K) n = 3 - (n : K) * (50 / 1000) := by
  induction n with
  | zero => simp [drillHeight]
  | succ n ih =>
    rw [drillHeight_succ, ih]
    simp only [id]
    push_cast
    ring

/-- In exact arithmetic the drill is above 0 for 59 steps and at 0 after the 60th. -/
lemma drillHeight_exact_descent :
    (∀ i : ℕ, 1 ≤ i → i ≤ 59 → 0 < drillHeight (id : K → K) i)
    ∧ drillHeight (id : K → K) (59 + 1) ≤ 0 := by
  constructor
  · intro i _ hi
    rw [drillHeight_exact]
    have : (i : K) ≤ 59 := by exact_mod_cast hi
    linarith
  · rw [drillHeight_exact]
    norm_num

/-- In doubles the drill is above 0 for 60 steps, at 2.29e-15 after the 60th, and below 0
after the 61st: each line gives the double that one more subtraction of the double 0.05
leaves. -/
lemma drillHeight_double_descent :
    (∀ i : ℕ, 1 ≤ i → i ≤ 60 → 0 < drillHeight (roundDouble : K → K) i)
    ∧ drillHeight (roundDouble : K → K) (60 + 1) ≤ 0
    ∧ drillHeight (roundDouble : K → K) 60 = (165 / 72057594037927936) := by
  have hc : roundDouble ((50 : K) / 1000) = (3602879701896397 / 72057594037927936) := by
    rw [roundDouble_eq_pos (-5) 7205759403792794 (by norm_num) (by norm_num) (by norm_num)
      (by norm_num)]
    norm_num
  have h0 : drillHeight (roundDouble : K → K) 0 = 3 := rfl
  have h1 : drillHeight (roundDouble : K → K) 1 = (3321404725185741 / 1125899906842624) := by
    rw [drillHeight_succ, h0, hc]
    rw [roundDouble_eq_pos 1 6642809450371482 (by norm_num) (by norm_num) (by norm_num)
      (by norm_num)]
    norm_num
  have h2 : drillHeight (roundDouble : K → K) 2 = (1632554864921805 / 562949953421312) := by
    rw [drillHeight_succ, h1, hc]
    rw [roundDouble_eq_pos 1 6530219459687220 (by norm_num) (by norm_num) (by norm_num)
      (by norm_num)]
    norm_num
  have h3 : drillHeight (roundDouble : K → K) 3 = (3208814734501479 / 1125899906842624) := by
    rw [drillHeight_succ, h2, hc]
    rw [roundDouble_eq_pos 1 6417629469002958 (by norm_num) (by norm_num) (by norm_num)
      (by norm_num)]
    norm_num
  have h4 : drillHeight (roundDouble : K → K) 4 = (788129934789837 / 281474976710656) := by
    rw [drillHeight_succ, h3, hc]
    rw [roundDouble_eq_pos 1 6305039478318696 (by norm_num) (by norm_num) (by norm_num)
      (by norm_num)]
    norm_num
  have h5 : drillHeight (roundDouble : K → K) 5 = (3096224743817217 / 1125899906842624) := by
    rw [drillHeight_succ, h4, hc]
    rw [roundDouble_eq_pos 1 6192449487634434 (by norm_num) (by norm_num) (by norm_num)
      (by norm_num)]
    norm_num
  have h6 : drillHeight (roundDouble : K → K) 6 = (1519964874237543 / 562949953421312) := by
    rw [drillHeight_succ, h5, hc]
    rw [roundDouble_eq_pos 1 6079859496950172 (by norm_num) (by norm_num) (by norm_num)
      (by norm_num)]
    norm_num
  have h7 : drillHeight (roundDouble : K → K) 7 = (2983634753132955 / 1125899906842624) := by
    rw [drillHeight_succ, h6, hc]
    rw [roundDouble_eq_pos 1 5967269506265910 (by norm_num) (by norm_num) (by norm_num)
      (by norm_num)]
    norm_num
  have h8 : drillHeight (roundDouble : K → K) 8 = (365917469723853 / 140737488355328) := by
    rw [drillHeight_succ, h7, hc]
    rw [roundDouble_eq_pos 1 5854679515581648 (by norm_num) (by norm_num) (by norm_num)
      (by norm_num)]
    norm_num
  have h9 : drillHeight (roundDouble : K → K) 9 = (2871044762448693 / 1125899906842624) := by
    rw [drillHeight_succ, h8, hc]
    rw [roundDouble_eq_pos 1 5742089524897386 (by norm_num) (by norm_num) (by norm_num)
      (by norm_num)]
    norm_num
  have h10 : drillHeight (roundDouble : K → K) 10 = (1407374883553281 / 562949953421312) := by
    rw [drillHeight_succ, h9, hc]
    rw [roundDouble_eq_pos 1 5629499534213124 (by norm_num) (by norm_num) (by norm_num)
      (by norm_num)]
    norm_num
  have h11 : drillHeight (roundDouble : K → K) 11 = (2758454771764431 / 1125899906842624) := by
    rw [drillHeight_succ, h10, hc]
    rw [roundDouble_eq_pos 1 5516909543528862 (by norm_num) (by norm_num) (by norm_num)
      (by norm_num)]
    norm_num
  have h12 : drillHeight (roundDouble : K → K) 12 = (675539944105575 / 281474976710656) := by
    rw [drillHeight_succ, h11, hc]
    rw [roundDouble_eq_pos 1 5404319552844600 (by norm_num) (by norm_num) (by norm_num)
      (by norm_num)]
    norm_num
  have h13 : drillHeight (roundDouble : K → K) 13 = (2645864781080169 / 1125899906842624) := by
    rw [drillHeight_succ, h12, hc]
    rw [roundDouble_eq_pos 1 5291729562160338 (by norm_num) (by norm_num) (by norm_num)
      (by norm_num)]
    norm_num
  have h14 : drillHeight (roundDouble : K → K) 14 = (1294784892869019 / 562949953421312) := by
    rw [drillHeight_succ, h13, hc]
    rw [roundDouble_eq_pos 1 5179139571476076 (by norm_num) (by norm_num) (by norm_num)
      (by norm_num)]
    norm_num
  have h15 : drillHeight (roundDouble : K → K) 15 = (2533274790395907 / 1125899906842624) := by
    rw [drillHeight_succ, h14, hc]
    rw [roundDouble_eq_pos 1 5066549580791814 (by norm_num) (by norm_num) (by norm_num)
      (by norm_num)]
    norm_num
  have h16 : drillHeight (roundDouble : K → K) 16 = (154811237190861 / 70368744177664) := by
    rw [drillHeight_succ, h15, hc]
    rw [roundDouble_eq_pos 1 4953959590107552 (by norm_num) (by norm_num) (by norm_num)
      (by norm_num)]
    norm_num
  have h17 : drillHeight (roundDouble : K → K) 17 = (2420684799711645 / 1125899906842624) := by
    rw [drillHeight_succ, h16, hc]
    rw [roundDouble_eq_pos 1 4841369599423290 (by norm_num) (by norm_num) (by norm_num)
      (by norm_num)]
    norm_num
  have h18 : drillHeight (roundDouble : K → K) 18 = (1182194902184757 / 562949953421312) := by
    rw [drillHeight_succ, h17, hc]
    rw [roundDouble_eq_pos 1 4728779608739028 (by norm_num) (by norm_num) (by norm_num)
      (by norm_num)]
    norm_num
  have h19 : drillHeight (roundDouble : K → K) 19 = (2308094809027383 / 1125899906842624) := by
    rw [drillHeight_succ, h18, hc]
    rw [roundDouble_eq_pos 1 4616189618054766 (by norm_num) (by norm_num) (by norm_num)
      (by norm_num)]
    norm_num
  have h20 : drillHeight (roundDouble : K → K) 20 = (562949953421313 / 281474976710656) := by
    rw [drillHeight_succ, h19, hc]
    rw [roundDouble_eq_pos 1 4503599627370504 (by norm_num) (by norm_num) (by norm_num)
      (by norm_num)]
    norm_num
  have h21 : drillHeight (roundDouble : K → K) 21 = (8782019273372483 / 4503599627370496) := by
    rw [drillHeight_succ, h20, hc]
    rw [roundDouble_eq_pos 0 8782019273372483 (by norm_num) (by norm_num) (by norm_num)
      (by norm_num)]
    norm_num
  have h22 : drillHeight (roundDouble : K → K) 22 = (4278419646001979 / 2251799813685248) := by
    rw [drillHeight_succ, h21, hc]
    rw [roundDouble_eq_pos 0 8556839292003958 (by norm_num) (by norm_num) (by norm_num)
      (by norm_num)]
    norm_num
  have h23 : drillHeight (roundDouble : K → K) 23 = (8331659310635433 / 4503599627370496) := by
    rw [drillHeight_succ, h22, hc]
    rw [roundDouble_eq_pos 0 8331659310635433 (by norm_num) (by norm_num) (by norm_num)
      (by norm_num)]
    norm_num
  have h24 : drillHeight (roundDouble : K → K) 24 = (2026619832316727 / 1125899906842624) := by
    rw [drillHeight_succ, h23, hc]
    rw [roundDouble_eq_pos 0 8106479329266908 (by norm_num) (by norm_num) (by norm_num)
      (by norm_num)]
    norm_num
  have h25 : drillHeight (roundDouble : K → K) 25 = (7881299347898383 / 4503599627370496) := by
    rw [drillHeight_succ, h24, hc]
    rw [roundDouble_eq_pos 0 7881299347898383 (by norm_num) (by norm_num) (by norm_num)
      (by norm_num)]
    norm_num
  have h26 : drillHeight (roundDouble : K → K) 26 = (3828059683264929 / 2251799813685248) := by
    rw [drillHeight_succ, h25, hc]
    rw [roundDouble_eq_pos 0 7656119366529858 (by norm_num) (by norm_num) (by norm_num)
      (by norm_num)]
    norm_num
  have h27 : drillHeight (roundDouble : K → K) 27 = (7430939385161333 / 4503599627370496) := by
    rw [drillHeight_succ, h26, hc]
    rw [roundDouble_eq_pos 0 7430939385161333 (by norm_num) (by norm_num) (by norm_num)
      (by norm_num)]
    norm_num
  have h28 : drillHeight (roundDouble : K → K) 28 = (900719925474101 / 562949953421312) := by
    rw [drillHeight_succ, h27, hc]
    rw [roundDouble_eq_pos 0 7205759403792808 (by norm_num) (by norm_num) (by norm_num)
      (by norm_num)]
    norm_num
  have h29 : drillHeight (roundDouble : K → K) 29 = (6980579422424283 / 4503599627370496) := by
    rw [drillHeight_succ, h28, hc]
    rw [roundDouble_eq_pos 0 6980579422424283 (by norm_num) (by norm_num) (by norm_num)
      (by norm_num)]
    norm_num
  have h30 : drillHeight (roundDouble : K → K) 30 = (3377699720527879 / 2251799813685248) := by
    rw [drillHeight_succ, h29, hc]
    rw [roundDouble_eq_pos 0 6755399441055758 (by norm_num) (by norm_num) (by norm_num)
      (by norm_num)]
    norm_num
  have h31 : drillHeight (roundDouble : K → K) 31 = (6530219459687233 / 4503599627370496) := by
    rw [drillHeight_succ, h30, hc]
    rw [roundDouble_eq_pos 0 6530219459687233 (by norm_num) (by norm_num) (by norm_num)
      (by norm_num)]
    norm_num
  have h32 : drillHeight (roundDouble : K → K) 32 = (1576259869579677 / 1125899906842624) := by
    rw [drillHeight_succ, h31, hc]
    rw [roundDouble_eq_pos 0 6305039478318708 (by norm_num) (by norm_num) (by norm_num)
      (by norm_num)]
    norm_num
  have h33 : drillHeight (roundDouble : K → K) 33 = (6079859496950183 / 4503599627370496) := by
    rw [drillHeight_succ, h32, hc]
    rw [roundDouble_eq_pos 0 6079859496950183 (by norm_num) (by norm_num) (by norm_num)
      (by norm_num)]
    norm_num
  have h34 : drillHeight (roundDouble : K → K) 34 = (2927339757790829 / 2251799813685248) := by
    rw [drillHeight_succ, h33, hc]
    rw [roundDouble_eq_pos 0 5854679515581658 (by norm_num) (by norm_num) (by norm_num)
      (by norm_num)]
    norm_num
  have h35 : drillHeight (roundDouble : K → K) 35 = (5629499534213133 / 4503599627370496) := by
    rw [drillHeight_succ, h34, hc]
    rw [roundDouble_eq_pos 0 5629499534213133 (by norm_num) (by norm_num) (by norm_num)
      (by norm_num)]
    norm_num
  have h36 : drillHeight (roundDouble : K → K) 36 = (84442493013197 / 70368744177664) := by
    rw [drillHeight_succ, h35, hc]
    rw [roundDouble_eq_pos 0 5404319552844608 (by norm_num) (by norm_num) (by norm_num)
      (by norm_num)]
    norm_num
  have h37 : drillHeight (roundDouble : K → K) 37 = (5179139571476083 / 4503599627370496) := by
    rw [drillHeight_succ, h36, hc]
    rw [roundDouble_eq_pos 0 5179139571476083 (by norm_num) (by norm_num) (by norm_num)
      (by norm_num)]
    norm_num
  have h38 : drillHeight (roundDouble : K → K) 38 = (2476979795053779 / 2251799813685248) := by
    rw [drillHeight_succ, h37, hc]
    rw [roundDouble_eq_pos 0 4953959590107558 (by norm_num) (by norm_num) (by norm_num)
      (by norm_num)]
    norm_num
  have h39 : drillHeight (roundDouble : K → K) 39 = (4728779608739033 / 4503599627370496) := by
    rw [drillHeight_succ, h38, hc]
    rw [roundDouble_eq_pos 0 4728779608739033 (by norm_num) (by norm_num) (by norm_num)
      (by norm_num)]
    norm_num
  have h40 : drillHeight (roundDouble : K → K) 40 = (1125899906842627 / 1125899906842624) := by
    rw [drillHeight_succ, h39, hc]
    rw [roundDouble_eq_pos 0 4503599627370508 (by norm_num) (by norm_num) (by norm_num)
      (by norm_num)]
    norm_num
  have h41 : drillHeight (roundDouble : K → K) 41 = (4278419646001983 / 4503599627370496) := by
    rw [drillHeight_succ, h40, hc]
    rw [roundDouble_eq_pos (-1) 8556839292003966 (by norm_num) (by norm_num) (by norm_num)
      (by norm_num)]
    norm_num
  have h42 : drillHeight (roundDouble : K → K) 42 = (2026619832316729 / 2251799813685248) := by
    rw [drillHeight_succ, h41, hc]
    rw [roundDouble_eq_pos (-1) 8106479329266916 (by norm_num) (by norm_num) (by norm_num)
      (by norm_num)]
    norm_num
  have h43 : drillHeight (roundDouble : K → K) 43 = (3828059683264933 / 4503599627370496) := by
    rw [drillHeight_succ, h42, hc]
    rw [roundDouble_eq_pos (-1) 7656119366529866 (by norm_num) (by norm_num) (by norm_num)
      (by norm_num)]
    norm_num
  have h44 : drillHeight (roundDouble : K → K) 44 = (450359962737051 / 562949953421312) := by
    rw [drillHeight_succ, h43, hc]
    rw [roundDouble_eq_pos (-1) 7205759403792816 (by norm_num) (by norm_num) (by norm_num)
      (by norm_num)]
    norm_num
  have h45 : drillHeight (roundDouble : K → K) 45 = (3377699720527883 / 4503599627370496) := by
    rw [drillHeight_succ, h44, hc]
    rw [roundDouble_eq_pos (-1) 6755399441055766 (by norm_num) (by norm_num) (by norm_num)
      (by norm_num)]
    norm_num
  have h46 : drillHeight (roundDouble : K → K) 46 = (1576259869579679 / 2251799813685248) := by
    rw [drillHeight_succ, h45, hc]
    rw [roundDouble_eq_pos (-1) 6305039478318716 (by norm_num) (by norm_num) (by norm_num)
      (by norm_num)]
    norm_num
  have h47 : drillHeight (roundDouble : K → K) 47 = (2927339757790833 / 4503599627370496) := by
    rw [drillHeight_succ, h46, hc]
    rw [roundDouble_eq_pos (-1) 5854679515581666 (by norm_num) (by norm_num) (by norm_num)
      (by norm_num)]
    norm_num
  have h48 : drillHeight (roundDouble : K → K) 48 = (675539944105577 / 1125899906842624) := by
    rw [drillHeight_succ, h47, hc]
    rw [roundDouble_eq_pos (-1) 5404319552844616 (by norm_num) (by norm_num) (by norm_num)
      (by norm_num)]
    norm_num
  have h49 : drillHeight (roundDouble : K → K) 49 = (2476979795053783 / 4503599627370496) := by
    rw [drillHeight_succ, h48, hc]
    rw [roundDouble_eq_pos (-1) 4953959590107566 (by norm_num) (by norm_num) (by norm_num)
      (by norm_num)]
    norm_num
  have h50 : drillHeight (roundDouble : K → K) 50 = (1125899906842629 / 2251799813685248) := by
    rw [drillHeight_succ, h49, hc]
    rw [roundDouble_eq_pos (-1) 4503599627370516 (by norm_num) (by norm_num) (by norm_num)
      (by norm_num)]
    norm_num
  have h51 : drillHeight (roundDouble : K → K) 51 = (8106479329266933 / 18014398509481984) := by
    rw [drillHeight_succ, h50, hc]
    rw [roundDouble_eq_pos (-2) 8106479329266933 (by norm_num) (by norm_num) (by norm_num)
      (by norm_num)]
    norm_num
  have h52 : drillHeight (roundDouble : K → K) 52 = (3602879701896417 / 9007199254740992) := by
    rw [drillHeight_succ, h51, hc]
    rw [roundDouble_eq_pos (-2) 7205759403792834 (by norm_num) (by norm_num) (by norm_num)
      (by norm_num)]
    norm_num
  have h53 : drillHeight (roundDouble : K → K) 53 = (6305039478318735 / 18014398509481984) := by
    rw [drillHeight_succ, h52, hc]
    rw [roundDouble_eq_pos (-2) 6305039478318735 (by norm_num) (by norm_num) (by norm_num)
      (by norm_num)]
    norm_num
  have h54 : drillHeight (roundDouble : K → K) 54 = (1351079888211159 / 4503599627370496) := by
    rw [drillHeight_succ, h53, hc]
    rw [roundDouble_eq_pos (-2) 5404319552844636 (by norm_num) (by norm_num) (by norm_num)
      (by norm_num)]
    norm_num
  have h55 : drillHeight (roundDouble : K → K) 55 = (4503599627370537 / 18014398509481984) := by
    rw [drillHeight_succ, h54, hc]
    rw [roundDouble_eq_pos (-2) 4503599627370537 (by norm_num) (by norm_num) (by norm_num)
      (by norm_num)]
    norm_num
  have h56 : drillHeight (roundDouble : K → K) 56 = (1801439850948219 / 9007199254740992) := by
    rw [drillHeight_succ, h55, hc]
    rw [roundDouble_eq_tie (-3) 7205759403792875 7205759403792876 (by norm_num) (by norm_num)
      (by norm_num) (Or.inr ⟨by norm_num, by norm_num⟩)]
    norm_num
  have h57 : drillHeight (roundDouble : K → K) 57 = (2702159776422339 / 18014398509481984) := by
    rw [drillHeight_succ, h56, hc]
    rw [roundDouble_eq_tie (-3) 5404319552844677 5404319552844678 (by norm_num) (by norm_num)
      (by norm_num) (Or.inr ⟨by norm_num, by norm_num⟩)]
    norm_num
  have h58 : drillHeight (roundDouble : K → K) 58 = (7205759403792959 / 72057594037927936) := by
    rw [drillHeight_succ, h57, hc]
    rw [roundDouble_eq_pos (-4) 7205759403792959 (by norm_num) (by norm_num) (by norm_num)
      (by norm_num)]
    norm_num
  have h59 : drillHeight (roundDouble : K → K) 59 = (1801439850948281 / 36028797018963968) := by
    rw [drillHeight_succ, h58, hc]
    rw [roundDouble_eq_pos (-5) 7205759403793124 (by norm_num) (by norm_num) (by norm_num)
      (by norm_num)]
    norm_num
  have h60 : drillHeight (roundDouble : K → K) 60 = (165 / 72057594037927936) := by
    rw [drillHeight_succ, h59, hc]
    rw [roundDouble_eq_pos (-49) 5805421394657280 (by norm_num) (by norm_num) (by norm_num)
      (by norm_num)]
    norm_num
  have h61 : drillHeight (roundDouble : K → K) 61 = (-450359962737029 / 9007199254740992) := by
    rw [drillHeight_succ, h60, hc]
    rw [roundDouble_eq_neg (-5) (-7205759403792464) (by norm_num) (by norm_num) (by norm_num)
      (by norm_num)]
    norm_num
  refine ⟨?_, ?_, h60⟩
  · intro i hi1 hi2
    interval_cases i <;>
    simp only [
      h1, h2, h3, h4, h5, h6, h7, h8, h9, h10, h11, h12, h13, h14, h15, h16, h17, h18,
      h19, h20, h21, h22, h23, h24, h25, h26, h27, h28, h29, h30, h31, h32, h33, h34, h35,
      h36, h37, h38, h39, h40, h41, h42, h43, h44, h45, h46, h47, h48, h49, h50, h51, h52,
      h53, h54, h55, h56, h57, h58, h59, h60] <;>
    norm_num
  · rw [h61]
    norm_num

/-- A frame during drilling, with one callback waiting and the next height of the drill
above 0: the drill goes one step down and one callback waits again. -/
lemma frame_descends (env : YomiSimulation.MathEnv K) (fl : K → K) (m : Manager K)
    (now random : K) (hd : m.isDrilling = true) (hp : m.pendingDrillFrames = 1)
    (hy : 0 < fl (m.drillPosition.y - fl (50 / 1000))) :
    frame env fl m now random =
      { m with
        drillPosition := { m.drillPosition with y := fl (m.drillPosition.y - fl (50 / 1000)) }
        drillRotationY := fl (m.drillRotationY + fl 0.1)
        pendingDrillFrames := 1 } := by
  simp [frame, hp, runDrillCallbacks, animateDrill, hd, not_le.mpr hy]

/-- A frame during drilling, with one callback waiting and the next height of the drill
at or below 0: drilling completes and one more Result goes to `onComplete`. -/
lemma frame_completes (env : YomiSimulation.MathEnv K) (fl : K → K) (m : Manager K)
    (now random : K) (hd : m.isDrilling = true) (hp : m.pendingDrillFrames = 1)
    (hy : fl (m.drillPosition.y - fl (50 / 1000)) ≤ 0) (hc : m.hasOnComplete = true) :
    (frame env fl m now random).completed.length = m.completed.length + 1
    ∧ (frame env fl m now random).isDrilling = false
    ∧ (frame env fl m now random).pendingDrillFrames = 0
    ∧ (frame env fl m now random).hasOnComplete = true := by
  simp [frame, hp, runDrillCallbacks, animateDrill, hd, hy, completeDrilling, hc]

/-- A frame with no callback waiting changes nothing. -/
lemma frame_idle (env : YomiSimulation.MathEnv K) (fl : K → K) (m : Manager K)
    (now random : K) (hp : m.pendingDrillFrames = 0) : frame env fl m now random = m := by
  cases m
  simp only at hp
  subst hp
  rfl

/-- Frames with no callback waiting change nothing. -/
lemma frames_idle (env : YomiSimulation.MathEnv K) (fl : K → K) (now random : K) (k : ℕ)
    (m : Manager K) (hp : m.pendingDrillFrames = 0) :
    run env fl m (List.replicate k (.frame now random)) = m := by
  induction k with
  | zero => rfl
  | succ k ih =>
    have hrun : run env fl m (List.replicate (k + 1) (.frame now random))
        = run env fl (frame env fl m now random) (List.replicate k (.frame now random)) := by
      simp [run, List.replicate_succ, step]
    rw [hrun, frame_idle env fl m now random hp, ih]

/-- A run of two event lists one after the other. -/
lemma run_append (env : YomiSimulation.MathEnv K) (fl : K → K) (m : Manager K)
    (a b : List (Event K)) : run env fl m (a ++ b) = run env fl (run env fl m a) b := by
  simp [run, List.foldl_append]

/-- The frames of a continued descent: from the height after `j` steps, `k` frames whose
heights stay above 0 bring the drill to the height after `j + k` steps. -/
lemma frames_descend (env : YomiSimulation.MathEnv K) (fl : K → K) (now random : K) (k : ℕ) :
    ∀ (j : ℕ) (m : Manager K), m.isDrilling = true → m.pendingDrillFrames = 1 →
      m.drillPosition.y = drillHeight fl j →
      (∀ i : ℕ, j < i → i ≤ j + k → 0 < drillHeight fl i) →
      (run env fl m (List.replicate k (.frame now random))).isDrilling = true
      ∧ (run env fl m (List.replicate k (.frame now random))).pendingDrillFrames = 1
      ∧ (run env fl m (List.replicate k (.frame now random))).drillPosition.y
          = drillHeight fl (j + k)
      ∧ (run env fl m (List.replicate k (.frame now random))).completed = m.completed
      ∧ (run env fl m (List.replicate k (.frame now random))).hasOnComplete
          = m.hasOnComplete := by
  induction k with
  | zero =>
    intro j m hd hp hy _
    simp [run, hd, hp, hy]
  | succ k ih =>
    intro j m hd hp hy hpos
    have hy1 : 0 < fl (m.drillPosition.y - fl (50 / 1000)) := by
      rw [hy, ← drillHeight_succ fl j]
      exact hpos (j + 1) (by omega) (by omega)
    have hf := frame_descends env fl m now random hd hp hy1
    have hrun : run env fl m (List.replicate (k + 1) (.frame now random))
        = run env fl (frame env fl m now random) (List.replicate k (.frame now random)) := by
      simp [run, List.replicate_succ, step]
    rw [hrun, hf]
    have := ih (j + 1)
      { m with
        drillPosition := { m.drillPosition with y := fl (m.drillPosition.y - fl (50 / 1000)) }
        drillRotationY := fl (m.drillRotationY + fl 0.1)
        pendingDrillFrames := 1 } hd rfl
      (by
        show fl (m.drillPosition.y - fl (50 / 1000)) = drillHeight fl (j + 1)
        rw [hy, drillHeight_succ])
      (fun i h1 h2 => hpos i (by omega) (by omega))
    obtain ⟨h1, h2, h3, h4, h5⟩ := this
    refine ⟨h1, h2, ?_, h4, h5⟩
    rw [h3]
    congr 1
    omega

/-- Pressing the primary button outside drilling and holding it: when the heights of the
drill stay above 0 for `N` steps and the next one is at or below 0, the press and `N`
frames hand one more Result to `onComplete`, and further frames change nothing. -/
lemma press_and_hold_completes (env : YomiSimulation.MathEnv K) (fl : K → K) (N : ℕ)
    (hN : 1 ≤ N) (hpos : ∀ i : ℕ, 1 ≤ i → i ≤ N → 0 < drillHeight fl i)
    (hend : drillHeight fl (N + 1) ≤ 0) (m : Manager K)
    (now random : K) (hd : m.isDrilling = false) (hp : m.pendingDrillFrames = 0)
    (hc : m.hasOnComplete = true) (n : ℕ) (hn : N ≤ n) :
    (run env fl m
        (.mouseDown 0 now random :: List.replicate n (.frame now random))).completed.length
      = m.completed.length + 1
    ∧ (run env fl m
        (.mouseDown 0 now random :: List.replicate n (.frame now random))).isDrilling = false
    ∧ (run env fl m
        (.mouseDown 0 now random :: List.replicate n (.frame now random))).pendingDrillFrames
      = 0
    ∧ (run env fl m
        (.mouseDown 0 now random :: List.replicate n (.frame now random))).hasOnComplete
      = true := by
  have h1pos : 0 < fl (3 - fl (50 / 1000)) := hpos 1 le_rfl hN
  have hstart : ∃ m1 : Manager K, onMouseDown env fl m 0 now random = m1
      ∧ m1.isDrilling = true ∧ m1.pendingDrillFrames = 1
      ∧ m1.drillPosition.y = drillHeight fl 1 ∧ m1.completed = m.completed
      ∧ m1.hasOnComplete = true := by
    refine ⟨_, rfl, ?_, ?_, ?_, ?_, ?_⟩ <;>
      simp [onMouseDown, hd, startDrilling, animateDrill, hp, hc, not_le.mpr h1pos,
        drillHeight]
  obtain ⟨m1, hm1, h1d, h1p, h1y, h1c, h1h⟩ := hstart
  obtain ⟨r, rfl⟩ : ∃ r, n = (N - 1) + 1 + r := ⟨n - N, by omega⟩
  have hsplit : run env fl m
      (.mouseDown 0 now random :: List.replicate (N - 1 + 1 + r) (.frame now random))
      = run env fl
          (frame env fl (run env fl m1 (List.replicate (N - 1) (.frame now random))) now random)
          (List.replicate r (.frame now random)) := by
    have hrep : List.replicate (N - 1 + 1 + r) (Event.frame now random)
        = List.replicate (N - 1) (Event.frame now random) ++ [Event.frame now random]
          ++ List.replicate r (Event.frame now random) := by
      rw [List.replicate_add, List.replicate_add]
      rfl
    simp only [run, List.foldl_cons, hrep, List.foldl_append, List.foldl_nil, step, hm1]
  obtain ⟨h2d, h2p, h2y, h2c, h2h⟩ := frames_descend env fl now random (N - 1) 1 m1 h1d h1p
    h1y (fun i hi1 hi2 => hpos i (by omega) (by omega))
  have hlast := frame_completes env fl _ now random h2d h2p
    (by
      rw [h2y, ← drillHeight_succ fl (1 + (N - 1))]
      have : 1 + (N - 1) + 1 = N + 1 := by omega
      rw [this]
      exact hend)
    (by rw [h2h, h1h])
  rw [hsplit, frames_idle env fl now random r _ hlast.2.2.1]
  exact ⟨by rw [hlast.1, h2c, h1c], hlast.2.1, hlast.2.2.1, hlast.2.2.2⟩

/-- Pressing the primary button outside drilling and holding it for fewer frames than
the drill needs: no Result yet, the drill still going down. -/
lemma press_and_hold_descends (env : YomiSimulation.MathEnv K) (fl : K → K) (N : ℕ)
    (hN : 1 ≤ N) (hpos : ∀ i : ℕ, 1 ≤ i → i ≤ N → 0 < drillHeight fl i) (m : Manager K)
    (now random : K) (hd : m.isDrilling = false) (hp : m.pendingDrillFrames = 0)
    (n : ℕ) (hn : n < N) :
    (run env fl m
        (.mouseDown 0 now random :: List.replicate n (.frame now random))).completed
      = m.completed
    ∧ (run env fl m
        (.mouseDown 0 now random :: List.replicate n (.frame now random))).isDrilling
      = true := by
  have h1pos : 0 < fl (3 - fl (50 / 1000)) := hpos 1 le_rfl hN
  have hstart : ∃ m1 : Manager K, onMouseDown env fl m 0 now random = m1
      ∧ m1.isDrilling = true ∧ m1.pendingDrillFrames = 1
      ∧ m1.drillPosition.y = drillHeight fl 1 ∧ m1.completed = m.completed := by
    refine ⟨_, rfl, ?_, ?_, ?_, ?_⟩ <;>
      simp [onMouseDown, hd, startDrilling, animateDrill, hp, not_le.mpr h1pos, drillHeight]
  obtain ⟨m1, hm1, h1d, h1p, h1y, h1c⟩ := hstart
  have hsplit : run env fl m (.mouseDown 0 now random :: List.replicate n (.frame now random))
      = run env fl m1 (List.replicate n (.frame now random)) := by
    simp only [run, List.foldl_cons, step, hm1]
  obtain ⟨h2d, -, -, h2c, -⟩ := frames_descend env fl now random n 1 m1 h1d h1p
    h1y (fun i hi1 hi2 => hpos i (by omega) (by omega))
  rw [hsplit]
  exact ⟨by rw [h2c, h1c], h2d⟩

/-- C25, as stated, fails: in a session that has produced no Result yet, pressing the
primary mouse button and holding it for 60 frames completes the drilling and produces a
Result; releasing the button and doing the same again, with no reset in between,
produces a second Result. The arithmetic is that of doubles. -/
theorem second_result_counterexample :
    (run ⟨Real.sqrt, fun t => t * (Real.pi / 180)⟩ roundDouble
        ({ isDrilling := false, startTime := 1000, controlsEnabled := true,
           crosshairPosition := ⟨0.25, 0.5, 0.125⟩, drillPosition := ⟨0, 5, 0⟩,
           drillRotationY := 0, drillVisible := true, implantPosition := ⟨0, 0, 0⟩,
           implantModelPosition := ⟨0, 0, 0⟩, implantVisible := false,
           targetPosition := ⟨0.25, 0, 0.125⟩, hasOnComplete := true, completed := [],
           pendingDrillFrames := 0 } : Manager ℝ)
        ((.mouseDown 0 5000 0.5 :: List.replicate 60 (.frame 5000 0.5))
          ++ (.mouseUp 0 :: .mouseDown 0 9000 0.5
            :: List.replicate 60 (.frame 9000 0.5)))).completed.length
      = 2 := by
  obtain ⟨hpos, hend, -⟩ := drillHeight_double_descent (K := ℝ)
  have h1 := press_and_hold_completes ⟨Real.sqrt, fun t => t * (Real.pi / 180)⟩ roundDouble 60
    (by norm_num) hpos hend
    ({ isDrilling := false, startTime := 1000, controlsEnabled := true,
       crosshairPosition := ⟨0.25, 0.5, 0.125⟩, drillPosition := ⟨0, 5, 0⟩,
       drillRotationY := 0, drillVisible := true, implantPosition := ⟨0, 0, 0⟩,
       implantModelPosition := ⟨0, 0, 0⟩, implantVisible := false,
       targetPosition := ⟨0.25, 0, 0.125⟩, hasOnComplete := true, completed := [],
       pendingDrillFrames := 0 } : Manager ℝ) 5000 0.5 rfl rfl rfl 60 le_rfl
  obtain ⟨hlen, hd, hp, hc⟩ := h1
  have h2 := press_and_hold_completes ⟨Real.sqrt, fun t => t * (Real.pi / 180)⟩ roundDouble 60
    (by norm_num) hpos hend _ 9000 0.5 hd hp hc 60 le_rfl
  rw [run_append]
  have hup : ∀ (m : Manager ℝ) (rest : List (Event ℝ)), m.isDrilling = false →
      run ⟨Real.sqrt, fun t => t * (Real.pi / 180)⟩ roundDouble m (.mouseUp 0 :: rest)
        = run ⟨Real.sqrt, fun t => t * (Real.pi / 180)⟩ roundDouble m rest := by
    intro m rest hm
    simp [run, step, onMouseUp, hm]
  rw [hup _ _ hd, h2.1, hlen]
  rfl

/-- C25, amended (more than one Result per session). The drilling state machine has no
completed state: once `completeDrilling` has handed a Result to `onComplete`, a press of
the primary mouse button starts the drill again from height 3, and when the button is
held for 60 or more animation frames `completeDrilling` hands exactly one more Result to
`onComplete`, with no reset in between, in the arithmetic of doubles and in exact
arithmetic alike. In doubles 59 frames are not enough: the drill is then 2.29e-15 above
0 and no further Result has been handed over. -/
theorem second_result_after_press (env : YomiSimulation.MathEnv K) (m0 : Manager K)
    (now0 random0 now random : K)
    (hc : m0.hasOnComplete = true) (hp : m0.pendingDrillFrames = 0) (n : ℕ) (hn : 60 ≤ n) :
    (completeDrilling env m0 now0 random0).completed.length = m0.completed.length + 1
    ∧ (run env roundDouble (completeDrilling env m0 now0 random0)
        (.mouseDown 0 now random :: List.replicate n (.frame now random))).completed.length
      = m0.completed.length + 2
    ∧ (run env id (completeDrilling env m0 now0 random0)
        (.mouseDown 0 now random :: List.replicate n (.frame now random))).completed.length
      = m0.completed.length + 2
    ∧ (run env roundDouble (completeDrilling env m0 now0 random0)
        (.mouseDown 0 now random :: List.replicate 59 (.frame now random))).completed.length
      = m0.completed.length + 1
    ∧ (run env roundDouble (completeDrilling env m0 now0 random0)
        (.mouseDown 0 now random :: List.replicate 59 (.frame now random))).isDrilling
      = true := by
  have h1 : (completeDrilling env m0 now0 random0).completed.length
      = m0.completed.length + 1 := by
    simp [completeDrilling, hc]
  have hd1 : (completeDrilling env m0 now0 random0).isDrilling = false := by
    simp [completeDrilling, hc]
  have hp1 : (completeDrilling env m0 now0 random0).pendingDrillFrames = 0 := by
    simp [completeDrilling, hc, hp]
  have hc1 : (completeDrilling env m0 now0 random0).hasOnComplete = true := by
    simp [completeDrilling, hc]
  obtain ⟨hposD, hendD, -⟩ := drillHeight_double_descent (K := K)
  obtain ⟨hposE, hendE⟩ := drillHeight_exact_descent (K := K)
  have h2 := press_and_hold_completes env roundDouble 60 (by norm_num) hposD hendD
    (completeDrilling env m0 now0 random0) now random hd1 hp1 hc1 n hn
  have h3 := press_and_hold_completes env id 59 (by norm_num) hposE hendE
    (completeDrilling env m0 now0 random0) now random hd1 hp1 hc1 n (by omega)
  have h4 := press_and_hold_descends env roundDouble 60 (by norm_num) hposD
    (completeDrilling env m0 now0 random0) now random hd1 hp1 59 (by norm_num)
  exact ⟨h1, by rw [h2.1, h1], by rw [h3.1, h1], by rw [h4.1, h1], h4.2⟩

theorem second_result_after_press_witness :
    (completeDrilling ⟨Real.sqrt, fun t => t * (Real.pi / 180)⟩
        ({ isDrilling := true, startTime := 1000, controlsEnabled := false,
           crosshairPosition := ⟨0.25, 0.5, 0.125⟩, drillPosition := ⟨0.25, 0, 0.125⟩,
           drillRotationY := 6, drillVisible := true, implantPosition := ⟨0, 0, 0⟩,
           implantModelPosition := ⟨0, 0, 0⟩, implantVisible := false,
           targetPosition := ⟨0.25, 0, 0.125⟩, hasOnComplete := true, completed := [],
           pendingDrillFrames := 0 } : Manager ℝ) 4000 0.5).completed.length
      = ([] : List (Results ℝ)).length + 1
    ∧ (run ⟨Real.sqrt, fun t => t * (Real.pi / 180)⟩ roundDouble
        (completeDrilling ⟨Real.sqrt, fun t => t * (Real.pi / 180)⟩
          ({ isDrilling := true, startTime := 1000, controlsEnabled := false,
             crosshairPosition := ⟨0.25, 0.5, 0.125⟩, drillPosition := ⟨0.25, 0, 0.125⟩,
             drillRotationY := 6, drillVisible := true, implantPosition := ⟨0, 0, 0⟩,
             implantModelPosition := ⟨0, 0, 0⟩, implantVisible := false,
             targetPosition := ⟨0.25, 0, 0.125⟩, hasOnComplete := true, completed := [],
             pendingDrillFrames := 0 } : Manager ℝ) 4000 0.5)
        (.mouseDown 0 9000 0.25 :: List.replicate 60 (.frame 9000 0.25))).completed.length
      = ([] : List (Results ℝ)).length + 2
    ∧ (run ⟨Real.sqrt, fun t => t * (Real.pi / 180)⟩ id
        (completeDrilling ⟨Real.sqrt, fun t => t * (Real.pi / 180)⟩
          ({ isDrilling := true, startTime := 1000, controlsEnabled := false,
             crosshairPosition := ⟨0.25, 0.5, 0.125⟩, drillPosition := ⟨0.25, 0, 0.125⟩,
             drillRotationY := 6, drillVisible := true, implantPosition := ⟨0, 0, 0⟩,
             implantModelPosition := ⟨0, 0, 0⟩, implantVisible := false,
             targetPosition := ⟨0.25, 0, 0.125⟩, hasOnComplete := true, completed := [],
             pendingDrillFrames := 0 } : Manager ℝ) 4000 0.5)
        (.mouseDown 0 9000 0.25 :: List.replicate 60 (.frame 9000 0.25))).completed.length
      = ([] : List (Results ℝ)).length + 2
    ∧ (run ⟨Real.sqrt, fun t => t * (Real.pi / 180)⟩ roundDouble
        (completeDrilling ⟨Real.sqrt, fun t => t * (Real.pi / 180)⟩
          ({ isDrilling := true, startTime := 1000, controlsEnabled := false,
             crosshairPosition := ⟨0.25, 0.5, 0.125⟩, drillPosition := ⟨0.25, 0, 0.125⟩,
             drillRotationY := 6, drillVisible := true, implantPosition := ⟨0, 0, 0⟩,
             implantModelPosition := ⟨0, 0, 0⟩, implantVisible := false,
             targetPosition := ⟨0.25, 0, 0.125⟩, hasOnComplete := true, completed := [],
             pendingDrillFrames := 0 } : Manager ℝ) 4000 0.5)
        (.mouseDown 0 9000 0.25 :: List.replicate 59 (.frame 9000 0.25))).completed.length
      = ([] : List (Results ℝ)).length + 1
    ∧ (run ⟨Real.sqrt, fun t => t * (Real.pi / 180)⟩ roundDouble
        (completeDrilling ⟨Real.sqrt, fun t => t * (Real.pi / 180)⟩
          ({ isDrilling := true, startTime := 1000, controlsEnabled := false,
             crosshairPosition := ⟨0.25, 0.5, 0.125⟩, drillPosition := ⟨0.25, 0, 0.125⟩,
             drillRotationY := 6, drillVisible := true, implantPosition := ⟨0, 0, 0⟩,
             implantModelPosition := ⟨0, 0, 0⟩, implantVisible := false,
             targetPosition := ⟨0.25, 0, 0.125⟩, hasOnComplete := true, completed := [],
             pendingDrillFrames := 0 } : Manager ℝ) 4000 0.5)
        (.mouseDown 0 9000 0.25 :: List.replicate 59 (.frame 9000 0.25))).isDrilling
      = true :=
  second_result_after_press ⟨Real.sqrt, fun t => t * (Real.pi / 180)⟩
    ({ isDrilling := true, startTime := 1000, controlsEnabled := false,
       crosshairPosition := ⟨0.25, 0.5, 0.125⟩, drillPosition := ⟨0.25, 0, 0.125⟩,
       drillRotationY := 6, drillVisible := true, implantPosition := ⟨0, 0, 0⟩,
       implantModelPosition := ⟨0, 0, 0⟩, implantVisible := false,
       targetPosition := ⟨0.25, 0, 0.125⟩, hasOnComplete := true, completed := [],
       pendingDrillFrames := 0 } : Manager ℝ) 4000 0.5 9000 0.25 rfl rfl 60 le_rfl

end Drilling

end SimulationManager
